import Mathlib

/-!
Verification development for the perano-lang compiler: a shallow embedding
of the AST (src/ast.rs) and of the three code generators
(src/elf/asm_generator.rs, src/pe/codegen.rs + src/pe/pe_writer.rs,
src/nvm/codegen.rs), together with theorems about function emission order,
calling conventions, branch patching, import-table construction and the
integer-printing helpers.
-/

set_option maxHeartbeats 1000000
set_option maxRecDepth 4000

namespace Perano

/-! ## AST (src/ast.rs, plus the inline-asm / template-string variants
used by src/nvm/codegen.rs) -/

inductive BinaryOp where
  | add | sub | mul | div | mod
  | equal | notEqual | less | lessEqual | greater | greaterEqual
  | andOp | orOp | concat
deriving DecidableEq, Repr

inductive UnaryOp where
  | neg | notOp
deriving DecidableEq, Repr

mutual

inductive Expression where
  | number (n : Int)
  | str (s : String)
  | ident (name : String)
  | binary (op : BinaryOp) (left right : Expression)
  | unary (op : UnaryOp) (operand : Expression)
  | call (function : String) (args : List Expression)
  | moduleCall (module function : String) (args : List Expression)
  | arrayAccess (name : String) (index : Expression)
  | stringIndex (string index : Expression)
  | addressOf (operand : Expression)
  | deref (operand : Expression)
  | templateString (parts : List TemplateStringPart)
  | evalIns (instruction : Expression)
deriving Repr

inductive TemplateStringPart where
  | lit (s : String)
  | exprPart (e : Expression) (format : Option String)
deriving Repr

end

inductive AsmPart where
  | lit (s : String)
  | var (name : String)
deriving Repr

inductive Statement where
  | varDecl (name : String) (varType : Option String) (value : Option Expression)
  | arrayDecl (name : String) (elementType : String) (size : Nat)
  | assignment (name : String) (value : Expression)
  | arrayAssignment (name : String) (index value : Expression)
  | pointerAssignment (target value : Expression)
  | ifS (condition : Expression) (thenBody : List Statement)
        (elseBody : Option (List Statement))
  | forS (init : Option Statement) (condition : Option Expression)
         (post : Option Statement) (body : List Statement)
  | ret (value : Option Expression)
  | expr (e : Expression)
  | inlineAsm (parts : List AsmPart)
deriving Repr

structure Parameter where
  name : String
  paramType : String
deriving Repr

structure PFunction where
  name : String
  params : List Parameter
  returnType : Option String
  body : List Statement
  isExported : Bool
deriving Repr

structure PModule where
  name : String
  functions : List PFunction
deriving Repr

structure Import where
  path : String
  aliasName : Option String
deriving Repr

/-- `Program.modules` embeds the Rust `HashMap<String, Module>`: an
association list whose list order stands for the (unspecified) iteration
order of the hash map. -/
structure Program where
  pack : String
  imports : List Import
  functions : List PFunction
  modules : List (String × PModule)
deriving Repr

/-! ## ELF backend (src/elf/asm_generator.rs)

The generator is embedded in writer style: every Rust
`self.output.push_str(s)` becomes one `String` element of the emitted list,
and the remaining mutable fields of `AsmGenerator` form the state that is
threaded through. -/

structure ElfSt where
  labelCounter : Nat
  stringLiterals : List String
  vars : List (String × Int)
  stackOffset : Int
deriving Repr, DecidableEq

def ElfSt.initial : ElfSt := ⟨0, [], [], 0⟩

/-- `AsmGenerator::next_label`. -/
def elfNextLabel (st : ElfSt) : ElfSt × String :=
  ({ st with labelCounter := st.labelCounter + 1 },
   ".L" ++ toString st.labelCounter)

def elfArgRegs : List String := ["%rdi", "%rsi", "%rdx", "%rcx", "%r8", "%r9"]

/-- The `match op` arm bodies of `generate_expression` for `Binary`. -/
def elfBinaryOpLines : BinaryOp → List String
  | BinaryOp.add => ["    addq    %rcx, %rax\n"]
  | BinaryOp.sub => ["    subq    %rcx, %rax\n"]
  | BinaryOp.mul => ["    imulq   %rcx, %rax\n"]
  | BinaryOp.div => ["    cqto\n", "    idivq   %rcx\n"]
  | BinaryOp.mod => ["    cqto\n", "    idivq   %rcx\n", "    movq    %rdx, %rax\n"]
  | BinaryOp.equal => ["    cmpq    %rcx, %rax\n", "    sete    %al\n", "    movzbq  %al, %rax\n"]
  | BinaryOp.notEqual => ["    cmpq    %rcx, %rax\n", "    setne   %al\n", "    movzbq  %al, %rax\n"]
  | BinaryOp.less => ["    cmpq    %rcx, %rax\n", "    setl    %al\n", "    movzbq  %al, %rax\n"]
  | BinaryOp.lessEqual => ["    cmpq    %rcx, %rax\n", "    setle   %al\n", "    movzbq  %al, %rax\n"]
  | BinaryOp.greater => ["    cmpq    %rcx, %rax\n", "    setg    %al\n", "    movzbq  %al, %rax\n"]
  | BinaryOp.greaterEqual => ["    cmpq    %rcx, %rax\n", "    setge   %al\n", "    movzbq  %al, %rax\n"]
  | BinaryOp.concat => []
  | _ => []

/-- The pop sequence of the `Call` / `ModuleCall` arms: one
`popq <reg>` per argument index below six. -/
def elfPopLines (n : Nat) : List String :=
  (elfArgRegs.take n).map (fun r => "    popq    " ++ r ++ "\n")

mutual

/-- `AsmGenerator::generate_expression`. -/
def elfGenExpr (e : Expression) (st : ElfSt) : ElfSt × List String :=
  match e with
  | Expression.number n =>
      (st, ["    movq    $" ++ toString n ++ ", %rax\n"])
  | Expression.ident name =>
      match st.vars.lookup name with
      | some offset => (st, ["    movq    " ++ toString offset ++ "(%rbp), %rax\n"])
      | none => (st, [])
  | Expression.binary op left right =>
      let (st1, o1) := elfGenExpr right st
      let (st2, o2) := elfGenExpr left st1
      (st2, o1 ++ ["    pushq   %rax\n"] ++ o2 ++ ["    popq    %rcx\n"]
        ++ elfBinaryOpLines op)
  | Expression.unary op operand =>
      let (st1, o1) := elfGenExpr operand st
      match op with
      | UnaryOp.neg => (st1, o1 ++ ["    negq    %rax\n"])
      | UnaryOp.notOp =>
          (st1, o1 ++ ["    testq   %rax, %rax\n", "    sete    %al\n",
                       "    movzbq  %al, %rax\n"])
  | Expression.call function args =>
      let (st1, o1) := elfGenArgsRev args st
      (st1, o1 ++ elfPopLines args.length
        ++ ["    call    " ++ function ++ "\n"])
  | Expression.arrayAccess name index =>
      let (st1, o1) := elfGenExpr index st
      match st1.vars.lookup name with
      | some baseOffset =>
          (st1, o1 ++ ["    imulq   $8, %rax\n",
                       "    addq    $" ++ toString baseOffset ++ ", %rax\n",
                       "    addq    %rbp, %rax\n",
                       "    movq    (%rax), %rax\n"])
      | none => (st1, o1)
  | Expression.moduleCall module function args =>
      let (st1, o1) := elfGenArgsRev args st
      (st1, o1 ++ elfPopLines args.length
        ++ ["    call    " ++ module ++ "_" ++ function ++ "\n"])
  | Expression.str s =>
      let idx := st.stringLiterals.length
      ({ st with stringLiterals := st.stringLiterals ++ [s] },
       ["    leaq    .LS" ++ toString idx ++ "(%rip), %rax\n"])
  | Expression.stringIndex string index =>
      match string with
      | Expression.str s =>
          let idx := st.stringLiterals.length
          let st1 := { st with stringLiterals := st.stringLiterals ++ [s] }
          let (st2, o2) := elfGenExpr index st1
          (st2, o2 ++ ["    leaq    .LS" ++ toString idx ++ "(%rip), %rcx\n",
                       "    addq    %rax, %rcx\n",
                       "    movzbq  (%rcx), %rax\n"])
      | _ => (st, [])
  | Expression.addressOf operand =>
      match operand with
      | Expression.ident name =>
          match st.vars.lookup name with
          | some offset =>
              (st, ["    leaq    " ++ toString offset ++ "(%rbp), %rax\n"])
          | none => (st, [])
      | _ => (st, [])
  | Expression.deref operand =>
      let (st1, o1) := elfGenExpr operand st
      (st1, o1 ++ ["    movq    (%rax), %rax\n"])
  | Expression.templateString _ => (st, [])
  | Expression.evalIns _ => (st, [])

/-- The loop `for arg in args.iter().rev() { generate_expression(arg); push }`
of the `Call` and `ModuleCall` arms: the arguments are evaluated from the
last to the first, each followed by a `pushq %rax`. -/
def elfGenArgsRev (args : List Expression) (st : ElfSt) : ElfSt × List String :=
  match args with
  | [] => (st, [])
  | a :: rest =>
      let (st1, o1) := elfGenArgsRev rest st
      let (st2, o2) := elfGenExpr a st1
      (st2, o1 ++ o2 ++ ["    pushq   %rax\n"])

end

mutual

/-- `AsmGenerator::generate_statement`. -/
def elfGenStmt (s : Statement) (st : ElfSt) : ElfSt × List String :=
  match s with
  | Statement.varDecl name _ value =>
      match value with
      | some e =>
          let (st1, o1) := elfGenExpr e st
          let newOffset := st1.stackOffset - 8
          ({ st1 with stackOffset := newOffset,
                      vars := (name, newOffset) :: st1.vars },
           o1 ++ ["    movq    %rax, " ++ toString newOffset ++ "(%rbp)\n"])
      | none => (st, [])
  | Statement.arrayDecl name _ size =>
      let arraySize : Int := (size : Int) * 8
      let newOffset := st.stackOffset - arraySize
      let st1 := { st with stackOffset := newOffset,
                           vars := (name, newOffset) :: st.vars }
      (st1, (List.range size).map (fun i =>
        "    movq    $0, " ++ toString (newOffset + (i : Int) * 8) ++ "(%rbp)\n"))
  | Statement.assignment name value =>
      let (st1, o1) := elfGenExpr value st
      match st1.vars.lookup name with
      | some offset =>
          (st1, o1 ++ ["    movq    %rax, " ++ toString offset ++ "(%rbp)\n"])
      | none => (st1, o1)
  | Statement.pointerAssignment target value =>
      let (st1, o1) := elfGenExpr value st
      let (st2, o2) := elfGenExpr target st1
      (st2, o1 ++ ["    pushq   %rax\n"] ++ o2
        ++ ["    popq    %rcx\n", "    movq    %rcx, (%rax)\n"])
  | Statement.arrayAssignment name index value =>
      let (st1, o1) := elfGenExpr value st
      let (st2, o2) := elfGenExpr index st1
      match st2.vars.lookup name with
      | some baseOffset =>
          (st2, o1 ++ ["    pushq   %rax\n"] ++ o2
            ++ ["    imulq   $8, %rax\n",
                "    addq    $" ++ toString baseOffset ++ ", %rax\n",
                "    addq    %rbp, %rax\n",
                "    popq    %rcx\n", "    movq    %rcx, (%rax)\n"])
      | none => (st2, o1 ++ ["    pushq   %rax\n"] ++ o2)
  | Statement.ret value =>
      match value with
      | some e =>
          let (st1, o1) := elfGenExpr e st
          (st1, o1 ++ ["    leave\n", "    ret\n"])
      | none =>
          (st, ["    movl    $0, %eax\n", "    leave\n", "    ret\n"])
  | Statement.expr e => elfGenExpr e st
  | Statement.ifS condition thenBody elseBody =>
      let (st1, o1) := elfGenExpr condition st
      let (st2, elseLabel) := elfNextLabel st1
      let (st3, endLabel) := elfNextLabel st2
      let (st4, o4) := elfGenStmts thenBody st3
      let (st5, o5) :=
        match elseBody with
        | some body => elfGenStmts body st4
        | none => (st4, [])
      (st5, o1 ++ ["    testq   %rax, %rax\n",
                   "    je      " ++ elseLabel ++ "\n"]
        ++ o4 ++ ["    jmp     " ++ endLabel ++ "\n", elseLabel ++ ":\n"]
        ++ o5 ++ [endLabel ++ ":\n"])
  | Statement.forS _ condition _ body =>
      let (st1, loopLabel) := elfNextLabel st
      let (st2, endLabel) := elfNextLabel st1
      let (st3, o3) :=
        match condition with
        | some cond =>
            let (stc, oc) := elfGenExpr cond st2
            (stc, oc ++ ["    testq   %rax, %rax\n",
                         "    je      " ++ endLabel ++ "\n"])
        | none => (st2, [])
      let (st4, o4) := elfGenStmts body st3
      (st4, [loopLabel ++ ":\n"] ++ o3 ++ o4
        ++ ["    jmp     " ++ loopLabel ++ "\n", endLabel ++ ":\n"])
  | Statement.inlineAsm _ => (st, [])

def elfGenStmts (l : List Statement) (st : ElfSt) : ElfSt × List String :=
  match l with
  | [] => (st, [])
  | s :: rest =>
      let (st1, o1) := elfGenStmt s st
      let (st2, o2) := elfGenStmts rest st1
      (st2, o1 ++ o2)

end

/-- The parameter loop of `generate_user_function` / `generate_module_function`:
for each parameter with index `i < 6`, decrement the local offset by 8,
record the parameter at that offset and emit the spill of the i-th argument
register.  Returns the local variable map, the final local offset and the
spill lines. -/
def elfBindParams : List Parameter → Nat → Int → List (String × Int) →
    List (String × Int) × Int × List String
  | [], _, off, vars => (vars, off, [])
  | p :: rest, i, off, vars =>
      if i < 6 then
        let off' := off - 8
        let vars' := (p.name, off') :: vars
        let (v, o, lines) := elfBindParams rest (i + 1) off' vars'
        (v, o, ("    movq    " ++ List.getD elfArgRegs i "" ++ ", "
           ++ toString off' ++ "(%rbp)\n") :: lines)
      else
        elfBindParams rest (i + 1) off vars

/-- The common part of `generate_user_function` / `generate_module_function`
after the symbol lines: prologue, parameter spills, body under the local
variable map, default epilogue; the caller's variable map and stack offset
are saved and restored around the body. -/
def elfGenFunctionCommon (func : PFunction) (st : ElfSt) : ElfSt × List String :=
  let (localVars, localOffset, spillLines) := elfBindParams func.params 0 0 []
  let savedVars := st.vars
  let savedOffset := st.stackOffset
  let stBody := { st with vars := localVars, stackOffset := localOffset }
  let (st1, o1) := elfGenStmts func.body stBody
  ({ st1 with vars := savedVars, stackOffset := savedOffset },
   ["    pushq   %rbp\n", "    movq    %rsp, %rbp\n", "    subq    $64, %rsp\n"]
   ++ spillLines
   ++ o1
   ++ ["    movl    $0, %eax\n", "    leave\n", "    ret\n\n"])

/-- `AsmGenerator::generate_user_function`. -/
def elfGenUserFunction (func : PFunction) (st : ElfSt) : ElfSt × List String :=
  let (st1, o1) := elfGenFunctionCommon func st
  (st1, ["    .globl " ++ func.name ++ "\n", func.name ++ ":\n"] ++ o1)

/-- `AsmGenerator::generate_module_function` (the label is pushed as two
separate strings in the source). -/
def elfGenModuleFunction (moduleName : String) (func : PFunction) (st : ElfSt) :
    ElfSt × List String :=
  let (st1, o1) := elfGenFunctionCommon func st
  (st1, ["    .globl " ++ moduleName ++ "_" ++ func.name ++ "\n",
         moduleName ++ "_" ++ func.name, ":\n"] ++ o1)

/-- A fixed tail of a stdio thunk: `xorl; leave; ret`. -/
def elfShimTail : List String :=
  ["    xorl    %eax, %eax\n", "    leave\n", "    ret\n\n"]

/-- `AsmGenerator::generate_stdio_functions`: the hand-written thunks around
`printf`, `putchar`, `scanf`, `getchar`, `fgets`, `fflush`, `strlen`.  The
four format strings are appended to the literal table at the indices current
when each thunk is emitted. -/
def elfGenStdioFunctions (st : ElfSt) : ElfSt × List String :=
  let n := st.stringLiterals.length
  ({ st with stringLiterals :=
      st.stringLiterals ++ ["%ld\\n", "%ld", "%s", "%s\\n", "%ld"] },
   ["    .globl stdio_Println\n", "stdio_Println:\n",
    "    pushq   %rbp\n", "    movq    %rsp, %rbp\n",
    "    movq    %rdi, %rsi\n",
    "    leaq    .LS" ++ toString n ++ "(%rip), %rdi\n",
    "    xorl    %eax, %eax\n", "    call    printf@PLT\n"] ++ elfShimTail ++
   ["    .globl stdio_Print\n", "stdio_Print:\n",
    "    pushq   %rbp\n", "    movq    %rsp, %rbp\n",
    "    movq    %rdi, %rsi\n",
    "    leaq    .LS" ++ toString (n + 1) ++ "(%rip), %rdi\n",
    "    xorl    %eax, %eax\n", "    call    printf@PLT\n"] ++ elfShimTail ++
   ["    .globl stdio_PrintStr\n", "stdio_PrintStr:\n",
    "    pushq   %rbp\n", "    movq    %rsp, %rbp\n",
    "    movq    %rdi, %rsi\n",
    "    leaq    .LS" ++ toString (n + 2) ++ "(%rip), %rdi\n",
    "    xorl    %eax, %eax\n", "    call    printf@PLT\n"] ++ elfShimTail ++
   ["    .globl stdio_PrintlnStr\n", "stdio_PrintlnStr:\n",
    "    pushq   %rbp\n", "    movq    %rsp, %rbp\n",
    "    movq    %rdi, %rsi\n",
    "    leaq    .LS" ++ toString (n + 3) ++ "(%rip), %rdi\n",
    "    xorl    %eax, %eax\n", "    call    printf@PLT\n"] ++ elfShimTail ++
   ["    .globl stdio_PrintChar\n", "stdio_PrintChar:\n",
    "    pushq   %rbp\n", "    movq    %rsp, %rbp\n",
    "    movl    %edi, %edi\n", "    call    putchar@PLT\n"] ++ elfShimTail ++
   ["    .globl stdio_ReadInt\n", "stdio_ReadInt:\n",
    "    pushq   %rbp\n", "    movq    %rsp, %rbp\n",
    "    subq    $16, %rsp\n",
    "    leaq    .LS" ++ toString (n + 4) ++ "(%rip), %rdi\n",
    "    leaq    -8(%rbp), %rsi\n",
    "    xorl    %eax, %eax\n", "    call    scanf@PLT\n",
    "    movq    -8(%rbp), %rax\n", "    leave\n", "    ret\n\n"] ++
   ["    .globl stdio_ReadChar\n", "stdio_ReadChar:\n",
    "    pushq   %rbp\n", "    movq    %rsp, %rbp\n",
    "    call    getchar@PLT\n", "    cltq\n", "    leave\n", "    ret\n\n"] ++
   ["    .globl stdio_ReadLine\n", "stdio_ReadLine:\n",
    "    pushq   %rbp\n", "    movq    %rsp, %rbp\n",
    "    pushq   %rbx\n", "    movq    %rdi, %rbx\n",
    "    movq    %rsi, %rdx\n", "    movq    %rbx, %rdi\n",
    "    movq    stdin@GOTPCREL(%rip), %rax\n", "    movq    (%rax), %rsi\n",
    "    call    fgets@PLT\n", "    testq   %rax, %rax\n",
    "    je      .LReadLine_fail\n", "    movq    %rbx, %rdi\n",
    "    call    strlen@PLT\n", "    jmp     .LReadLine_end\n",
    ".LReadLine_fail:\n", "    xorl    %eax, %eax\n", ".LReadLine_end:\n",
    "    popq    %rbx\n", "    leave\n", "    ret\n\n"] ++
   ["    .globl stdio_Flush\n", "stdio_Flush:\n",
    "    pushq   %rbp\n", "    movq    %rsp, %rbp\n",
    "    movq    stdout@GOTPCREL(%rip), %rax\n", "    movq    (%rax), %rdi\n",
    "    call    fflush@PLT\n"] ++ elfShimTail)

/-- The module loop of `AsmGenerator::generate`: every module except
`stdio`, and within a module its exported functions in order. -/
def elfGenModuleList (mods : List (String × PModule)) (st : ElfSt) :
    ElfSt × List String :=
  match mods with
  | [] => (st, [])
  | (moduleName, m) :: rest =>
      if moduleName = "stdio" then elfGenModuleList rest st
      else
        let (st1, o1) := elfGenExportedFns moduleName m.functions st
        let (st2, o2) := elfGenModuleList rest st1
        (st2, o1 ++ o2)
where
  elfGenExportedFns (moduleName : String) (fns : List PFunction) (st : ElfSt) :
      ElfSt × List String :=
    match fns with
    | [] => (st, [])
    | f :: rest =>
        if f.isExported then
          let (st1, o1) := elfGenModuleFunction moduleName f st
          let (st2, o2) := elfGenExportedFns moduleName rest st1
          (st2, o1 ++ o2)
        else elfGenExportedFns moduleName rest st

/-- The user-function loop of `AsmGenerator::generate`: every program
function other than `main`, in source order. -/
def elfGenUserList (fns : List PFunction) (st : ElfSt) : ElfSt × List String :=
  match fns with
  | [] => (st, [])
  | f :: rest =>
      if f.name ≠ "main" then
        let (st1, o1) := elfGenUserFunction f st
        let (st2, o2) := elfGenUserList rest st1
        (st2, o1 ++ o2)
      else elfGenUserList rest st

/-- The `.rodata` dump at the end of `AsmGenerator::generate`. -/
def elfRodata (literals : List String) : List String :=
  if literals.isEmpty then []
  else
    "\n    .section .rodata\n" ::
      literals.enum.flatMap (fun (i, s) =>
        [".LS" ++ toString i ++ ":\n", "    .string \"" ++ s ++ "\"\n"])

/-- `AsmGenerator::generate`: the full ELF assembly emission. -/
def elfGenerate (program : Program) : ElfSt × List String :=
  let st0 := ElfSt.initial
  let (st1, o1) := elfGenModuleList program.modules st0
  let (st2, o2) := elfGenUserList program.functions st1
  let (st3, o3) :=
    if (program.modules.lookup "stdio").isSome then elfGenStdioFunctions st2
    else (st2, [])
  let (st4, o4) :=
    match program.functions.find? (fun f => f.name = "main") with
    | some mainFunc => elfGenStmts mainFunc.body st3
    | none => (st3, [])
  (st4,
   ["    .text\n"] ++ o1 ++ o2 ++ o3 ++
   ["    .globl main\n", "main:\n",
    "    pushq   %rbp\n", "    movq    %rsp, %rbp\n", "    subq    $64, %rsp\n"]
   ++ o4 ++
   ["    movl    $0, %eax\n", "    leave\n", "    ret\n"]
   ++ elfRodata st4.stringLiterals)

/-! ## PE backend (src/pe/codegen.rs)

Machine bytes are modelled as `Nat` values below 256.  The generator is
fuel-indexed because `generate_iperine_call` and `generate_module_call`
re-generate the callee's body inline at every call site: that recursion is
through the program, not through the term, so the Rust functions need not
terminate.  Fuel is consumed exactly when a callee body is re-entered, so
`.error .fuelOut` for every fuel means the source recursion diverges. -/

def u32ofInt (v : Int) : Nat := (v % 4294967296).toNat

def u64ofInt (v : Int) : Nat := (v % 18446744073709551616).toNat

/-- `i32::to_le_bytes`. -/
def i32le (v : Int) : List Nat :=
  let u := u32ofInt v
  [u % 256, u / 256 % 256, u / 65536 % 256, u / 16777216 % 256]

/-- `i64::to_le_bytes`. -/
def i64le (v : Int) : List Nat :=
  let u := u64ofInt v
  [u % 256, u / 256 % 256, u / 65536 % 256, u / 16777216 % 256,
   u / 4294967296 % 256, u / 1099511627776 % 256,
   u / 281474976710656 % 256, u / 72057594037927936 % 256]

/-- A Rust `as u8` cast of an `i32`. -/
def u8ofInt (v : Int) : Nat := (v % 256).toNat

structure PESt where
  code : List Nat
  vars : List (String × Int)
  stackOffset : Int
  target : String
  inMain : Bool
deriving Repr, DecidableEq

def peEmit (bytes : List Nat) (st : PESt) : PESt :=
  { st with code := st.code ++ bytes }

def peEmitI32 (v : Int) (st : PESt) : PESt := peEmit (i32le v) st

def peEmitI64 (v : Int) (st : PESt) : PESt := peEmit (i64le v) st

/-- `CodeGen::patch_i32`: overwrite the four bytes at `pos`. -/
def patchI32 (pos : Nat) (v : Int) (code : List Nat) : List Nat :=
  code.take pos ++ i32le v ++ code.drop (pos + 4)

def pePatchI32 (pos : Nat) (v : Int) (st : PESt) : PESt :=
  { st with code := patchI32 pos v st.code }

inductive PEErr where
  | panicked (msg : String)
  | fuelOut
deriving DecidableEq, Repr

/-- The `match op` arms of the PE `Binary` case. -/
def peBinaryOpBytes : BinaryOp → List Nat
  | BinaryOp.add => [0x48, 0x01, 0xC8]
  | BinaryOp.sub => [0x48, 0x29, 0xC8]
  | BinaryOp.mul => [0x48, 0x0F, 0xAF, 0xC1]
  | BinaryOp.div => [0x48, 0x31, 0xD2, 0x48, 0xF7, 0xF9]
  | BinaryOp.equal => [0x48, 0x39, 0xC8, 0x0F, 0x94, 0xC0, 0x48, 0x0F, 0xB6, 0xC0]
  | BinaryOp.notEqual => [0x48, 0x39, 0xC8, 0x0F, 0x95, 0xC0, 0x48, 0x0F, 0xB6, 0xC0]
  | BinaryOp.less => [0x48, 0x39, 0xC8, 0x0F, 0x9C, 0xC0, 0x48, 0x0F, 0xB6, 0xC0]
  | BinaryOp.lessEqual => [0x48, 0x39, 0xC8, 0x0F, 0x9E, 0xC0, 0x48, 0x0F, 0xB6, 0xC0]
  | BinaryOp.greater => [0x48, 0x39, 0xC8, 0x0F, 0x9F, 0xC0, 0x48, 0x0F, 0xB6, 0xC0]
  | BinaryOp.greaterEqual => [0x48, 0x39, 0xC8, 0x0F, 0x9D, 0xC0, 0x48, 0x0F, 0xB6, 0xC0]
  | BinaryOp.mod => [0x48, 0x31, 0xD2, 0x48, 0xF7, 0xF9, 0x48, 0x89, 0xD0]
  | BinaryOp.concat => []
  | _ => []

/-- `CodeGen::emit_exit`. -/
def peEmitExit (code : Int) (st : PESt) : PESt :=
  if st.target = "elf" then
    peEmit [0x0F, 0x05] (peEmitI32 code (peEmit
      [0x48, 0xC7, 0xC0, 0x3C, 0x00, 0x00, 0x00, 0x48, 0xC7, 0xC7] st))
  else
    peEmitI32 0x10000000 (peEmit [0xFF, 0x15]
      (peEmitI32 code (peEmit [0x48, 0x83, 0xEC, 0x20, 0xB9] st)))

/-- `CodeGen::emit_exit_with_rax`. -/
def peEmitExitWithRax (st : PESt) : PESt :=
  peEmit [0x48, 0x89, 0xC7, 0x48, 0xC7, 0xC0, 0x3C, 0x00, 0x00, 0x00,
          0x0F, 0x05] st

/-- The UTF-8 bytes of a (ASCII) string literal, as in Rust `as_bytes`. -/
def strBytes (s : String) : List Nat := s.data.map Char.toNat

/-- `CodeGen::emit_println`. -/
def peEmitPrintln (text : String) (st : PESt) : PESt :=
  if st.target = "elf" then
    let strLen : Nat := text.length + 1
    let st1 := peEmit ([0xEB, strLen % 256]) st
    let stringAddr := st1.code.length
    let st2 := peEmit (strBytes text ++ [0x0A]) st1
    let st3 := peEmit [0x48, 0xC7, 0xC0, 0x01, 0x00, 0x00, 0x00,
                       0x48, 0xC7, 0xC7, 0x01, 0x00, 0x00, 0x00] st2
    let leaPos := st3.code.length + 7
    let st4 := peEmitI32 ((stringAddr : Int) - (leaPos : Int))
                 (peEmit [0x48, 0x8D, 0x35] st3)
    peEmit [0x0F, 0x05] (peEmitI32 (strLen : Int) (peEmit [0x48, 0xC7, 0xC2] st4))
  else
    let strLen : Nat := text.length + 1
    let st1 := peEmitI32 0x20000000 (peEmit
      [0x48, 0x83, 0xEC, 0x38, 0xB9, 0xF5, 0xFF, 0xFF, 0xFF, 0xFF, 0x15] st)
    let st2 := peEmit ([0x48, 0x89, 0xC3, 0xEB, strLen % 256]) st1
    let stringAddr := st2.code.length
    let st3 := peEmit (strBytes text ++ [0x0A]) st2
    let st4 := peEmit [0x48, 0x89, 0xD9] st3
    let leaPos := st4.code.length + 7
    let st5 := peEmitI32 ((stringAddr : Int) - (leaPos : Int))
                 (peEmit [0x48, 0x8D, 0x15] st4)
    let st6 := peEmitI32 (strLen : Int) (peEmit [0x41, 0xB8] st5)
    let st7 := peEmit [0x4C, 0x8D, 0x4C, 0x24, 0x20,
                       0x48, 0xC7, 0x44, 0x24, 0x20, 0x00, 0x00, 0x00, 0x00] st6
    peEmit [0x48, 0x83, 0xC4, 0x38] (peEmitI32 0x20080000 (peEmit [0xFF, 0x15] st7))

/-- The shared itoa body of `emit_println_int` / `emit_print_int`;
`firstByte` is the byte stored at the top of the buffer (`0x0A` for the
`ln` variant, `0x00` otherwise). -/
def peEmitIntCommon (firstByte : Nat) (st : PESt) : PESt :=
  if st.target = "elf" then
    let st1 := peEmit [0x48, 0x83, 0xEC, 0x20, 0x48, 0x8D, 0x7C, 0x24, 0x1E,
                       0xC6, 0x07, firstByte, 0x48, 0xFF, 0xCF,
                       0x48, 0x89, 0xC3, 0x48, 0x85, 0xC0, 0x75, 0x05,
                       0xC6, 0x07, 0x30, 0xEB, 0x29,
                       0x48, 0x31, 0xC9, 0x48, 0x85, 0xDB, 0x79, 0x0F,
                       0x48, 0x89, 0xDA, 0x48, 0xC1, 0xFA, 0x3F,
                       0x48, 0x31, 0xD3, 0x48, 0x29, 0xD3, 0x48, 0xFF, 0xC1,
                       0x41, 0xB8, 0x0A, 0x00, 0x00, 0x00] st
    let loopStart := st1.code.length
    let st2 := peEmit [0x48, 0x89, 0xD8, 0x48, 0x31, 0xD2, 0x49, 0xF7, 0xF0,
                       0x80, 0xC2, 0x30, 0x88, 0x17, 0x48, 0xFF, 0xCF,
                       0x48, 0x89, 0xC3, 0x48, 0x85, 0xC0] st1
    let back : Int := (loopStart : Int) - (st2.code.length : Int) - 2
    let st3 := peEmit [0x75, u8ofInt back] st2
    peEmit [0x48, 0x85, 0xC9, 0x74, 0x03, 0xC6, 0x07, 0x2D, 0x48, 0xFF, 0xCF,
            0x48, 0xFF, 0xC7, 0x48, 0x8D, 0x74, 0x24, 0x20, 0x48, 0x29, 0xFE,
            0x48, 0x89, 0xF2, 0x48, 0x89, 0xFE,
            0x48, 0xC7, 0xC0, 0x01, 0x00, 0x00, 0x00,
            0x48, 0xC7, 0xC7, 0x01, 0x00, 0x00, 0x00,
            0x0F, 0x05, 0x48, 0x83, 0xC4, 0x20] st3
  else
    let st1 := peEmit [0x48, 0x83, 0xEC, 0x60, 0x48, 0x8D, 0x4C, 0x24, 0x5E,
                       0xC6, 0x01, firstByte, 0x48, 0xFF, 0xC9,
                       0x48, 0x85, 0xC0, 0x0F, 0x85] st
    let notZeroPatch := st1.code.length
    let st2 := peEmit [0xC6, 0x01, 0x30, 0xE9] (peEmitI32 0 st1)
    let donePatch1 := st2.code.length
    let st3 := peEmitI32 0 st2
    let notZeroPos := st3.code.length
    let st4 := pePatchI32 notZeroPatch
                 ((notZeroPos : Int) - (notZeroPatch : Int) - 4) st3
    let st5 := peEmit [0x48, 0x89, 0xC2, 0x48, 0xC1, 0xFA, 0x3F,
                       0x48, 0x31, 0xD0, 0x48, 0x29, 0xD0,
                       0x4C, 0x89, 0xD3, 0x49, 0x89, 0xD3,
                       0x41, 0xB8, 0x0A, 0x00, 0x00, 0x00] st4
    let loopPos := st5.code.length
    let st6 := peEmit [0x48, 0x31, 0xD2, 0x49, 0xF7, 0xF0, 0x80, 0xC2, 0x30,
                       0x88, 0x11, 0x48, 0xFF, 0xC9, 0x48, 0x85, 0xC0] st5
    let loopBack : Int := (loopPos : Int) - (st6.code.length : Int) - 2
    let st7 := peEmit [0x75, u8ofInt loopBack,
                       0x4D, 0x85, 0xDB, 0x79, 0x03, 0xC6, 0x01, 0x2D,
                       0x48, 0xFF, 0xC9, 0x4C, 0x89, 0xDA] st6
    let donePos := st7.code.length
    let st8 := pePatchI32 donePatch1
                 ((donePos : Int) - (donePatch1 : Int) - 4) st7
    let st9 := peEmit [0x48, 0xFF, 0xC1, 0x48, 0x8D, 0x44, 0x24, 0x60,
                       0x48, 0x29, 0xC8, 0x48, 0x89, 0x4C, 0x24, 0x28,
                       0x48, 0x89, 0x44, 0x24, 0x30,
                       0xB9, 0xF5, 0xFF, 0xFF, 0xFF, 0xFF, 0x15] st8
    let st10 := peEmitI32 0x20000000 st9
    let st11 := peEmit [0x48, 0x89, 0xC1, 0x48, 0x8B, 0x54, 0x24, 0x28,
                        0x4C, 0x8B, 0x44, 0x24, 0x30, 0x4C, 0x8D, 0x4C, 0x24, 0x38,
                        0x48, 0xC7, 0x44, 0x24, 0x20, 0x00, 0x00, 0x00, 0x00,
                        0xFF, 0x15] st10
    peEmit [0x48, 0x83, 0xC4, 0x60] (peEmitI32 0x20080000 st11)

/-- `CodeGen::emit_println_int`. -/
def peEmitPrintlnInt (st : PESt) : PESt := peEmitIntCommon 0x0A st

/-- `CodeGen::emit_print_int`. -/
def peEmitPrintInt (st : PESt) : PESt := peEmitIntCommon 0x00 st

/-- `CodeGen::emit_print_str`. -/
def peEmitPrintStr (text : String) (st : PESt) : PESt :=
  if st.target = "elf" then
    let strLen : Nat := text.length
    let st1 := peEmit ([0xEB, strLen % 256]) st
    let stringAddr := st1.code.length
    let st2 := peEmit (strBytes text) st1
    let st3 := peEmit [0x48, 0xC7, 0xC0, 0x01, 0x00, 0x00, 0x00,
                       0x48, 0xC7, 0xC7, 0x01, 0x00, 0x00, 0x00] st2
    let leaPos := st3.code.length + 7
    let st4 := peEmitI32 ((stringAddr : Int) - (leaPos : Int))
                 (peEmit [0x48, 0x8D, 0x35] st3)
    peEmit [0x0F, 0x05] (peEmitI32 (strLen : Int) (peEmit [0x48, 0xC7, 0xC2] st4))
  else
    let strLen : Nat := text.length
    let st1 := peEmitI32 0x20000000 (peEmit
      [0x48, 0x83, 0xEC, 0x38, 0xB9, 0xF5, 0xFF, 0xFF, 0xFF, 0xFF, 0x15] st)
    let st2 := peEmit ([0x48, 0x89, 0xC3, 0xEB, strLen % 256]) st1
    let stringAddr := st2.code.length
    let st3 := peEmit (strBytes text) st2
    let st4 := peEmit [0x48, 0x89, 0xD9] st3
    let leaPos := st4.code.length + 7
    let st5 := peEmitI32 ((stringAddr : Int) - (leaPos : Int))
                 (peEmit [0x48, 0x8D, 0x15] st4)
    let st6 := peEmitI32 (strLen : Int) (peEmit [0x41, 0xB8] st5)
    let st7 := peEmit [0x4C, 0x8D, 0x4C, 0x24, 0x20,
                       0x48, 0xC7, 0x44, 0x24, 0x20, 0x00, 0x00, 0x00, 0x00] st6
    peEmit [0x48, 0x83, 0xC4, 0x38] (peEmitI32 0x20080000 (peEmit [0xFF, 0x15] st7))

/-- `CodeGen::emit_print_char`. -/
def peEmitPrintChar (st : PESt) : PESt :=
  if st.target = "elf" then
    peEmit [0x48, 0x83, 0xEC, 0x10, 0x88, 0x04, 0x24,
            0x48, 0xC7, 0xC0, 0x01, 0x00, 0x00, 0x00,
            0x48, 0xC7, 0xC7, 0x01, 0x00, 0x00, 0x00,
            0x48, 0x89, 0xE6, 0x48, 0xC7, 0xC2, 0x01, 0x00, 0x00, 0x00,
            0x0F, 0x05, 0x48, 0x83, 0xC4, 0x10] st
  else
    let st1 := peEmitI32 0x20000000 (peEmit
      [0x48, 0x83, 0xEC, 0x48, 0x88, 0x44, 0x24, 0x30,
       0xB9, 0xF5, 0xFF, 0xFF, 0xFF, 0xFF, 0x15] st)
    let st2 := peEmit [0x48, 0x89, 0xC1, 0x48, 0x8D, 0x54, 0x24, 0x30,
                       0x41, 0xB8, 0x01, 0x00, 0x00, 0x00,
                       0x4C, 0x8D, 0x4C, 0x24, 0x38,
                       0x48, 0xC7, 0x44, 0x24, 0x20, 0x00, 0x00, 0x00, 0x00,
                       0xFF, 0x15] st1
    peEmit [0x48, 0x83, 0xC4, 0x48] (peEmitI32 0x20080000 st2)

/-- `CodeGen::emit_read_int`.  The non-ELF branch emits the sentinel
`0x20100000` for `ReadFile`, which `patch_import_addresses` never resolves. -/
def peEmitReadInt (st : PESt) : PESt :=
  if st.target = "elf" then
    let st1 := peEmit [0x48, 0x83, 0xEC, 0x20,
                       0x48, 0x31, 0xC0, 0x48, 0x31, 0xFF, 0x48, 0x89, 0xE6,
                       0x48, 0xC7, 0xC2, 0x14, 0x00, 0x00, 0x00, 0x0F, 0x05,
                       0x48, 0x31, 0xC0, 0x48, 0x31, 0xC9, 0x48, 0x89, 0xE6,
                       0x80, 0x3E, 0x2D, 0x75, 0x07,
                       0x48, 0xFF, 0xC1, 0x48, 0xFF, 0xC6] st
    let loopStart := st1.code.length
    let st2 := peEmit [0x0F, 0xB6, 0x1E, 0x80, 0xFB, 0x30, 0x72, 0x13,
                       0x80, 0xFB, 0x39, 0x77, 0x0F,
                       0x48, 0x6B, 0xC0, 0x0A, 0x80, 0xEB, 0x30,
                       0x48, 0x0F, 0xB6, 0xDB, 0x48, 0x01, 0xD8,
                       0x48, 0xFF, 0xC6] st1
    let back : Int := (loopStart : Int) - (st2.code.length : Int) - 2
    peEmit [0xEB, u8ofInt back,
            0x48, 0x85, 0xC9, 0x74, 0x03, 0x48, 0xF7, 0xD8,
            0x48, 0x83, 0xC4, 0x20] st2
  else
    let st1 := peEmitI32 0x20000000 (peEmit
      [0x48, 0x83, 0xEC, 0x48, 0xB9, 0xF6, 0xFF, 0xFF, 0xFF, 0xFF, 0x15] st)
    let st2 := peEmitI32 0x20100000 (peEmit
      [0x48, 0x89, 0xC1, 0x48, 0x8D, 0x54, 0x24, 0x30,
       0x41, 0xB8, 0x14, 0x00, 0x00, 0x00, 0x4C, 0x8D, 0x4C, 0x24, 0x28,
       0x48, 0xC7, 0x44, 0x24, 0x20, 0x00, 0x00, 0x00, 0x00, 0xFF, 0x15] st1)
    let st3 := peEmit [0x48, 0x31, 0xC0, 0x48, 0x31, 0xC9,
                       0x48, 0x8D, 0x74, 0x24, 0x30,
                       0x80, 0x3E, 0x2D, 0x75, 0x07,
                       0x48, 0xFF, 0xC1, 0x48, 0xFF, 0xC6] st2
    let loopStart := st3.code.length
    let st4 := peEmit [0x0F, 0xB6, 0x1E, 0x80, 0xFB, 0x30, 0x72, 0x13,
                       0x80, 0xFB, 0x39, 0x77, 0x0F,
                       0x48, 0x6B, 0xC0, 0x0A, 0x80, 0xEB, 0x30,
                       0x48, 0x0F, 0xB6, 0xDB, 0x48, 0x01, 0xD8,
                       0x48, 0xFF, 0xC6] st3
    let back : Int := (loopStart : Int) - (st4.code.length : Int) - 2
    peEmit [0xEB, u8ofInt back,
            0x48, 0x85, 0xC9, 0x74, 0x03, 0x48, 0xF7, 0xD8,
            0x48, 0x83, 0xC4, 0x48] st4

/-- `CodeGen::emit_read_char`. -/
def peEmitReadChar (st : PESt) : PESt :=
  if st.target = "elf" then
    peEmit [0x48, 0x83, 0xEC, 0x10,
            0x48, 0x31, 0xC0, 0x48, 0x31, 0xFF, 0x48, 0x89, 0xE6,
            0x48, 0xC7, 0xC2, 0x01, 0x00, 0x00, 0x00, 0x0F, 0x05,
            0x48, 0x0F, 0xB6, 0x04, 0x24, 0x48, 0x83, 0xC4, 0x10] st
  else
    let st1 := peEmitI32 0x20000000 (peEmit
      [0x48, 0x83, 0xEC, 0x48, 0xB9, 0xF6, 0xFF, 0xFF, 0xFF, 0xFF, 0x15] st)
    let st2 := peEmitI32 0x20100000 (peEmit
      [0x48, 0x89, 0xC1, 0x48, 0x8D, 0x54, 0x24, 0x30,
       0x41, 0xB8, 0x01, 0x00, 0x00, 0x00, 0x4C, 0x8D, 0x4C, 0x24, 0x38,
       0x48, 0xC7, 0x44, 0x24, 0x20, 0x00, 0x00, 0x00, 0x00, 0xFF, 0x15] st1)
    peEmit [0x48, 0x0F, 0xB6, 0x44, 0x24, 0x30, 0x48, 0x83, 0xC4, 0x48] st2

/-- `CodeGen::emit_flush`.  The non-ELF branch emits the sentinel
`0x20180000` for `FlushFileBuffers`, never resolved by the writer. -/
def peEmitFlush (st : PESt) : PESt :=
  if st.target = "elf" then
    peEmit [0x48, 0xC7, 0xC0, 0x4A, 0x00, 0x00, 0x00,
            0x48, 0xC7, 0xC7, 0x01, 0x00, 0x00, 0x00, 0x0F, 0x05] st
  else
    let st1 := peEmitI32 0x20000000 (peEmit
      [0x48, 0x83, 0xEC, 0x28, 0xB9, 0xF5, 0xFF, 0xFF, 0xFF, 0xFF, 0x15] st)
    let st2 := peEmitI32 0x20180000 (peEmit [0x48, 0x89, 0xC1, 0xFF, 0x15] st1)
    peEmit [0x48, 0x83, 0xC4, 0x28] st2

mutual

/-- `CodeGen::generate_expression`.  The whole PE generator is indexed by a
recursion-depth fuel (decremented at every recursive entry): the source
functions recurse through the program when a call site inlines a callee's
body, so they need not terminate, and `.error .fuelOut` for every fuel is
exactly that divergence. -/
def peGenExpr (prog : Program) (fuel : Nat) (e : Expression) (st : PESt) :
    Except PEErr PESt :=
  match fuel with
  | 0 => .error PEErr.fuelOut
  | fuel + 1 =>
    match e with
    | Expression.number n => .ok (peEmitI64 n (peEmit [0x48, 0xB8] st))
    | Expression.ident name =>
        match st.vars.lookup name with
        | some offset => .ok (peEmitI32 offset (peEmit [0x48, 0x8B, 0x85] st))
        | none => .ok st
    | Expression.binary op left right => do
        let st1 ← peGenExpr prog fuel right st
        let st2 ← peGenExpr prog fuel left (peEmit [0x50] st1)
        .ok (peEmit (peBinaryOpBytes op) (peEmit [0x59] st2))
    | Expression.unary op operand => do
        let st1 ← peGenExpr prog fuel operand st
        match op with
        | UnaryOp.neg => .ok (peEmit [0x48, 0xF7, 0xD8] st1)
        | UnaryOp.notOp =>
            .ok (peEmit [0x48, 0x85, 0xC0, 0x0F, 0x94, 0xC0,
                         0x48, 0x0F, 0xB6, 0xC0] st1)
    | Expression.arrayAccess name index => do
        let st1 ← peGenExpr prog fuel index st
        match st1.vars.lookup name with
        | some baseOffset =>
            let st2 := peEmit [0x48, 0x6B, 0xC0, 0x08] st1
            let st3 :=
              if -128 ≤ baseOffset ∧ baseOffset < 128 then
                peEmit [0x48, 0x83, 0xC0, u8ofInt baseOffset] st2
              else peEmitI32 baseOffset (peEmit [0x48, 0x05] st2)
            .ok (peEmit [0x48, 0x01, 0xE8, 0x48, 0x8B, 0x00] st3)
        | none => .ok st1
    | Expression.call function args =>
        if function = "exit" then .ok (peEmitExit 0 st)
        else if function = "println" then
          match args with
          | [] => .ok st
          | Expression.str s :: _ => .ok (peEmitPrintln s st)
          | a :: _ => do
              let st1 ← peGenExpr prog fuel a st
              .ok (peEmitPrintlnInt st1)
        else if function = "len" ∧ args.length = 1 then
          match args with
          | Expression.str s :: _ =>
              .ok (peEmitI64 (s.length : Int) (peEmit [0x48, 0xB8] st))
          | _ => .ok (peEmit [0x48, 0x31, 0xC0] st)
        else if function = "concat" ∧ args.length = 2 then
          .ok (peEmit [0x48, 0x31, 0xC0] st)
        else if function = "compare" ∧ args.length = 2 then
          match args with
          | Expression.str s1 :: Expression.str s2 :: _ =>
              let result : Int := if s1 = s2 then 0 else if s1 < s2 then -1 else 1
              .ok (peEmitI64 result (peEmit [0x48, 0xB8] st))
          | _ => .ok (peEmit [0x48, 0x31, 0xC0] st)
        else peIperineCall prog fuel function args st
    | Expression.moduleCall module function args =>
        peModuleCall prog fuel module function args st
    | Expression.stringIndex string index =>
        match string with
        | Expression.str _ => peGenExpr prog fuel index st
        | _ => .ok st
    | Expression.addressOf operand =>
        match operand with
        | Expression.ident name =>
            match st.vars.lookup name with
            | some offset => .ok (peEmitI32 offset (peEmit [0x48, 0x8D, 0x85] st))
            | none => .ok st
        | _ => .ok st
    | Expression.deref operand => do
        let st1 ← peGenExpr prog fuel operand st
        .ok (peEmit [0x48, 0x8B, 0x00] st1)
    | _ => .ok st

/-- The argument loop shared by `generate_iperine_call` and the generic path
of `generate_module_call`: each argument (while parameters remain) is
evaluated and spilled to a fresh stack slot recorded under the parameter's
name. -/
def peGenArgsBind (prog : Program) (fuel : Nat) (args : List Expression)
    (params : List Parameter) (st : PESt) : Except PEErr PESt :=
  match fuel with
  | 0 => .error PEErr.fuelOut
  | fuel + 1 =>
    match args, params with
    | [], _ => .ok st
    | _ :: _, [] => .ok st
    | a :: rest, p :: ps => do
        let st1 ← peGenExpr prog fuel a st
        let newOff := st1.stackOffset - 8
        let st2 := peEmitI32 newOff (peEmit [0x48, 0x89, 0x85]
          { st1 with stackOffset := newOff, vars := (p.name, newOff) :: st1.vars })
        peGenArgsBind prog fuel rest ps st2

/-- `CodeGen::generate_iperine_call`: the callee's body is re-generated
inline; the caller's variable map, stack offset and `in_main` flag are saved
and restored around it. -/
def peIperineCall (prog : Program) (fuel : Nat) (function : String)
    (args : List Expression) (st : PESt) : Except PEErr PESt :=
  match fuel with
  | 0 => .error PEErr.fuelOut
  | fuel + 1 =>
    let savedVars := st.vars
    let savedOffset := st.stackOffset
    let savedInMain := st.inMain
    match prog.functions.find? (fun f => f.name = function) with
    | some func => do
        let st1 ← peGenArgsBind prog fuel args func.params
          { st with inMain := false }
        let st2 ← peGenStmts prog fuel func.body st1
        .ok { st2 with vars := savedVars, stackOffset := savedOffset,
                       inMain := savedInMain }
    | none => .ok st

/-- `CodeGen::generate_module_call`: the stdio builtins are special-cased;
otherwise the named module function is looked up, non-exported or missing
functions and missing modules panic, and the body is inlined as in
`generate_iperine_call`. -/
def peModuleCall (prog : Program) (fuel : Nat) (module function : String)
    (args : List Expression) (st : PESt) : Except PEErr PESt :=
  match fuel with
  | 0 => .error PEErr.fuelOut
  | fuel + 1 =>
    if module = "stdio" ∧ function = "Println" ∧ args.length = 1 then
      match args with
      | a :: _ => do
          let st1 ← peGenExpr prog fuel a st
          .ok (peEmitPrintlnInt st1)
      | [] => .ok st
    else if module = "stdio" ∧ function = "Print" ∧ args.length = 1 then
      match args with
      | a :: _ => do
          let st1 ← peGenExpr prog fuel a st
          .ok (peEmitPrintInt st1)
      | [] => .ok st
    else if module = "stdio" ∧ function = "PrintlnStr" ∧ args.length = 1 then
      match args with
      | Expression.str s :: _ => .ok (peEmitPrintln s st)
      | _ => .ok st
    else if module = "stdio" ∧ function = "PrintStr" ∧ args.length = 1 then
      match args with
      | Expression.str s :: _ => .ok (peEmitPrintStr s st)
      | _ => .ok st
    else if module = "stdio" ∧ function = "PrintChar" ∧ args.length = 1 then
      match args with
      | a :: _ => do
          let st1 ← peGenExpr prog fuel a st
          .ok (peEmitPrintChar st1)
      | [] => .ok st
    else if module = "stdio" ∧ function = "ReadInt" ∧ args.length = 0 then
      .ok (peEmitReadInt st)
    else if module = "stdio" ∧ function = "ReadChar" ∧ args.length = 0 then
      .ok (peEmitReadChar st)
    else if module = "stdio" ∧ function = "Flush" ∧ args.length = 0 then
      .ok (peEmitFlush st)
    else
      let savedVars := st.vars
      let savedOffset := st.stackOffset
      let savedInMain := st.inMain
      match (prog.modules.lookup module) with
      | some moduleDef =>
          match moduleDef.functions.find? (fun f => f.name = function) with
          | some func =>
              if ¬ func.isExported then
                .error (PEErr.panicked ("Function '" ++ function
                  ++ "' is not exported from module '" ++ module ++ "'"))
              else do
                let st1 ← peGenArgsBind prog fuel args func.params
                  { st with inMain := false }
                let st2 ← peGenStmts prog fuel func.body st1
                .ok { st2 with vars := savedVars, stackOffset := savedOffset,
                               inMain := savedInMain }
          | none =>
              .error (PEErr.panicked ("Function '" ++ function
                ++ "' not found in module '" ++ module ++ "'"))
      | none => .error (PEErr.panicked ("Module '" ++ module ++ "' not found"))

/-- `CodeGen::generate_statement`. -/
def peGenStmt (prog : Program) (fuel : Nat) (s : Statement) (st : PESt) :
    Except PEErr PESt :=
  match fuel with
  | 0 => .error PEErr.fuelOut
  | fuel + 1 =>
    match s with
    | Statement.varDecl name _ value =>
        match value with
        | some e => do
            let st1 ← peGenExpr prog fuel e st
            let newOff := st1.stackOffset - 8
            .ok (peEmitI32 newOff (peEmit [0x48, 0x89, 0x85]
              { st1 with stackOffset := newOff,
                         vars := (name, newOff) :: st1.vars }))
        | none => .ok st
    | Statement.arrayDecl name _ size =>
        let arraySize : Int := (size : Int) * 8
        let newOff := st.stackOffset - arraySize
        let st1 := { st with stackOffset := newOff,
                             vars := (name, newOff) :: st.vars }
        .ok ((List.range size).foldl (fun acc i =>
          peEmitI32 0 (peEmitI32 (newOff + (i : Int) * 8)
            (peEmit [0x48, 0xC7, 0x85] acc))) st1)
    | Statement.arrayAssignment name index value => do
        let st1 ← peGenExpr prog fuel value st
        let st2 ← peGenExpr prog fuel index (peEmit [0x50] st1)
        match st2.vars.lookup name with
        | some baseOffset =>
            let st3 := peEmit [0x48, 0x6B, 0xC0, 0x08] st2
            let st4 :=
              if -128 ≤ baseOffset ∧ baseOffset < 128 then
                peEmit [0x48, 0x83, 0xC0, u8ofInt baseOffset] st3
              else peEmitI32 baseOffset (peEmit [0x48, 0x05] st3)
            .ok (peEmit [0x48, 0x01, 0xE8, 0x59, 0x48, 0x89, 0x08] st4)
        | none => .ok st2
    | Statement.assignment name value => do
        let st1 ← peGenExpr prog fuel value st
        match st1.vars.lookup name with
        | some offset => .ok (peEmitI32 offset (peEmit [0x48, 0x89, 0x85] st1))
        | none => .ok st1
    | Statement.pointerAssignment target value => do
        let st1 ← peGenExpr prog fuel value st
        let st2 ← peGenExpr prog fuel target (peEmit [0x50] st1)
        .ok (peEmit [0x59, 0x48, 0x89, 0x08] st2)
    | Statement.ret value => do
        let st1 ←
          match value with
          | some e => peGenExpr prog fuel e st
          | none => .ok (peEmit [0x48, 0x31, 0xC0] st)
        if st1.inMain then
          if st1.target = "elf" then .ok (peEmitExitWithRax st1)
          else
            .ok (peEmitI32 0x10000000 (peEmit
              [0x89, 0xC1, 0x48, 0x83, 0xEC, 0x20, 0xFF, 0x15] st1))
        else .ok st1
    | Statement.expr e => peGenExpr prog fuel e st
    | Statement.ifS condition thenBody elseBody => do
        let st1 ← peGenExpr prog fuel condition st
        let st2 := peEmit [0x48, 0x85, 0xC0, 0x0F, 0x84] st1
        let elseJumpPos := st2.code.length
        let st3 ← peGenStmts prog fuel thenBody (peEmitI32 0 st2)
        let st4 := peEmit [0xE9] st3
        let endJumpPos := st4.code.length
        let st5 := peEmitI32 0 st4
        let elseLabel := st5.code.length
        let st6 := pePatchI32 elseJumpPos
          ((elseLabel : Int) - (elseJumpPos : Int) - 4) st5
        let st7 ←
          match elseBody with
          | some body => peGenStmts prog fuel body st6
          | none => .ok st6
        let endLabel := st7.code.length
        .ok (pePatchI32 endJumpPos ((endLabel : Int) - (endJumpPos : Int) - 4) st7)
    | Statement.forS _ condition _ body =>
        let loopStart := st.code.length
        match condition with
        | some cond => do
            let st1 ← peGenExpr prog fuel cond st
            let st2 := peEmit [0x48, 0x85, 0xC0, 0x0F, 0x84] st1
            let endJumpPos := st2.code.length
            let st3 ← peGenStmts prog fuel body (peEmitI32 0 st2)
            let st4 := peEmit [0xE9] st3
            let st5 := peEmitI32 ((loopStart : Int) - (st4.code.length : Int) - 4) st4
            let endLabel := st5.code.length
            .ok (pePatchI32 endJumpPos
              ((endLabel : Int) - (endJumpPos : Int) - 4) st5)
        | none => do
            let st3 ← peGenStmts prog fuel body st
            let st4 := peEmit [0xE9] st3
            .ok (peEmitI32 ((loopStart : Int) - (st4.code.length : Int) - 4) st4)
    | _ => .ok st

def peGenStmts (prog : Program) (fuel : Nat) (l : List Statement) (st : PESt) :
    Except PEErr PESt :=
  match fuel with
  | 0 => .error PEErr.fuelOut
  | fuel + 1 =>
    match l with
    | [] => .ok st
    | s :: rest => do
        let st1 ← peGenStmt prog fuel s st
        peGenStmts prog fuel rest st1

end

/-- `CodeGen::generate` followed by extraction of `MachineCode::code`. -/
def peGenerate (target : String) (prog : Program) (fuel : Nat) :
    Except PEErr (List Nat) :=
  match prog.functions.find? (fun f => f.name = "main") with
  | none => .error (PEErr.panicked "No main function found")
  | some mainFunc =>
      let st0 : PESt := ⟨[], [], 0, target, true⟩
      if target = "elf" then do
        let st2 ← peGenStmts prog fuel mainFunc.body
          (peEmit [0x55, 0x48, 0x89, 0xE5] st0)
        .ok (peEmitExitWithRax st2).code
      else do
        let st2 ← peGenStmts prog fuel mainFunc.body
          (peEmit [0x55, 0x48, 0x89, 0xE5, 0x48, 0x83, 0xEC, 0x40] st0)
        .ok (peEmitExit 0 st2).code

/-! ## PE container writer (src/pe/pe_writer.rs) -/

/-- `PEWriter::align`: `(value + alignment - 1) & !(alignment - 1)` on `u32`
(`alignment` a power of two, so the mask is `2^32 - alignment`). -/
def peAlign (value alignment : Nat) : Nat :=
  ((value + alignment - 1) % 4294967296) &&& (4294967296 - alignment)

def u32le (v : Nat) : List Nat := i32le (v : Int)

def u64le (v : Nat) : List Nat := i64le (v : Int)

def u16le (v : Nat) : List Nat := [v % 256, v / 256 % 256]

/-- Overwrite `bytes.length` bytes of `l` starting at `pos`
(a Rust slice `copy_from_slice`). -/
def spliceBytes (pos : Nat) (bytes : List Nat) (l : List Nat) : List Nat :=
  l.take pos ++ bytes ++ l.drop (pos + bytes.length)

/-- The `while data.len() % 2 != 0 { data.push(0) }` padding. -/
def padEven (l : List Nat) : List Nat :=
  if l.length % 2 = 0 then l else l ++ [0]

/-- `PEWriter::build_import_data`.  Note that `base_rva` is the fixed value
`0x1000 + section_alignment = 0x2000`, independent of the code size. -/
def peBuildImportData : List Nat :=
  let baseRva : Nat := 0x1000 + 0x1000
  let descriptorOffset : Nat := 0
  let data : List Nat := List.replicate 40 0
  let nameRva := baseRva + data.length
  let data := padEven (data ++ strBytes "KERNEL32.dll" ++ [0])
  let iltRva := baseRva + data.length
  let iltStart := data.length
  let data := data ++ List.replicate 32 0
  let iatRva := baseRva + data.length
  let iatStart := data.length
  let data := data ++ List.replicate 32 0
  let pos1 := data.length + baseRva
  let data := padEven (data ++ u16le 0 ++ strBytes "GetStdHandle" ++ [0])
  let pos2 := data.length + baseRva
  let data := padEven (data ++ u16le 0 ++ strBytes "WriteFile" ++ [0])
  let pos3 := data.length + baseRva
  let data := padEven (data ++ u16le 0 ++ strBytes "ExitProcess" ++ [0])
  let data := [pos1, pos2, pos3].enum.foldl (fun acc (i, rva) =>
    spliceBytes (iatStart + i * 8) (u64le rva)
      (spliceBytes (iltStart + i * 8) (u64le rva) acc)) data
  let data := spliceBytes descriptorOffset (u32le iltRva) data
  let data := spliceBytes (descriptorOffset + 4) (u32le 0) data
  let data := spliceBytes (descriptorOffset + 8) (u32le 0xFFFFFFFF) data
  let data := spliceBytes (descriptorOffset + 12) (u32le nameRva) data
  let data := spliceBytes (descriptorOffset + 16) (u32le iatRva) data
  data

/-- One iteration of the `patch_import_addresses` scan at index `i`:
on an `FF 15` pair, read the 32-bit displacement and, when it is one of the
three sentinels, overwrite it with the distance from the end of the
instruction (at RVA `i + 6 + 0x1000`) to IAT slot 0, 1 or 2. -/
def pePatchStep (iatRva : Nat) (i : Nat) (code : List Nat) : List Nat :=
  if code.getD i 0 = 0xFF ∧ code.getD (i + 1) 0 = 0x15 then
    let placeholder : Nat :=
      code.getD (i + 2) 0 + 256 * code.getD (i + 3) 0
        + 65536 * code.getD (i + 4) 0 + 16777216 * code.getD (i + 5) 0
    let targetRva : Int := (i : Int) + 6 + 0x1000
    if placeholder = 0x20000000 then
      spliceBytes (i + 2) (i32le ((iatRva : Int) - targetRva)) code
    else if placeholder = 0x20080000 then
      spliceBytes (i + 2) (i32le ((iatRva : Int) + 8 - targetRva)) code
    else if placeholder = 0x10000000 then
      spliceBytes (i + 2) (i32le ((iatRva : Int) + 16 - targetRva)) code
    else code
  else code

def pePatchLoop (iatRva : Nat) (i : Nat) (remaining : Nat) (code : List Nat) :
    List Nat :=
  match remaining with
  | 0 => code
  | r + 1 => pePatchLoop iatRva (i + 1) r (pePatchStep iatRva i code)

/-- `PEWriter::patch_import_addresses`: `idata_rva` is
`0x1000 + align(code_size, section_alignment)` and the IAT sits 40+14+32
bytes into the import data. -/
def patchImportAddresses (code : List Nat) (codeSize : Nat) : List Nat :=
  let idataRva := 0x1000 + peAlign codeSize 0x1000
  let iatRva := idataRva + 40 + 14 + 32
  pePatchLoop iatRva 0 (code.length - 5) code

/-- The `has_imports` scan of `PEWriter::write`: some 6-byte window is an
`FF 15` indirect call with one of the three import placeholders. -/
def peHasImports (code : List Nat) : Bool :=
  (List.range (code.length - 5)).any (fun i =>
    code.getD i 0 = 0xFF ∧ code.getD (i + 1) 0 = 0x15 ∧
      (let w : Nat := code.getD (i + 2) 0 + 256 * code.getD (i + 3) 0
        + 65536 * code.getD (i + 4) 0 + 16777216 * code.getD (i + 5) 0
       w = 0x20000000 ∨ w = 0x20080000 ∨ w = 0x10000000))

/-- The `while buffer.len() % m != 0 { buffer.push(0) }` padding. -/
def padToMultiple (m : Nat) (l : List Nat) : List Nat :=
  l ++ List.replicate ((m - l.length % m) % m) 0

/-- `PEWriter::write_dos_header` (64 bytes ending in `e_lfanew = 0x80`). -/
def peDosHeader : List Nat :=
  u16le 0x5A4D ++ [0x90, 0x00, 0x03, 0x00, 0x00, 0x00, 0x04, 0x00,
   0x00, 0x00, 0xFF, 0xFF, 0x00, 0x00, 0xB8, 0x00, 0x00, 0x00, 0x00, 0x00,
   0x00, 0x00, 0x40, 0x00, 0x00, 0x00] ++ List.replicate 8 0 ++
  [0x00, 0x00, 0x00, 0x00] ++ List.replicate 20 0 ++ u32le 0x80

/-- `PEWriter::write_dos_stub`. -/
def peDosStub : List Nat :=
  [0x0E, 0x1F, 0xBA, 0x0E, 0x00, 0xB4, 0x09, 0xCD,
   0x21, 0xB8, 0x01, 0x4C, 0xCD, 0x21, 0x54, 0x68,
   0x69, 0x73, 0x20, 0x70, 0x72, 0x6F, 0x67, 0x72,
   0x61, 0x6D, 0x20, 0x63, 0x61, 0x6E, 0x6E, 0x6F,
   0x74, 0x20, 0x62, 0x65, 0x20, 0x72, 0x75, 0x6E,
   0x20, 0x69, 0x6E, 0x20, 0x44, 0x4F, 0x53, 0x20,
   0x6D, 0x6F, 0x64, 0x65, 0x2E, 0x0D, 0x0D, 0x0A,
   0x24, 0x00, 0x00, 0x00, 0x00, 0x00, 0x00, 0x00]

/-- `PEWriter::write_coff_header`. -/
def peCoffHeader (numSections : Nat) : List Nat :=
  u16le 0x8664 ++ u16le numSections ++ u32le 0 ++ u32le 0 ++ u32le 0 ++
  u16le 0xF0 ++ u16le 0x0022

/-- `PEWriter::write_optional_header`. -/
def peOptionalHeader (codeSize importSize : Nat) : List Nat :=
  let totalSectionsSize :=
    if importSize > 0 then
      peAlign codeSize 0x1000 + peAlign importSize 0x1000
    else peAlign codeSize 0x1000
  let imageSize := 0x1000 + totalSectionsSize
  u16le 0x20B ++ [14, 0] ++ u32le codeSize ++ u32le importSize ++ u32le 0 ++
  u32le 0x1000 ++ u32le 0x1000 ++
  u64le 0x140000000 ++ u32le 0x1000 ++ u32le 0x200 ++
  u16le 6 ++ u16le 0 ++ u16le 0 ++ u16le 0 ++ u16le 6 ++ u16le 0 ++ u32le 0 ++
  u32le imageSize ++ u32le 0x200 ++ u32le 0 ++ u16le 3 ++ u16le 0x0140 ++
  u64le 0x100000 ++ u64le 0x1000 ++ u64le 0x100000 ++ u64le 0x1000 ++
  u32le 0 ++ u32le 16 ++
  u32le 0 ++ u32le 0 ++
  (if importSize > 0 then
    u32le (0x1000 + peAlign codeSize 0x1000) ++ u32le importSize
   else u32le 0 ++ u32le 0) ++
  (List.replicate 14 (u32le 0 ++ u32le 0)).flatten

/-- `PEWriter::write_section_headers`. -/
def peSectionHeaders (codeSize importSize numSections : Nat) : List Nat :=
  (strBytes ".text" ++ [0, 0, 0] ++
   u32le codeSize ++ u32le 0x1000 ++ u32le codeSize ++ u32le 0x200 ++
   u32le 0 ++ u32le 0 ++ u16le 0 ++ u16le 0 ++ u32le 0x60000020) ++
  (if numSections > 1 then
    strBytes ".idata" ++ [0, 0] ++
    u32le importSize ++ u32le (0x1000 + peAlign codeSize 0x1000) ++
    u32le importSize ++ u32le (0x200 + codeSize) ++
    u32le 0 ++ u32le 0 ++ u16le 0 ++ u16le 0 ++ u32le 0xC0000040
   else [])

/-- The buffer assembled by `PEWriter::write` before it is written to disk. -/
def peWriteImage (machineCode : List Nat) : List Nat :=
  let hasImports := peHasImports machineCode
  let importData := if hasImports then peBuildImportData else []
  let importSize :=
    if importData.isEmpty then 0 else peAlign importData.length 0x200
  let numSections := if importSize > 0 then 2 else 1
  let buffer := peDosHeader ++ peDosStub
  let buffer := buffer ++ List.replicate (0x80 - buffer.length) 0
  let buffer := buffer ++ u32le 0x00004550
  let buffer := buffer ++ peCoffHeader numSections
  let codeSize := peAlign machineCode.length 0x200
  let buffer := buffer ++ peOptionalHeader codeSize importSize
  let buffer := buffer ++ peSectionHeaders codeSize importSize numSections
  let buffer := padToMultiple 0x200 buffer
  let patchedCode :=
    if importSize > 0 then patchImportAddresses machineCode codeSize
    else machineCode
  let buffer := padToMultiple 0x200 (buffer ++ patchedCode)
  if importSize > 0 then padToMultiple 0x200 (buffer ++ importData)
  else buffer

/-! ## NVM backend (src/nvm/codegen.rs) -/

def opPUSH32 : Nat := 0x02
def opPOP : Nat := 0x04
def opSWAP : Nat := 0x06
def opADD : Nat := 0x10
def opSUB : Nat := 0x11
def opMUL : Nat := 0x12
def opDIV : Nat := 0x13
def opMOD : Nat := 0x14
def opEQ : Nat := 0x21
def opNEQ : Nat := 0x22
def opGT : Nat := 0x23
def opLT : Nat := 0x24
def opJMP32 : Nat := 0x30
def opJZ32 : Nat := 0x31
def opJNZ32 : Nat := 0x32
def opCALL32 : Nat := 0x33
def opRET : Nat := 0x34
def opLOAD : Nat := 0x40
def opSTORE : Nat := 0x41
def opLOADABS : Nat := 0x44
def opSTOREABS : Nat := 0x45
def opSYSCALL : Nat := 0x50

def sysEXIT : Nat := 0x00
def sysPRINT : Nat := 0x0F
def sysEXEC : Nat := 0x01
def sysOPEN : Nat := 0x02
def sysREAD : Nat := 0x03
def sysWRITE : Nat := 0x04
def sysCREATE : Nat := 0x05
def sysDELETE : Nat := 0x06
def sysCAPCHECK : Nat := 0x07
def sysCAPSPAWN : Nat := 0x08
def sysMSGSEND : Nat := 0x0A
def sysMSGRECEIVE : Nat := 0x0B
def sysPORTINBYTE : Nat := 0x0C
def sysPORTOUTBYTE : Nat := 0x0D
def sysGETLOCALADDR : Nat := 0x0E

/-- `i32::to_be_bytes`. -/
def i32be (v : Int) : List Nat :=
  let u := u32ofInt v
  [u / 16777216 % 256, u / 65536 % 256, u / 256 % 256, u % 256]

/-- `u32::to_be_bytes`. -/
def u32be (n : Nat) : List Nat :=
  [n / 16777216 % 256, n / 65536 % 256, n / 256 % 256, n % 256]

/-! String helpers mirroring the `str` operations used by the inline-asm
path of the NVM generator. -/

def isSpaceChar (c : Char) : Bool :=
  c = ' ' ∨ c = '\t' ∨ c = '\r' ∨ c = '\n'

/-- `str::trim` (ASCII whitespace). -/
def strTrim (s : String) : String :=
  ⟨(s.data.dropWhile isSpaceChar).reverse.dropWhile isSpaceChar |>.reverse⟩

def charsStart : List Char → List Char → Bool
  | [], _ => true
  | _ :: _, [] => false
  | p :: ps, c :: cs => p = c && charsStart ps cs

def charsContain (text pat : List Char) : Bool :=
  match text with
  | [] => pat.isEmpty
  | _ :: rest => charsStart pat text || charsContain rest pat

/-- `str::contains` for string patterns. -/
def strContains (s sub : String) : Bool := charsContain s.data sub.data

/-- `str::starts_with` for string patterns. -/
def strStarts (s sub : String) : Bool := charsStart sub.data s.data

/-- `str::lines`: split on newline, dropping a trailing empty segment and a
trailing carriage return on each line. -/
def strLines (s : String) : List String :=
  let parts := (s.splitOn "\n").map (fun l =>
    ⟨l.data.reverse.dropWhile (fun c => c = '\r') |>.reverse⟩)
  match parts.reverse with
  | last :: rest => if last = "" then rest.reverse else parts
  | [] => parts

/-- `str::find(';')`. -/
def findSemi (s : String) : Option Nat :=
  go s.data 0
where
  go : List Char → Nat → Option Nat
    | [], _ => none
    | c :: cs, i => if c = ';' then some i else go cs (i + 1)

theorem lengthDropWhileLe (p : α → Bool) (l : List α) :
    (l.dropWhile p).length ≤ l.length := by
  induction l with
  | nil => simp
  | cons a l ih =>
      simp only [List.dropWhile]
      split
      · exact Nat.le_succ_of_le ih
      · simp

def splitWsGo : List Char → List String
  | [] => []
  | c :: cs =>
      if h : isSpaceChar c then splitWsGo cs
      else
        let word := (c :: cs).takeWhile (fun x => ! isSpaceChar x)
        let rest := (c :: cs).dropWhile (fun x => ! isSpaceChar x)
        ⟨word⟩ :: splitWsGo rest
termination_by l => l.length
decreasing_by
  · simp
  · simp only [List.dropWhile]
    simp [h]
    exact Nat.lt_succ_of_le (lengthDropWhileLe _ _)

/-- `str::split_whitespace`. -/
def splitWs (s : String) : List String := splitWsGo s.data

/-- `str::to_lowercase` (ASCII). -/
def asciiLower (s : String) : String :=
  ⟨s.data.map (fun c =>
    if 'A' ≤ c ∧ c ≤ 'Z' then Char.ofNat (c.toNat + 32) else c)⟩

/-- `str::parse::<i32>()`. -/
def parseI32 (s : String) : Option Int :=
  let core (sign : Int) (digits : List Char) : Option Int :=
    if digits.isEmpty ∨ digits.any (fun c => ¬ c.isDigit) then none
    else
      let v : Int := sign * (digits.foldl (fun acc c =>
        acc * 10 + ((c.toNat : Int) - 48)) 0)
      if -2147483648 ≤ v ∧ v ≤ 2147483647 then some v else none
  match s.data with
  | '-' :: rest => core (-1) rest
  | '+' :: rest => core 1 rest
  | l => core 1 l

/-- `str::parse::<u8>()`. -/
def parseU8 (s : String) : Option Nat :=
  let core (digits : List Char) : Option Nat :=
    if digits.isEmpty ∨ digits.any (fun c => ¬ c.isDigit) then none
    else
      let v : Nat := digits.foldl (fun acc c => acc * 10 + (c.toNat - 48)) 0
      if v ≤ 255 then some v else none
  match s.data with
  | '+' :: rest => core rest
  | l => core l

/-- The mutable fields of `NVMCodeGen`.  `labels`, `localVars` and
`compileTimeStrings` are cons-updated association lists (first match =
latest insert, as for the Rust `HashMap`); `labelPatches`, `stringLiterals`
and `warnings` are `Vec`s kept in push order.  `labelCounter` embeds the
`static COUNTER` of `generate_label`, and `warnings` collects the
`eprintln!` diagnostics. -/
structure NVMSt where
  bytecode : List Nat
  labels : List (String × Nat)
  labelPatches : List (Nat × String)
  localVars : List (String × Nat)
  nextLocal : Nat
  loopStack : List (String × String)
  currentFunction : String
  stringLiterals : List (String × String)
  compileTimeStrings : List (String × String)
  vgaCursor : Nat
  labelCounter : Nat
  warnings : List String
deriving Repr, DecidableEq

def NVMSt.initial : NVMSt :=
  ⟨[], [], [], [], 0, [], "", [], [], 0xB8000 + 18 * 160, 0, []⟩

def nvmEmitByte (b : Nat) (st : NVMSt) : NVMSt :=
  { st with bytecode := st.bytecode ++ [b] }

def nvmEmitBytes (bs : List Nat) (st : NVMSt) : NVMSt :=
  { st with bytecode := st.bytecode ++ bs }

/-- `NVMCodeGen::emit_push32`. -/
def nvmEmitPush32 (v : Int) (st : NVMSt) : NVMSt :=
  nvmEmitBytes (opPUSH32 :: i32be v) st

/-- `NVMCodeGen::emit_label_ref`: record a patch at the current position and
emit four zero bytes. -/
def nvmEmitLabelRef (label : String) (st : NVMSt) : NVMSt :=
  { st with labelPatches := st.labelPatches ++ [(st.bytecode.length, label)],
            bytecode := st.bytecode ++ [0, 0, 0, 0] }

/-- `NVMCodeGen::add_label`. -/
def nvmAddLabel (label : String) (st : NVMSt) : NVMSt :=
  { st with labels := (label, st.bytecode.length) :: st.labels }

/-- `NVMCodeGen::generate_label`: `{prefix}_{current_function}_{count}`. -/
def nvmGenLabel (pre : String) (st : NVMSt) : NVMSt × String :=
  ({ st with labelCounter := st.labelCounter + 1 },
   pre ++ "_" ++ st.currentFunction ++ "_" ++ toString st.labelCounter)

/-- `NVMCodeGen::emit_asm_instruction`. -/
def nvmEmitAsmIns (line : String) (st : NVMSt) : NVMSt :=
  let line := strTrim line
  if line = "" then st
  else
    match splitWs line with
    | [] => st
    | ins :: rest =>
        let ins := asciiLower ins
        if ins = "push32" ∨ ins = "push" then
          match rest with
          | arg :: _ =>
              match parseI32 arg with
              | some v => nvmEmitPush32 v st
              | none => st
          | [] => st
        else if ins = "pop" then nvmEmitByte opPOP st
        else if ins = "add" then nvmEmitByte opADD st
        else if ins = "sub" then nvmEmitByte opSUB st
        else if ins = "mul" then nvmEmitByte opMUL st
        else if ins = "div" then nvmEmitByte opDIV st
        else if ins = "mod" then nvmEmitByte opMOD st
        else if ins = "syscall" then
          let st := nvmEmitByte opSYSCALL st
          match rest with
          | arg :: _ =>
              match parseU8 arg with
              | some v => nvmEmitByte v st
              | none =>
                  let an := asciiLower arg
                  let nr :=
                    if an = "exit" then some sysEXIT
                    else if an = "exec" then some sysEXEC
                    else if an = "read" then some sysREAD
                    else if an = "write" then some sysWRITE
                    else if an = "create" then some sysCREATE
                    else if an = "delete" then some sysDELETE
                    else if an = "cap_check" then some sysCAPCHECK
                    else if an = "cap_spawn" then some sysCAPSPAWN
                    else if an = "msg_send" then some sysMSGSEND
                    else if an = "msg_receive" ∨ an = "msg_recv" then some sysMSGRECEIVE
                    else if an = "inb" ∨ an = "port_in_byte" then some sysPORTINBYTE
                    else if an = "outb" ∨ an = "port_out_byte" then some sysPORTOUTBYTE
                    else if an = "get_local_addr" then some sysGETLOCALADDR
                    else none
                  match nr with
                  | some v => nvmEmitByte v st
                  | none =>
                      nvmEmitByte 0 { st with warnings := st.warnings ++
                        ["Warning: Unknown syscall name '" ++ arg
                          ++ "', defaulting to 0"] }
          | [] =>
              nvmEmitByte 0 { st with warnings := st.warnings ++
                ["Warning: syscall instruction without argument, defaulting to 0"] }
        else if ins = "ret" then nvmEmitByte opRET st
        else st

mutual

/-- `NVMCodeGen::has_return_or_exit` on one statement. -/
def nvmHasRetStmt : Statement → Bool
  | Statement.ret _ => true
  | Statement.inlineAsm parts =>
      parts.any (fun part =>
        match part with
        | AsmPart.lit s => strContains s "syscall" && strContains s "exit"
        | AsmPart.var _ => false)
  | Statement.ifS _ thenBody elseBody =>
      nvmHasRetStmts thenBody ||
        (match elseBody with
         | some body => nvmHasRetStmts body
         | none => false)
  | Statement.forS _ _ _ body => nvmHasRetStmts body
  | _ => false

/-- `NVMCodeGen::has_return_or_exit`. -/
def nvmHasRetStmts : List Statement → Bool
  | [] => false
  | s :: rest => nvmHasRetStmt s || nvmHasRetStmts rest

end

/-- The byte sequence emitted for the NVM `Binary` operator tags. -/
def nvmBinaryOpBytes : BinaryOp → List Nat
  | BinaryOp.add => [opADD]
  | BinaryOp.sub => [opSUB]
  | BinaryOp.mul => [opMUL]
  | BinaryOp.div => [opDIV]
  | BinaryOp.mod => [opMOD]
  | BinaryOp.equal => [opEQ]
  | BinaryOp.notEqual => [opNEQ]
  | BinaryOp.less => [opLT]
  | BinaryOp.greater => [opGT]
  | BinaryOp.lessEqual => opGT :: opPUSH32 :: i32be 0 ++ [opEQ]
  | BinaryOp.greaterEqual => opLT :: opPUSH32 :: i32be 0 ++ [opEQ]
  | _ => []

/-- The pure tail of the generic `novaria` arm (after the reversed argument
evaluation): lower the call to a syscall, a capability constant, or a
`CALL32` to the mangled symbol. -/
def nvmNovariaLower (module function : String) (st1 : NVMSt) : NVMSt :=
  if function = "Exit" then nvmEmitBytes [opSYSCALL, sysEXIT] st1
  else if function = "Exec" then nvmEmitBytes [opSYSCALL, sysEXEC] st1
  else if function = "FileRead" then nvmEmitBytes [opSYSCALL, sysREAD] st1
  else if function = "FileWrite" then nvmEmitBytes [opSYSCALL, sysWRITE] st1
  else if function = "FileCreate" then nvmEmitBytes [opSYSCALL, sysCREATE] st1
  else if function = "FileDelete" then nvmEmitBytes [opSYSCALL, sysDELETE] st1
  else if function = "CapCheck" then nvmEmitBytes [opSYSCALL, sysCAPCHECK] st1
  else if function = "CapSpawn" then nvmEmitBytes [opSYSCALL, sysCAPSPAWN] st1
  else if function = "MsgSend" then nvmEmitBytes [opSYSCALL, sysMSGSEND] st1
  else if function = "MsgReceive" then nvmEmitBytes [opSYSCALL, sysMSGRECEIVE] st1
  else if function = "PortInByte" then nvmEmitBytes [opSYSCALL, sysPORTINBYTE] st1
  else if function = "PortOutByte" then nvmEmitBytes [opSYSCALL, sysPORTOUTBYTE] st1
  else if function = "CAP_FS_READ" then nvmEmitPush32 1 st1
  else if function = "CAP_FS_WRITE" then nvmEmitPush32 2 st1
  else if function = "CAP_FS_CREATE" then nvmEmitPush32 4 st1
  else if function = "CAP_FS_DELETE" then nvmEmitPush32 8 st1
  else if function = "CAP_DRV_ACCESS" then nvmEmitPush32 16 st1
  else if function = "CAP_CAPS_MGMT" then nvmEmitPush32 32 st1
  else if function = "CAP_ALL" then nvmEmitPush32 65535 st1
  else
    nvmEmitLabelRef ("func_" ++ module ++ "_" ++ function)
      (nvmEmitByte opCALL32 st1)

/-- The `novaria` `FileCreateStr` special case on two string literals. -/
def nvmFileCreateStr (filename content : String) (st : NVMSt) : NVMSt :=
  let st1 := nvmEmitPush32 (content.length : Int) st
  let (st2, _) := nvmGenLabel "str_content" st1
  let st3 := nvmEmitPush32 0 st2
  let (st4, _) := nvmGenLabel "str_filename" st3
  let st5 := nvmEmitPush32 0 st4
  let st6 := nvmEmitBytes [opSYSCALL, sysCREATE] st5
  let (st7, skipLabel) := nvmGenLabel "skip_strings" st6
  let st8 := nvmEmitLabelRef skipLabel (nvmEmitByte opJMP32 st7)
  let st9 := nvmEmitBytes (strBytes filename ++ [0]) st8
  let st10 := nvmEmitBytes (strBytes content ++ [0]) st9
  let st11 := nvmAddLabel skipLabel st10
  nvmEmitPush32 0 st11

/-- The per-character `SYSCALL PRINT` loop for string-literal printing. -/
def nvmEmitPrintChars (s : String) (st : NVMSt) : NVMSt :=
  s.data.foldl (fun acc ch =>
    nvmEmitBytes [opSYSCALL, sysPRINT]
      (nvmEmitPush32 (ch.toNat : Int) acc)) st

mutual

/-- `NVMCodeGen::generate_expression` (panics become `.error`); the
`ModuleCall` arm inlines `stdio` print specialisation, the `novaria`
lowering and the generic mangled call. -/
def nvmGenExpr (prog : Program) (e : Expression) (st : NVMSt) :
    Except String NVMSt :=
  match e with
  | Expression.number n => .ok (nvmEmitPush32 n st)
  | Expression.str s =>
      let (st1, stringLabel) := nvmGenLabel "str" st
      let st2 := { st1 with stringLiterals :=
        st1.stringLiterals ++ [(stringLabel, s)] }
      let st3 := nvmEmitPush32 0 st2
      let patchPos := st3.bytecode.length - 4
      .ok { st3 with labelPatches := st3.labelPatches ++ [(patchPos, stringLabel)] }
  | Expression.templateString parts => do
      let st1 ← nvmGenTemplateParts prog parts st
      .ok (nvmEmitPush32 0 st1)
  | Expression.ident name =>
      match st.localVars.lookup name with
      | some localIndex => .ok (nvmEmitBytes [opLOAD, localIndex] st)
      | none => .error ("Variable not found: " ++ name)
  | Expression.binary op left right => do
      let st1 ← nvmGenExpr prog left st
      let st2 ← nvmGenExpr prog right st1
      .ok (nvmEmitBytes (nvmBinaryOpBytes op) st2)
  | Expression.unary op operand => do
      let st1 ← nvmGenExpr prog operand st
      match op with
      | UnaryOp.neg =>
          .ok (nvmEmitBytes [opSWAP, opSUB] (nvmEmitPush32 0 st1))
      | UnaryOp.notOp =>
          .ok (nvmEmitByte opEQ (nvmEmitPush32 0 st1))
  | Expression.call function args => do
      let st1 ← nvmGenArgsRev prog args st
      .ok (nvmEmitLabelRef ("func_" ++ function) (nvmEmitByte opCALL32 st1))
  | Expression.moduleCall module function args =>
      if module = "stdio" ∧ function = "Print" ∧ ¬ args.isEmpty then
        match args with
        | Expression.str s :: _ =>
            .ok (nvmEmitPush32 0 (nvmEmitPrintChars s st))
        | a :: _ => do
            let st1 ← nvmGenExpr prog a st
            let st2 := nvmEmitLabelRef "__print_int" (nvmEmitByte opCALL32 st1)
            .ok (nvmEmitPush32 0 st2)
        | [] =>
            -- `args.iter().rev()` over an empty list, then the generic call
            .ok (nvmEmitLabelRef ("func_" ++ module ++ "_" ++ function)
              (nvmEmitByte opCALL32 st))
      else if module = "stdio" ∧ function = "Println" ∧ ¬ args.isEmpty then
        match args with
        | Expression.str s :: _ =>
            let st1 := nvmEmitPrintChars s st
            let st2 := nvmEmitBytes [opSYSCALL, sysPRINT] (nvmEmitPush32 10 st1)
            .ok (nvmEmitPush32 0 st2)
        | Expression.templateString parts :: _ => do
            let st1 ← nvmGenTemplateParts prog parts st
            let st1 := nvmEmitPush32 0 st1
            .ok (nvmEmitBytes [opSYSCALL, sysPRINT] (nvmEmitPush32 10 st1))
        | a :: _ => do
            let st1 ← nvmGenExpr prog a st
            let st2 := nvmEmitLabelRef "__print_int" (nvmEmitByte opCALL32 st1)
            let st3 := nvmEmitBytes [opSYSCALL, sysPRINT] (nvmEmitPush32 10 st2)
            .ok (nvmEmitPush32 0 st3)
        | [] =>
            .ok (nvmEmitLabelRef ("func_" ++ module ++ "_" ++ function)
              (nvmEmitByte opCALL32 st))
      else if module = "novaria" then
        if function = "FileCreateStr" then
          match args with
          | Expression.str filename :: Expression.str content :: _ =>
              .ok (nvmFileCreateStr filename content st)
          | _ => do
              let st1 ← nvmGenArgsRev prog args st
              .ok (nvmNovariaLower module function st1)
        else do
          let st1 ← nvmGenArgsRev prog args st
          .ok (nvmNovariaLower module function st1)
      else do
        let st1 ← nvmGenArgsRev prog args st
        .ok (nvmEmitLabelRef ("func_" ++ module ++ "_" ++ function)
          (nvmEmitByte opCALL32 st1))
  | Expression.addressOf operand =>
      match operand with
      | Expression.ident name =>
          match st.localVars.lookup name with
          | some localIndex =>
              .ok (nvmEmitBytes [opSYSCALL, sysGETLOCALADDR]
                (nvmEmitPush32 (localIndex : Int) st))
          | none => .error ("Variable not found: " ++ name)
      | _ => .error "AddressOf only supports identifiers"
  | Expression.deref operand => do
      let st1 ← nvmGenExpr prog operand st
      .ok (nvmEmitByte opLOADABS st1)
  | Expression.evalIns instruction => do
      let st1 ← nvmGenExpr prog instruction st
      match instruction with
      | Expression.str instrStr => .ok (nvmEmitAsmIns (strTrim instrStr) st1)
      | _ => .ok { st1 with warnings := st1.warnings ++
          ["Warning: eval() with non-literal string not fully supported yet"] }
  | _ => .ok (nvmEmitPush32 0 st)

/-- The reversed-order argument loop of the NVM `Call` / `ModuleCall` arms. -/
def nvmGenArgsRev (prog : Program) (args : List Expression) (st : NVMSt) :
    Except String NVMSt :=
  match args with
  | [] => .ok st
  | a :: rest => do
      let st1 ← nvmGenArgsRev prog rest st
      nvmGenExpr prog a st1

/-- The template-string part loop. -/
def nvmGenTemplateParts (prog : Program) (parts : List TemplateStringPart)
    (st : NVMSt) : Except String NVMSt :=
  match parts with
  | [] => .ok st
  | TemplateStringPart.lit s :: rest =>
      nvmGenTemplateParts prog rest (nvmEmitPrintChars s st)
  | TemplateStringPart.exprPart e _ :: rest => do
      let st1 ← nvmGenExpr prog e st
      let st2 := nvmEmitLabelRef "__print_int" (nvmEmitByte opCALL32 st1)
      nvmGenTemplateParts prog rest st2

end

mutual

/-- `NVMCodeGen::generate_statement`. -/
def nvmGenStmt (prog : Program) (s : Statement) (st : NVMSt) :
    Except String NVMSt :=
  match s with
  | Statement.varDecl name _ value => do
      let st1 ←
        match value with
        | some initExpr =>
            let stA :=
              match initExpr with
              | Expression.str s =>
                  { st with compileTimeStrings :=
                      (name, s) :: st.compileTimeStrings }
              | _ => st
            nvmGenExpr prog initExpr stA
        | none => .ok (nvmEmitPush32 0 st)
      let localIndex := st1.nextLocal
      let st2 := { st1 with localVars := (name, localIndex) :: st1.localVars,
                            nextLocal := st1.nextLocal + 1 }
      .ok (nvmEmitBytes [opSTORE, localIndex] st2)
  | Statement.assignment name value => do
      let st1 ← nvmGenExpr prog value st
      match st1.localVars.lookup name with
      | some localIndex => .ok (nvmEmitBytes [opSTORE, localIndex] st1)
      | none => .error ("Variable not found: " ++ name)
  | Statement.ifS condition thenBody elseBody => do
      let st1 ← nvmGenExpr prog condition st
      let (st2, elseLabel) := nvmGenLabel "else" st1
      let (st3, endLabel) := nvmGenLabel "endif" st2
      let st4 := nvmEmitLabelRef elseLabel (nvmEmitByte opJZ32 st3)
      let st5 ← nvmGenStmts prog thenBody st4
      let st6 := nvmEmitLabelRef endLabel (nvmEmitByte opJMP32 st5)
      let st7 := nvmAddLabel elseLabel st6
      let st8 ←
        match elseBody with
        | some body => nvmGenStmts prog body st7
        | none => .ok st7
      .ok (nvmAddLabel endLabel st8)
  | Statement.forS init condition post body => do
      let st1 ←
        match init with
        | some initStmt => nvmGenStmt prog initStmt st
        | none => .ok st
      let (st2, loopStart) := nvmGenLabel "for_start" st1
      let (st3, loopEnd) := nvmGenLabel "for_end" st2
      let (st4, loopContinue) := nvmGenLabel "for_continue" st3
      let st5 := { st4 with loopStack := st4.loopStack ++ [(loopEnd, loopContinue)] }
      let st6 := nvmAddLabel loopStart st5
      let st7 ←
        match condition with
        | some cond => do
            let stc ← nvmGenExpr prog cond st6
            .ok (nvmEmitLabelRef loopEnd (nvmEmitByte opJZ32 stc))
        | none => .ok st6
      let st8 ← nvmGenStmts prog body st7
      let st9 := nvmAddLabel loopContinue st8
      let st10 ←
        match post with
        | some postStmt => nvmGenStmt prog postStmt st9
        | none => .ok st9
      let st11 := nvmEmitLabelRef loopStart (nvmEmitByte opJMP32 st10)
      let st12 := nvmAddLabel loopEnd st11
      .ok { st12 with loopStack := st12.loopStack.dropLast }
  | Statement.ret value => do
      let st1 ←
        match value with
        | some e => nvmGenExpr prog e st
        | none => .ok st
      .ok (nvmEmitByte opRET st1)
  | Statement.expr e => do
      let st1 ← nvmGenExpr prog e st
      .ok (nvmEmitByte opPOP st1)
  | Statement.inlineAsm parts =>
      let (asmText, st1) := parts.foldl (fun (acc : String × NVMSt) part =>
        match part with
        | AsmPart.lit s => (acc.1 ++ s, acc.2)
        | AsmPart.var varName =>
            match acc.2.compileTimeStrings.lookup varName with
            | some stringValue => (acc.1 ++ stringValue ++ "\n", acc.2)
            | none =>
                match acc.2.localVars.lookup varName with
                | some localIndex =>
                    (acc.1 ++ "load " ++ toString localIndex ++ "\n", acc.2)
                | none =>
                    (acc.1, { acc.2 with warnings := acc.2.warnings ++
                      ["Warning: Variable '" ++ varName
                        ++ "' not found in asm block"] })) ("", st)
      let st2 := (strLines asmText).foldl (fun acc rawLine =>
        let line := strTrim rawLine
        if line = "" ∨ strStarts line ";" then acc
        else
          let code :=
            match findSemi line with
            | some commentPos => strTrim ⟨line.data.take commentPos⟩
            | none => line
          if code = "" then acc else nvmEmitAsmIns code acc) st1
      .ok st2
  | Statement.pointerAssignment target value => do
      let st1 ← nvmGenExpr prog target st
      let st2 ← nvmGenExpr prog value st1
      .ok (nvmEmitByte opSTOREABS st2)
  | _ => .ok st

def nvmGenStmts (prog : Program) (l : List Statement) (st : NVMSt) :
    Except String NVMSt :=
  match l with
  | [] => .ok st
  | s :: rest => do
      let st1 ← nvmGenStmt prog s st
      nvmGenStmts prog rest st1

end

/-- `NVMCodeGen::generate_print_int_vga_helper` (the `__print_int` itoa
helper, stdio runtime of the NVM backend). -/
def nvmGenPrintIntHelper (st : NVMSt) : NVMSt :=
  let st := nvmAddLabel "__print_int" st
  let st := nvmEmitBytes [opSTORE, 255, opSTORE, 250, opLOAD, 250] st
  let st := nvmEmitByte opLT (nvmEmitPush32 0 st)
  let (st, notNegativeLabel) := nvmGenLabel "not_negative" st
  let st := nvmEmitLabelRef notNegativeLabel (nvmEmitByte opJZ32 st)
  let st := nvmEmitBytes [opSYSCALL, sysPRINT] (nvmEmitPush32 45 st)
  let st := nvmEmitBytes [opLOAD, 250] st
  let st := nvmEmitBytes [opSWAP, opSUB, opSTORE, 250] (nvmEmitPush32 0 st)
  let st := nvmAddLabel notNegativeLabel st
  let st := nvmEmitBytes [opLOAD, 250] st
  let st := nvmEmitByte opEQ (nvmEmitPush32 0 st)
  let (st, notZero) := nvmGenLabel "not_zero" st
  let st := nvmEmitLabelRef notZero (nvmEmitByte opJZ32 st)
  let st := nvmEmitBytes [opSYSCALL, sysPRINT] (nvmEmitPush32 48 st)
  let st := nvmEmitBytes [opLOAD, 255, opRET] st
  let st := nvmAddLabel notZero st
  let st := nvmEmitBytes [opSTORE, 251] (nvmEmitPush32 1 st)
  let (st, findPowerLoop) := nvmGenLabel "find_power" st
  let (st, findPowerDone) := nvmGenLabel "find_power_done" st
  let st := nvmAddLabel findPowerLoop st
  let st := nvmEmitBytes [opLOAD, 251] st
  let st := nvmEmitByte opMUL (nvmEmitPush32 10 st)
  let st := nvmEmitBytes [opLOAD, 250, opGT] st
  let st := nvmEmitLabelRef findPowerDone (nvmEmitByte opJNZ32 st)
  let st := nvmEmitBytes [opLOAD, 251] st
  let st := nvmEmitByte opMUL (nvmEmitPush32 10 st)
  let st := nvmEmitBytes [opSTORE, 251] st
  let st := nvmEmitLabelRef findPowerLoop (nvmEmitByte opJMP32 st)
  let st := nvmAddLabel findPowerDone st
  let (st, printLoop) := nvmGenLabel "print_digit_loop" st
  let (st, printDone) := nvmGenLabel "print_done" st
  let st := nvmAddLabel printLoop st
  let st := nvmEmitBytes [opLOAD, 251] st
  let st := nvmEmitByte opGT (nvmEmitPush32 0 st)
  let st := nvmEmitLabelRef printDone (nvmEmitByte opJZ32 st)
  let st := nvmEmitBytes [opLOAD, 250, opLOAD, 251, opDIV] st
  let st := nvmEmitByte opADD (nvmEmitPush32 48 st)
  let st := nvmEmitBytes [opSYSCALL, sysPRINT] st
  let st := nvmEmitBytes [opLOAD, 250, opLOAD, 251, opMOD, opSTORE, 250] st
  let st := nvmEmitBytes [opLOAD, 251] st
  let st := nvmEmitByte opDIV (nvmEmitPush32 10 st)
  let st := nvmEmitBytes [opSTORE, 251] st
  let st := nvmEmitLabelRef printLoop (nvmEmitByte opJMP32 st)
  let st := nvmAddLabel printDone st
  nvmEmitBytes [opLOAD, 255, opRET] st

/-- `NVMCodeGen::generate_function`. -/
def nvmGenFunction (prog : Program) (func : PFunction) (st : NVMSt) :
    Except String NVMSt := do
  let st1 := { st with currentFunction := func.name, localVars := [],
                       compileTimeStrings := [], nextLocal := 0 }
  let st2 := nvmAddLabel ("func_" ++ func.name) st1
  let st3 := func.params.foldl (fun acc param =>
    { acc with localVars := (param.name, acc.nextLocal) :: acc.localVars,
               nextLocal := acc.nextLocal + 1 }) st2
  let st4 ← nvmGenStmts prog func.body st3
  let st5 :=
    if func.name = "main" ∧ ¬ nvmHasRetStmts func.body then
      nvmEmitBytes [opSYSCALL, sysEXIT] (nvmEmitPush32 0 st4)
    else st4
  .ok (nvmEmitByte opRET st5)

/-- `NVMCodeGen::generate_module_function` (does not clear the compile-time
string table). -/
def nvmGenModuleFunction (prog : Program) (func : PFunction) (fullName : String)
    (st : NVMSt) : Except String NVMSt := do
  let st1 := { st with currentFunction := fullName, localVars := [],
                       nextLocal := 0 }
  let st2 := nvmAddLabel ("func_" ++ fullName) st1
  let st3 := func.params.foldl (fun acc param =>
    { acc with localVars := (param.name, acc.nextLocal) :: acc.localVars,
               nextLocal := acc.nextLocal + 1 }) st2
  let st4 ← nvmGenStmts prog func.body st3
  .ok (nvmEmitByte opRET st4)

/-- The non-`main` user function loop of `NVMCodeGen::generate`. -/
def nvmGenUserRest (prog : Program) (fns : List PFunction) (st : NVMSt) :
    Except String NVMSt :=
  match fns with
  | [] => .ok st
  | f :: rest =>
      if f.name ≠ "main" then do
        let st1 ← nvmGenFunction prog f st
        nvmGenUserRest prog rest st1
      else nvmGenUserRest prog rest st

/-- The module loop of `NVMCodeGen::generate`: `stdio` skipped, exported
functions only, mangled as `{module.name}_{func.name}`. -/
def nvmGenModuleList (prog : Program) (mods : List (String × PModule))
    (st : NVMSt) : Except String NVMSt :=
  match mods with
  | [] => .ok st
  | (moduleName, m) :: rest =>
      if moduleName = "stdio" then nvmGenModuleList prog rest st
      else do
        let st1 ← nvmGenModuleFns m.functions m st
        nvmGenModuleList prog rest st1
where
  nvmGenModuleFns (fns : List PFunction) (m : PModule) (st : NVMSt) :
      Except String NVMSt :=
    match fns with
    | [] => .ok st
    | f :: rest =>
        if f.isExported then do
          let st1 ← nvmGenModuleFunction prog f (m.name ++ "_" ++ f.name) st
          nvmGenModuleFns rest m st1
        else nvmGenModuleFns rest m st

/-- `NVMCodeGen::emit_string_literals`. -/
def nvmEmitStringLiterals (st : NVMSt) : NVMSt :=
  st.stringLiterals.foldl (fun acc (p : String × String) =>
    nvmEmitBytes (strBytes p.2 ++ [0]) (nvmAddLabel p.1 acc)) st

/-- `NVMCodeGen::patch_labels`: resolved targets are written big-endian in
place; unresolved ones produce a warning and leave the four zero bytes. -/
def nvmPatchLabels (st : NVMSt) : NVMSt :=
  st.labelPatches.foldl (fun acc (p : Nat × String) =>
    match acc.labels.lookup p.2 with
    | some target =>
        { acc with bytecode := spliceBytes p.1 (u32be target) acc.bytecode }
    | none =>
        { acc with warnings := acc.warnings ++
            ["Warning: Unresolved label: " ++ p.2] }) st

/-- `NVMCodeGen::generate`: magic, `main` first, the remaining user
functions, the exported module functions, the `__print_int` helper when
`stdio` is imported, the string literal pool, then label patching. -/
def nvmGenerate (prog : Program) : Except String NVMSt := do
  let st0 := nvmEmitBytes [78, 86, 77, 48] NVMSt.initial
  let st1 ←
    match prog.functions.find? (fun f => f.name = "main") with
    | some mainFunc => nvmGenFunction prog mainFunc st0
    | none => .ok st0
  let st2 ← nvmGenUserRest prog prog.functions st1
  let st3 ← nvmGenModuleList prog prog.modules st2
  let st4 :=
    if (prog.modules.lookup "stdio").isSome then nvmGenPrintIntHelper st3
    else st3
  let st5 := nvmEmitStringLiterals st4
  .ok (nvmPatchLabels st5)

/-! ## Infrastructure for the ELF call-convention theorems (C3) -/

/-- Right-to-left evaluation written as a fold over the reversed argument
list: evaluate each argument, then push the accumulator.  This is the
spec-side description of the call argument loop; `elfCallArgsRev_eq_fold`
relates it to the generator. -/
def elfArgsPushFold (args : List Expression) (st : ElfSt) : ElfSt × List String :=
  args.foldl (fun (acc : ElfSt × List String) a =>
    let (st1, o1) := elfGenExpr a acc.1
    (st1, acc.2 ++ o1 ++ ["    pushq   %rax\n"])) (st, [])

/-- The claim's description of the call argument loop: the arguments
evaluated left-to-right (source order), each pushed as computed. -/
def elfArgsPushFoldLtr (args : List Expression) (st : ElfSt) :
    ElfSt × List String :=
  elfArgsPushFold args st

theorem elfCallArgsRev_eq_fold (args : List Expression) (st : ElfSt) :
    elfGenArgsRev args st = elfArgsPushFold args.reverse st := by
  induction args generalizing st with
  | nil => rfl
  | cons a rest ih =>
      have hr : elfArgsPushFold (rest.reverse ++ [a]) st =
          ((elfGenExpr a (elfArgsPushFold rest.reverse st).1).1,
           (elfArgsPushFold rest.reverse st).2
             ++ (elfGenExpr a (elfArgsPushFold rest.reverse st).1).2
             ++ ["    pushq   %rax\n"]) := by
        simp only [elfArgsPushFold, List.foldl_append, List.foldl_cons,
          List.foldl_nil]
      rw [List.reverse_cons, hr, ← ih]
      simp only [elfGenArgsRev]

/-- Stack discipline of the emitted push/pop pattern: pushing the values of
the reversed argument list and then popping into the argument registers in
order sends the i-th argument to the i-th register. -/
def elfCallStackSim (args : List α) : List (String × α) :=
  let stack := args.reverse.foldl (fun st a => a :: st) []
  (elfArgRegs.take args.length).zip stack

theorem foldl_cons_eq_reverse_append (l acc : List α) :
    l.foldl (fun st a => a :: st) acc = l.reverse ++ acc := by
  induction l generalizing acc with
  | nil => simp
  | cons a rest ih => simp [List.foldl_cons, ih]

theorem elfCallStackSim_eq (args : List α) :
    elfCallStackSim args = (elfArgRegs.take args.length).zip args := by
  simp [elfCallStackSim, foldl_cons_eq_reverse_append]

/-! ## C3: native call argument evaluation order -/

/-- The emission the claim describes for a direct call: arguments evaluated
left-to-right, each pushed as computed, then the pops and the call. -/
def elfCallEmissionClaimed (function : String) (args : List Expression)
    (st : ElfSt) : ElfSt × List String :=
  let (st1, o1) := elfArgsPushFoldLtr args st
  (st1, o1 ++ elfPopLines args.length ++ ["    call    " ++ function ++ "\n"])

/-- C3 counterexample: for `f(1, 2)` the ELF backend emits the evaluation
of `2` before the evaluation of `1` — arguments are evaluated
right-to-left, not left-to-right as the claim states. -/
theorem c3_counterexample :
    elfGenExpr (Expression.call "f" [Expression.number 1, Expression.number 2])
        ElfSt.initial =
      (ElfSt.initial,
       ["    movq    $2, %rax\n", "    pushq   %rax\n",
        "    movq    $1, %rax\n", "    pushq   %rax\n",
        "    popq    %rdi\n", "    popq    %rsi\n",
        "    call    f\n"]) ∧
    elfGenExpr (Expression.call "f" [Expression.number 1, Expression.number 2])
        ElfSt.initial ≠
      elfCallEmissionClaimed "f" [Expression.number 1, Expression.number 2]
        ElfSt.initial := by
  constructor
  · rfl
  · decide

/-- C3 amended: for every native call (direct or module-qualified) the
arguments are evaluated right-to-left — the reversed iteration of the
source — each pushed to the stack as it is computed, and then popped into
`rdi, rsi, rdx, rcx, r8, r9` in order, so that the stack discipline sends
the first argument to the first register. -/
theorem c3_amended (f m : String) (args : List Expression) (st : ElfSt) :
    elfGenExpr (Expression.call f args) st =
      ((elfArgsPushFold args.reverse st).1,
       (elfArgsPushFold args.reverse st).2 ++ elfPopLines args.length
         ++ ["    call    " ++ f ++ "\n"]) ∧
    elfGenExpr (Expression.moduleCall m f args) st =
      ((elfArgsPushFold args.reverse st).1,
       (elfArgsPushFold args.reverse st).2 ++ elfPopLines args.length
         ++ ["    call    " ++ m ++ "_" ++ f ++ "\n"]) ∧
    elfCallStackSim args = (elfArgRegs.take args.length).zip args := by
  refine ⟨?_, ?_, elfCallStackSim_eq args⟩
  · simp only [elfGenExpr, ← elfCallArgsRev_eq_fold]
  · simp only [elfGenExpr, ← elfCallArgsRev_eq_fold]

/-! ## C10: unknown identifiers — silent on ELF, a panic on NVM -/

/-- C10: in the ELF backend an unknown identifier load, a store to an
undeclared variable, and address-of an undeclared identifier emit nothing
and leave the state unchanged, while the NVM backend fails with
`Variable not found`. -/
theorem c10_unknown_identifiers (prog : Program) (name : String)
    (v : Expression) (st : ElfSt) (stn : NVMSt)
    (helf : st.vars.lookup name = none)
    (hval : ((elfGenExpr v st).1).vars.lookup name = none)
    (hnvm : stn.localVars.lookup name = none) :
    elfGenExpr (Expression.ident name) st = (st, []) ∧
    elfGenStmt (Statement.assignment name v) st = elfGenExpr v st ∧
    elfGenExpr (Expression.addressOf (Expression.ident name)) st = (st, []) ∧
    nvmGenExpr prog (Expression.ident name) stn =
      .error ("Variable not found: " ++ name) := by
  refine ⟨?_, ?_, ?_, ?_⟩
  · simp [elfGenExpr, helf]
  · rcases h : elfGenExpr v st with ⟨st1, o1⟩
    have h1 : st1.vars.lookup name = none := by
      have := hval; rw [h] at this; exact this
    simp [elfGenStmt, h, h1]
  · simp [elfGenExpr, helf]
  · have h : nvmGenExpr prog (Expression.ident name) stn =
        (match stn.localVars.lookup name with
         | some localIndex => .ok (nvmEmitBytes [opLOAD, localIndex] stn)
         | none => .error ("Variable not found: " ++ name)) := rfl
    rw [h, hnvm]

/-! ## PE infrastructure: append-only code growth -/

theorem exceptBind_ok {ε α β : Type} {x : Except ε α} {f : α → Except ε β}
    {c : β} (h : (x >>= f) = .ok c) : ∃ b, x = .ok b ∧ f b = .ok c := by
  cases x with
  | error e => simp [Bind.bind, Except.bind] at h
  | ok b => exact ⟨b, rfl, by simpa [Bind.bind, Except.bind] using h⟩

theorem i32le_length (v : Int) : (i32le v).length = 4 := rfl

theorem patchI32_append (a b : List Nat) (v : Int) (pos : Nat)
    (h : a.length ≤ pos) :
    patchI32 pos v (a ++ b) = a ++ patchI32 (pos - a.length) v b := by
  simp only [patchI32, List.take_append_eq_append_take,
    List.drop_append_eq_append_drop]
  rw [List.take_of_length_le h, List.drop_eq_nil_of_le (by omega)]
  have : pos + 4 - a.length = pos - a.length + 4 := by omega
  simp [this]

theorem patchI32_exact (a z b : List Nat) (v : Int) (hz : z.length = 4) :
    patchI32 a.length v (a ++ (z ++ b)) = a ++ (i32le v ++ b) := by
  simp only [patchI32]
  rw [List.take_append_eq_append_take, List.take_of_length_le (le_refl _),
    Nat.sub_self, List.take_zero, List.drop_append_eq_append_drop,
    List.drop_eq_nil_of_le (by omega)]
  have h4 : a.length + 4 - a.length = 4 := by omega
  simp [h4, List.drop_append_eq_append_drop, hz]

/-- `st'` extends `st`: same target, and the code has only grown at the end. -/
def PEExtends (st st' : PESt) : Prop :=
  st'.target = st.target ∧ ∃ d, st'.code = st.code ++ d

theorem peExtends_refl (st : PESt) : PEExtends st st := ⟨rfl, [], by simp⟩

theorem peExtends_trans {a b c : PESt} (h1 : PEExtends a b) (h2 : PEExtends b c) :
    PEExtends a c := by
  obtain ⟨t1, d1, e1⟩ := h1
  obtain ⟨t2, d2, e2⟩ := h2
  exact ⟨by rw [t2, t1], d1 ++ d2, by rw [e2, e1, List.append_assoc]⟩

theorem peExtends_emit (bs : List Nat) (st : PESt) :
    PEExtends st (peEmit bs st) := ⟨rfl, bs, rfl⟩

theorem peExtends_emit_of {st st' : PESt} (bs : List Nat)
    (h : PEExtends st st') : PEExtends st (peEmit bs st') :=
  peExtends_trans h (peExtends_emit bs st')

theorem peExtends_emitI32 (v : Int) (st : PESt) :
    PEExtends st (peEmitI32 v st) := ⟨rfl, i32le v, rfl⟩

theorem peExtends_emitI64 (v : Int) (st : PESt) :
    PEExtends st (peEmitI64 v st) := ⟨rfl, i64le v, rfl⟩

theorem peExtends_patch {st st' : PESt} (pos : Nat) (v : Int)
    (h : PEExtends st st') (hpos : st.code.length ≤ pos) :
    PEExtends st (pePatchI32 pos v st') := by
  obtain ⟨t, d, e⟩ := h
  refine ⟨t, patchI32 (pos - st.code.length) v d, ?_⟩
  simp only [pePatchI32, e]
  rw [patchI32_append _ _ _ _ hpos]

theorem peExtends_vars {st : PESt} (f : PESt → PESt)
    (hcode : ∀ s, (f s).code = s.code) (htgt : ∀ s, (f s).target = s.target)
    (st' : PESt) (h : PEExtends st st') : PEExtends st (f st') := by
  obtain ⟨t, d, e⟩ := h
  exact ⟨by rw [htgt, t], d, by rw [hcode, e]⟩

theorem peExtends_length {st st' : PESt} (h : PEExtends st st') :
    st.code.length ≤ st'.code.length := by
  obtain ⟨_, d, e⟩ := h
  simp [e]

theorem peExtends_emitI32_of {st x : PESt} (v : Int) (h : PEExtends st x) :
    PEExtends st (peEmitI32 v x) := peExtends_trans h (peExtends_emitI32 v x)

theorem peExtends_emitI64_of {st x : PESt} (v : Int) (h : PEExtends st x) :
    PEExtends st (peEmitI64 v x) := peExtends_trans h (peExtends_emitI64 v x)

theorem peExtends_patch_of {st x : PESt} (pos : Nat) (v : Int)
    (h : PEExtends st x) (hpos : st.code.length ≤ pos) :
    PEExtends st (pePatchI32 pos v x) := peExtends_patch pos v h hpos

theorem peExtends_exit (c : Int) (st : PESt) : PEExtends st (peEmitExit c st) := by
  unfold peEmitExit
  split <;>
  repeat (first
    | exact peExtends_refl _
    | apply peExtends_emit_of
    | apply peExtends_emitI32_of
    | apply peExtends_emitI64_of)

theorem peExtends_exitRax (st : PESt) : PEExtends st (peEmitExitWithRax st) :=
  peExtends_emit _ _

theorem peExtends_println (s : String) (st : PESt) :
    PEExtends st (peEmitPrintln s st) := by
  unfold peEmitPrintln
  split <;>
  repeat (first
    | exact peExtends_refl _
    | apply peExtends_emit_of
    | apply peExtends_emitI32_of
    | apply peExtends_emitI64_of)

theorem peExtends_intCommon (b : Nat) (st : PESt) :
    PEExtends st (peEmitIntCommon b st) := by
  unfold peEmitIntCommon
  split
  · repeat (first
      | exact peExtends_refl _
      | apply peExtends_emit_of
      | apply peExtends_emitI32_of)
  · refine peExtends_emit_of _ (peExtends_emitI32_of _ (peExtends_emit_of _
      (peExtends_emit_of _ (peExtends_emit_of _
        (peExtends_patch_of _ _ ?_ ?_)))))
    · refine peExtends_emit_of _ (peExtends_emit_of _ (peExtends_emit_of _
        (peExtends_patch_of _ _ ?_ ?_)))
      · repeat (first
          | exact peExtends_refl _
          | apply peExtends_emit_of
          | apply peExtends_emitI32_of)
      · exact peExtends_length (by
          repeat (first
            | exact peExtends_refl _
            | apply peExtends_emit_of
            | apply peExtends_emitI32_of))
    · exact peExtends_length (by
        repeat (first
          | exact peExtends_refl _
          | apply peExtends_emit_of
          | apply peExtends_emitI32_of))

theorem peExtends_printlnInt (st : PESt) : PEExtends st (peEmitPrintlnInt st) :=
  peExtends_intCommon 0x0A st

theorem peExtends_printInt (st : PESt) : PEExtends st (peEmitPrintInt st) :=
  peExtends_intCommon 0x00 st

theorem peExtends_printStr (s : String) (st : PESt) :
    PEExtends st (peEmitPrintStr s st) := by
  unfold peEmitPrintStr
  split <;>
  repeat (first
    | exact peExtends_refl _
    | apply peExtends_emit_of
    | apply peExtends_emitI32_of)

theorem peExtends_printChar (st : PESt) : PEExtends st (peEmitPrintChar st) := by
  unfold peEmitPrintChar
  split <;>
  repeat (first
    | exact peExtends_refl _
    | apply peExtends_emit_of
    | apply peExtends_emitI32_of)

theorem peExtends_readInt (st : PESt) : PEExtends st (peEmitReadInt st) := by
  unfold peEmitReadInt
  split <;>
  repeat (first
    | exact peExtends_refl _
    | apply peExtends_emit_of
    | apply peExtends_emitI32_of)

theorem peExtends_readChar (st : PESt) : PEExtends st (peEmitReadChar st) := by
  unfold peEmitReadChar
  split <;>
  repeat (first
    | exact peExtends_refl _
    | apply peExtends_emit_of
    | apply peExtends_emitI32_of)

theorem peExtends_flush (st : PESt) : PEExtends st (peEmitFlush st) := by
  unfold peEmitFlush
  split <;>
  repeat (first
    | exact peExtends_refl _
    | apply peExtends_emit_of
    | apply peExtends_emitI32_of)

/-- Code emitted by the PE generator only grows at the end of the buffer and
never changes the target, whichever of the six generator functions ran. -/
theorem peGen_extends_all (prog : Program) : ∀ fuel : Nat,
    (∀ e st st', peGenExpr prog fuel e st = .ok st' → PEExtends st st') ∧
    (∀ args params st st',
      peGenArgsBind prog fuel args params st = .ok st' → PEExtends st st') ∧
    (∀ f args st st',
      peIperineCall prog fuel f args st = .ok st' → PEExtends st st') ∧
    (∀ m f args st st',
      peModuleCall prog fuel m f args st = .ok st' → PEExtends st st') ∧
    (∀ s st st', peGenStmt prog fuel s st = .ok st' → PEExtends st st') ∧
    (∀ l st st', peGenStmts prog fuel l st = .ok st' → PEExtends st st') := by
  intro fuel
  induction fuel with
  | zero =>
      refine ⟨fun e st st' h => ?_, fun a p st st' h => ?_,
        fun f a st st' h => ?_, fun m f a st st' h => ?_,
        fun s st st' h => ?_, fun l st st' h => ?_⟩ <;>
        simp [peGenExpr, peGenArgsBind, peIperineCall, peModuleCall,
          peGenStmt, peGenStmts] at h
  | succ fuel ih =>
      obtain ⟨ihE, ihB, ihI, ihM, ihS, ihL⟩ := ih
      refine ⟨?_, ?_, ?_, ?_, ?_, ?_⟩
      · -- peGenExpr
        intro e st st' h
        cases e with
        | number n =>
            simp only [peGenExpr, Except.ok.injEq] at h
            subst h
            exact peExtends_emitI64_of _ (peExtends_emit _ _)
        | str s =>
            simp only [peGenExpr, Except.ok.injEq] at h
            subst h
            exact peExtends_refl _
        | ident name =>
            simp only [peGenExpr] at h
            cases hl : st.vars.lookup name <;> rw [hl] at h <;>
              simp only [Except.ok.injEq] at h <;> subst h
            · exact peExtends_refl _
            · exact peExtends_emitI32_of _ (peExtends_emit _ _)
        | binary op left right =>
            simp only [peGenExpr] at h
            obtain ⟨st1, h1, h⟩ := exceptBind_ok h
            obtain ⟨st2, h2, h⟩ := exceptBind_ok h
            simp only [Except.ok.injEq] at h; subst h
            exact peExtends_emit_of _ (peExtends_emit_of _
              (peExtends_trans (peExtends_trans (ihE _ _ _ h1) (peExtends_emit _ _))
                (ihE _ _ _ h2)))
        | unary op operand =>
            simp only [peGenExpr] at h
            obtain ⟨st1, h1, h⟩ := exceptBind_ok h
            cases op <;> simp only [Except.ok.injEq] at h <;> subst h <;>
              exact peExtends_emit_of _ (ihE _ _ _ h1)
        | arrayAccess name index =>
            simp only [peGenExpr] at h
            obtain ⟨st1, h1, h⟩ := exceptBind_ok h
            cases hl : st1.vars.lookup name <;> rw [hl] at h <;>
              simp only [Except.ok.injEq] at h
            · subst h; exact ihE _ _ _ h1
            · subst h
              split
              · exact peExtends_emit_of _ (peExtends_emit_of _
                  (peExtends_emit_of _ (ihE _ _ _ h1)))
              · exact peExtends_emit_of _ (peExtends_emitI32_of _
                  (peExtends_emit_of _ (peExtends_emit_of _ (ihE _ _ _ h1))))
        | call function args =>
            simp only [peGenExpr] at h
            split at h
            · simp only [Except.ok.injEq] at h; subst h; exact peExtends_exit _ _
            · split at h
              · split at h
                · simp only [Except.ok.injEq] at h; subst h
                  exact peExtends_refl _
                · simp only [Except.ok.injEq] at h; subst h
                  exact peExtends_println _ _
                · obtain ⟨st1, h1, h⟩ := exceptBind_ok h
                  simp only [Except.ok.injEq] at h; subst h
                  exact peExtends_trans (ihE _ _ _ h1) (peExtends_printlnInt _)
              · split at h
                · split at h <;> simp only [Except.ok.injEq] at h <;> subst h
                  · exact peExtends_emitI64_of _ (peExtends_emit _ _)
                  · exact peExtends_emit _ _
                · split at h
                  · simp only [Except.ok.injEq] at h; subst h
                    exact peExtends_emit _ _
                  · split at h
                    · split at h <;> simp only [Except.ok.injEq] at h <;> subst h
                      · exact peExtends_emitI64_of _ (peExtends_emit _ _)
                      · exact peExtends_emit _ _
                    · exact ihI _ _ _ _ h
        | moduleCall m f args =>
            simp only [peGenExpr] at h
            exact ihM _ _ _ _ _ h
        | stringIndex string index =>
            simp only [peGenExpr] at h
            split at h
            · exact ihE _ _ _ h
            · simp only [Except.ok.injEq] at h; subst h; exact peExtends_refl _
        | addressOf operand =>
            simp only [peGenExpr] at h
            split at h
            · rename_i name
              cases hl : st.vars.lookup name <;> rw [hl] at h <;>
                simp only [Except.ok.injEq] at h <;> subst h
              · exact peExtends_refl _
              · exact peExtends_emitI32_of _ (peExtends_emit _ _)
            · simp only [Except.ok.injEq] at h; subst h; exact peExtends_refl _
        | deref operand =>
            simp only [peGenExpr] at h
            obtain ⟨st1, h1, h⟩ := exceptBind_ok h
            simp only [Except.ok.injEq] at h; subst h
            exact peExtends_emit_of _ (ihE _ _ _ h1)
        | templateString parts =>
            simp only [peGenExpr, Except.ok.injEq] at h; subst h
            exact peExtends_refl _
        | evalIns instruction =>
            simp only [peGenExpr, Except.ok.injEq] at h; subst h
            exact peExtends_refl _
      · -- peGenArgsBind
        intro args params st st' h
        cases args with
        | nil =>
            simp only [peGenArgsBind, Except.ok.injEq] at h; subst h
            exact peExtends_refl _
        | cons a rest =>
            cases params with
            | nil =>
                simp only [peGenArgsBind, Except.ok.injEq] at h; subst h
                exact peExtends_refl _
            | cons p ps =>
                simp only [peGenArgsBind] at h
                obtain ⟨st1, h1, h⟩ := exceptBind_ok h
                refine peExtends_trans (ihE _ _ _ h1)
                  (peExtends_trans ?_ (ihB _ _ _ _ h))
                exact peExtends_emitI32_of _ (peExtends_emit_of _ ⟨rfl, [], by simp⟩)
      · -- peIperineCall
        intro f args st st' h
        simp only [peIperineCall] at h
        cases hf : prog.functions.find? (fun g => g.name = f) <;> rw [hf] at h
        · simp only [Except.ok.injEq] at h; subst h; exact peExtends_refl _
        · obtain ⟨st1, h1, h⟩ := exceptBind_ok h
          obtain ⟨st2, h2, h⟩ := exceptBind_ok h
          simp only [Except.ok.injEq] at h; subst h
          have e1 : PEExtends st { st with inMain := false } := ⟨rfl, [], by simp⟩
          have e2 := peExtends_trans (peExtends_trans e1 (ihB _ _ _ _ h1))
            (ihL _ _ _ h2)
          exact ⟨e2.1, e2.2⟩
      · -- peModuleCall
        intro m f args st st' h
        simp only [peModuleCall] at h
        split at h
        · split at h
          · obtain ⟨st1, h1, h⟩ := exceptBind_ok h
            simp only [Except.ok.injEq] at h; subst h
            exact peExtends_trans (ihE _ _ _ h1) (peExtends_printlnInt _)
          · simp only [Except.ok.injEq] at h; subst h; exact peExtends_refl _
        · split at h
          · split at h
            · obtain ⟨st1, h1, h⟩ := exceptBind_ok h
              simp only [Except.ok.injEq] at h; subst h
              exact peExtends_trans (ihE _ _ _ h1) (peExtends_printInt _)
            · simp only [Except.ok.injEq] at h; subst h; exact peExtends_refl _
          · split at h
            · split at h
              · simp only [Except.ok.injEq] at h; subst h
                exact peExtends_println _ _
              · simp only [Except.ok.injEq] at h; subst h; exact peExtends_refl _
            · split at h
              · split at h
                · simp only [Except.ok.injEq] at h; subst h
                  exact peExtends_printStr _ _
                · simp only [Except.ok.injEq] at h; subst h
                  exact peExtends_refl _
              · split at h
                · split at h
                  · obtain ⟨st1, h1, h⟩ := exceptBind_ok h
                    simp only [Except.ok.injEq] at h; subst h
                    exact peExtends_trans (ihE _ _ _ h1) (peExtends_printChar _)
                  · simp only [Except.ok.injEq] at h; subst h
                    exact peExtends_refl _
                · split at h
                  · simp only [Except.ok.injEq] at h; subst h
                    exact peExtends_readInt _
                  · split at h
                    · simp only [Except.ok.injEq] at h; subst h
                      exact peExtends_readChar _
                    · split at h
                      · simp only [Except.ok.injEq] at h; subst h
                        exact peExtends_flush _
                      · split at h
                        · split at h
                          · split at h
                            · simp at h
                            · obtain ⟨st1, h1, h⟩ := exceptBind_ok h
                              obtain ⟨st2, h2, h⟩ := exceptBind_ok h
                              simp only [Except.ok.injEq] at h; subst h
                              have e1 : PEExtends st { st with inMain := false } :=
                                ⟨rfl, [], by simp⟩
                              have e2 := peExtends_trans
                                (peExtends_trans e1 (ihB _ _ _ _ h1)) (ihL _ _ _ h2)
                              exact ⟨e2.1, e2.2⟩
                          · simp at h
                        · simp at h
      · -- peGenStmt
        intro s st st' h
        cases s with
        | varDecl name varType value =>
            cases value with
            | none =>
                simp only [peGenStmt, Except.ok.injEq] at h; subst h
                exact peExtends_refl _
            | some e =>
                simp only [peGenStmt] at h
                obtain ⟨st1, h1, h⟩ := exceptBind_ok h
                simp only [Except.ok.injEq] at h; subst h
                exact peExtends_trans (ihE _ _ _ h1)
                  (peExtends_emitI32_of _ (peExtends_emit_of _ ⟨rfl, [], by simp⟩))
        | arrayDecl name elementType size =>
            simp only [peGenStmt, Except.ok.injEq] at h; subst h
            have base : PEExtends st
                { st with stackOffset := st.stackOffset - (size : Int) * 8,
                          vars := (name, st.stackOffset - (size : Int) * 8) :: st.vars } :=
              ⟨rfl, [], by simp⟩
            have fold_ext : ∀ (rng : List Nat) (acc : PESt), PEExtends st acc →
                PEExtends st (rng.foldl (fun acc i =>
                  peEmitI32 0 (peEmitI32 (st.stackOffset - (size : Int) * 8 + (i : Int) * 8)
                    (peEmit [0x48, 0xC7, 0x85] acc))) acc) := by
              intro rng
              induction rng with
              | nil => intro acc hacc; simpa using hacc
              | cons i rest ihr =>
                  intro acc hacc
                  exact ihr _ (peExtends_emitI32_of _
                    (peExtends_emitI32_of _ (peExtends_emit_of _ hacc)))
            exact fold_ext _ _ base
        | assignment name value =>
            simp only [peGenStmt] at h
            obtain ⟨st1, h1, h⟩ := exceptBind_ok h
            cases hl : st1.vars.lookup name <;> rw [hl] at h <;>
              simp only [Except.ok.injEq] at h <;> subst h
            · exact ihE _ _ _ h1
            · exact peExtends_emitI32_of _ (peExtends_emit_of _ (ihE _ _ _ h1))
        | arrayAssignment name index value =>
            simp only [peGenStmt] at h
            obtain ⟨st1, h1, h⟩ := exceptBind_ok h
            obtain ⟨st2, h2, h⟩ := exceptBind_ok h
            have e2 : PEExtends st st2 :=
              peExtends_trans (peExtends_trans (ihE _ _ _ h1) (peExtends_emit _ _))
                (ihE _ _ _ h2)
            cases hl : st2.vars.lookup name <;> rw [hl] at h <;>
              simp only [Except.ok.injEq] at h <;> subst h
            · exact e2
            · split
              · exact peExtends_emit_of _ (peExtends_emit_of _
                  (peExtends_emit_of _ e2))
              · exact peExtends_emit_of _ (peExtends_emitI32_of _
                  (peExtends_emit_of _ (peExtends_emit_of _ e2)))
        | pointerAssignment target value =>
            simp only [peGenStmt] at h
            obtain ⟨st1, h1, h⟩ := exceptBind_ok h
            obtain ⟨st2, h2, h⟩ := exceptBind_ok h
            simp only [Except.ok.injEq] at h; subst h
            exact peExtends_emit_of _
              (peExtends_trans (peExtends_trans (ihE _ _ _ h1) (peExtends_emit _ _))
                (ihE _ _ _ h2))
        | ret value =>
            simp only [peGenStmt] at h
            cases value with
            | some e =>
                obtain ⟨st1, h1, h⟩ := exceptBind_ok h
                have e1 : PEExtends st st1 := ihE _ _ _ h1
                split at h
                · split at h <;> simp only [Except.ok.injEq] at h <;> subst h
                  · exact peExtends_trans e1 (peExtends_exitRax _)
                  · exact peExtends_emitI32_of _ (peExtends_emit_of _ e1)
                · simp only [Except.ok.injEq] at h; subst h; exact e1
            | none =>
                obtain ⟨st1, h1, h⟩ := exceptBind_ok h
                simp only [Except.ok.injEq] at h1
                have e1 : PEExtends st st1 := h1 ▸ peExtends_emit _ _
                split at h
                · split at h <;> simp only [Except.ok.injEq] at h <;> subst h
                  · exact peExtends_trans e1 (peExtends_exitRax _)
                  · exact peExtends_emitI32_of _ (peExtends_emit_of _ e1)
                · simp only [Except.ok.injEq] at h; subst h; exact e1
        | expr e =>
            simp only [peGenStmt] at h
            exact ihE _ _ _ h
        | ifS condition thenBody elseBody =>
            simp only [peGenStmt] at h
            obtain ⟨st1, h1, h⟩ := exceptBind_ok h
            obtain ⟨st3, h3, h⟩ := exceptBind_ok h
            have e2 : PEExtends st (peEmit [0x48, 0x85, 0xC0, 0x0F, 0x84] st1) :=
              peExtends_emit_of _ (ihE _ _ _ h1)
            have e3 : PEExtends st st3 :=
              peExtends_trans (peExtends_emitI32_of 0 e2) (ihL _ _ _ h3)
            have e5 : PEExtends st (peEmitI32 0 (peEmit [0xE9] st3)) :=
              peExtends_emitI32_of _ (peExtends_emit_of _ e3)
            have e6 : PEExtends st (pePatchI32
                (peEmit [0x48, 0x85, 0xC0, 0x0F, 0x84] st1).code.length
                (((peEmitI32 0 (peEmit [0xE9] st3)).code.length : Int) -
                  ((peEmit [0x48, 0x85, 0xC0, 0x0F, 0x84] st1).code.length : Int) - 4)
                (peEmitI32 0 (peEmit [0xE9] st3))) :=
              peExtends_patch_of _ _ e5 (peExtends_length e2)
            have hlen : st.code.length ≤ (peEmit [0xE9] st3).code.length :=
              le_trans (peExtends_length e3)
                (peExtends_length (peExtends_emit [0xE9] st3))
            cases elseBody with
            | some body =>
                obtain ⟨st7, h7, h⟩ := exceptBind_ok h
                simp only [Except.ok.injEq] at h; subst h
                exact peExtends_patch_of _ _ (peExtends_trans e6 (ihL _ _ _ h7)) hlen
            | none =>
                obtain ⟨st7, h7, h⟩ := exceptBind_ok h
                simp only [Except.ok.injEq] at h7
                simp only [Except.ok.injEq] at h; subst h
                exact peExtends_patch_of _ _ (h7 ▸ e6) hlen
        | forS init condition post body =>
            simp only [peGenStmt] at h
            cases condition with
            | some cond =>
                obtain ⟨st1, h1, h⟩ := exceptBind_ok h
                obtain ⟨st3, h3, h⟩ := exceptBind_ok h
                simp only [Except.ok.injEq] at h; subst h
                have e2 : PEExtends st (peEmit [0x48, 0x85, 0xC0, 0x0F, 0x84] st1) :=
                  peExtends_emit_of _ (ihE _ _ _ h1)
                have e3 : PEExtends st st3 :=
                  peExtends_trans (peExtends_emitI32_of 0 e2) (ihL _ _ _ h3)
                refine peExtends_patch_of _ _
                  (peExtends_emitI32_of _ (peExtends_emit_of _ e3))
                  (peExtends_length e2)
            | none =>
                obtain ⟨st3, h3, h⟩ := exceptBind_ok h
                simp only [Except.ok.injEq] at h; subst h
                exact peExtends_emitI32_of _ (peExtends_emit_of _ (ihL _ _ _ h3))
        | inlineAsm parts =>
            simp only [peGenStmt, Except.ok.injEq] at h; subst h
            exact peExtends_refl _
      · -- peGenStmts
        intro l st st' h
        cases l with
        | nil =>
            simp only [peGenStmts, Except.ok.injEq] at h; subst h
            exact peExtends_refl _
        | cons s rest =>
            simp only [peGenStmts] at h
            obtain ⟨st1, h1, h⟩ := exceptBind_ok h
            exact peExtends_trans (ihS _ _ _ h1) (ihL _ _ _ h)

/-- Witness for `c10_unknown_identifiers` at a concrete state. -/
theorem c10_unknown_identifiers_witness :
    (ElfSt.initial.vars.lookup "x" = none ∧
     ((elfGenExpr (Expression.number 3) ElfSt.initial).1).vars.lookup "x" = none ∧
     NVMSt.initial.localVars.lookup "x" = none) ∧
    (elfGenExpr (Expression.ident "x") ElfSt.initial = (ElfSt.initial, []) ∧
     elfGenStmt (Statement.assignment "x" (Expression.number 3)) ElfSt.initial =
       elfGenExpr (Expression.number 3) ElfSt.initial ∧
     elfGenExpr (Expression.addressOf (Expression.ident "x")) ElfSt.initial =
       (ElfSt.initial, []) ∧
     nvmGenExpr ⟨"p", [], [], []⟩ (Expression.ident "x") NVMSt.initial =
       .error ("Variable not found: " ++ "x")) :=
  ⟨⟨rfl, rfl, rfl⟩,
   c10_unknown_identifiers ⟨"p", [], [], []⟩ "x" (Expression.number 3)
     ElfSt.initial NVMSt.initial rfl rfl rfl⟩

/-! ## C4: sign extension before signed divide -/

/-- Scans a byte list for an occurrence of `pat` as a contiguous run. -/
def hasSeq (pat : List Nat) : List Nat → Bool
  | [] => pat.isEmpty
  | a :: rest => (List.take pat.length (a :: rest) == pat) || hasSeq pat rest

/-- Modelled from the spec's words, for comparison: "sign-extends the
accumulator into the high scratch register (rdx) before executing the
signed divide instruction" is, in x86-64 machine code, `cqo` (48 99)
followed by `idiv rcx` (48 F7 F9). -/
def peClaimedDivBytes : List Nat := [0x48, 0x99, 0x48, 0xF7, 0xF9]

/-- The byte stream the PE generator emits for the expression `7 / 2`:
`movabs rax, 2`, `push rax`, `movabs rax, 7`, `pop rcx`, then
`xor rdx, rdx` (48 31 D2) and `idiv rcx` (48 F7 F9). -/
def c4DivCode : List Nat :=
  [0x48, 0xB8, 2, 0, 0, 0, 0, 0, 0, 0, 0x50,
   0x48, 0xB8, 7, 0, 0, 0, 0, 0, 0, 0, 0x59,
   0x48, 0x31, 0xD2, 0x48, 0xF7, 0xF9]

/-- C4, counterexample.  The claim says both native backends sign-extend
rax into rdx before the signed divide.  The ELF backend does (`cqto`),
but the PE backend zeroes rdx with `xor rdx, rdx` instead: its Div byte
sequence is 48 31 D2 48 F7 F9, not the claimed 48 99 48 F7 F9, and the
code emitted for `7 / 2` contains no `cqo` (48 99) anywhere. -/
theorem c4_counterexample :
    peGenExpr ⟨"p", [], [], []⟩ 2
        (Expression.binary BinaryOp.div (Expression.number 7)
          (Expression.number 2))
        ⟨[], [], 0, "pe", true⟩
      = .ok ⟨c4DivCode, [], 0, "pe", true⟩ ∧
    peBinaryOpBytes BinaryOp.div ≠ peClaimedDivBytes ∧
    hasSeq [0x48, 0x99] c4DivCode = false ∧
    hasSeq [0x48, 0x31, 0xD2] c4DivCode = true :=
  ⟨rfl, by decide, by decide, by decide⟩

/-- C4, amended.  The ELF backend sign-extends with `cqto` before `idivq
%rcx` and, for Mod, moves the remainder from rdx to rax, as claimed; and
every ELF binary expression appends exactly its operator lines after the
operand/push/pop code.  The PE backend instead zeroes rdx with
`xor rdx, rdx` (48 31 D2) before `idiv rcx` — no sign extension — with
Mod appending `mov rax, rdx` (48 89 D0); every successful PE generation
of a binary expression ends the buffer with `pop rcx` (59) followed by
exactly those operator bytes. -/
theorem c4_amended :
    elfBinaryOpLines BinaryOp.div = ["    cqto\n", "    idivq   %rcx\n"] ∧
    elfBinaryOpLines BinaryOp.mod
      = ["    cqto\n", "    idivq   %rcx\n", "    movq    %rdx, %rax\n"] ∧
    (∀ (op : BinaryOp) (l r : Expression) (st : ElfSt),
      (elfGenExpr (Expression.binary op l r) st).2 =
        (elfGenExpr r st).2 ++ ["    pushq   %rax\n"]
          ++ (elfGenExpr l (elfGenExpr r st).1).2 ++ ["    popq    %rcx\n"]
          ++ elfBinaryOpLines op) ∧
    peBinaryOpBytes BinaryOp.div = [0x48, 0x31, 0xD2, 0x48, 0xF7, 0xF9] ∧
    peBinaryOpBytes BinaryOp.mod
      = [0x48, 0x31, 0xD2, 0x48, 0xF7, 0xF9, 0x48, 0x89, 0xD0] ∧
    (∀ (prog : Program) (fuel : Nat) (op : BinaryOp) (l r : Expression)
        (st st' : PESt),
      peGenExpr prog (fuel + 1) (Expression.binary op l r) st = .ok st' →
      ∃ c, st'.code = c ++ [0x59] ++ peBinaryOpBytes op) := by
  refine ⟨rfl, rfl, ?_, rfl, rfl, ?_⟩
  · intro op l r st
    rcases h1 : elfGenExpr r st with ⟨st1, o1⟩
    rcases h2 : elfGenExpr l st1 with ⟨st2, o2⟩
    simp [elfGenExpr, h1, h2]
  · intro prog fuel op l r st st' h
    simp only [peGenExpr] at h
    obtain ⟨st1, h1, h⟩ := exceptBind_ok h
    obtain ⟨st2, h2, h⟩ := exceptBind_ok h
    simp only [Except.ok.injEq] at h
    subst h
    exact ⟨st2.code, by simp [peEmit]⟩

/-! ## C9: PE inlining of calls and nontermination -/

theorem exceptBind_okL {α β γ : Type} (a : α) (f : α → Except γ β) :
    (Except.ok a >>= f) = f a := rfl

theorem exceptBind_errL {α β γ : Type} (e : γ) (f : α → Except γ β) :
    ((Except.error e : Except γ α) >>= f) = Except.error e := rfl

/-- A program whose `main` calls a directly recursive function `f`. -/
def c9RecProg : Program :=
  ⟨"p", [],
   [⟨"main", [], none, [Statement.expr (Expression.call "f" [])], false⟩,
    ⟨"f", [], none, [Statement.expr (Expression.call "f" [])], false⟩],
   []⟩

/-- On `c9RecProg`, each of the four generator entry points exhausts any
amount of fuel on the recursive call chain. -/
theorem c9RecAux : ∀ fuel : Nat,
    (∀ st, peGenStmts c9RecProg fuel
        [Statement.expr (Expression.call "f" [])] st = .error PEErr.fuelOut) ∧
    (∀ st, peGenStmt c9RecProg fuel
        (Statement.expr (Expression.call "f" [])) st = .error PEErr.fuelOut) ∧
    (∀ st, peGenExpr c9RecProg fuel
        (Expression.call "f" []) st = .error PEErr.fuelOut) ∧
    (∀ st, peIperineCall c9RecProg fuel "f" [] st = .error PEErr.fuelOut) := by
  intro fuel
  induction fuel with
  | zero => exact ⟨fun st => rfl, fun st => rfl, fun st => rfl, fun st => rfl⟩
  | succ fuel ih =>
      obtain ⟨ih1, ih2, ih3, ih4⟩ := ih
      refine ⟨?_, ?_, ?_, ?_⟩
      · intro st
        simp only [peGenStmts]
        rw [ih2 st]
        rfl
      · intro st
        simp only [peGenStmt]
        exact ih3 st
      · intro st
        simp only [peGenExpr]
        rw [if_neg (by decide), if_neg (by decide), if_neg (by decide),
            if_neg (by decide), if_neg (by decide)]
        exact ih4 st
      · intro st
        have hf : c9RecProg.functions.find? (fun g => g.name = "f")
            = some ⟨"f", [], none,
                [Statement.expr (Expression.call "f" [])], false⟩ := rfl
        simp only [peIperineCall, hf]
        cases fuel with
        | zero => rfl
        | succ f =>
            rw [show peGenArgsBind c9RecProg (f + 1) [] []
                  { st with inMain := false }
                = .ok { st with inMain := false } from rfl,
                exceptBind_okL, ih1 { st with inMain := false }]
            rfl

/-- A program whose `main` calls a function `g` (body: the single
expression `5`) twice. -/
def c9InlineProg : Program :=
  ⟨"p", [],
   [⟨"main", [], none,
     [Statement.expr (Expression.call "g" []),
      Statement.expr (Expression.call "g" [])], false⟩,
    ⟨"g", [], none, [Statement.expr (Expression.number 5)], false⟩],
   []⟩

/-- The code the PE generator emits for `g`'s body (`movabs rax, 5`). -/
def c9GBodyCode : List Nat := [0x48, 0xB8, 5, 0, 0, 0, 0, 0, 0, 0]

/-- C9.  In the PE backend a user-function call never emits a call
instruction: the callee's body is re-generated inline at every call site.
First conjunct: on a program whose `main` calls a directly recursive `f`,
code generation diverges — it exhausts every fuel bound.  Remaining
conjuncts: on a program whose `main` calls `g` twice, the output is the
prologue, then two whole copies of the code of `g`'s body (one per call
site), then the exit sequence, and the inlined region contains neither a
direct near call (E8) nor an indirect call (FF 15). -/
theorem c9_inline_nontermination :
    (∀ fuel : Nat, peGenerate "pe" c9RecProg fuel = .error PEErr.fuelOut) ∧
    peGenerate "pe" c9InlineProg 9 =
      .ok ([0x55, 0x48, 0x89, 0xE5, 0x48, 0x83, 0xEC, 0x40]
        ++ (c9GBodyCode ++ c9GBodyCode)
        ++ [0x48, 0x83, 0xEC, 0x20, 0xB9, 0, 0, 0, 0, 0xFF, 0x15,
            0, 0, 0, 0x10]) ∧
    hasSeq [0xE8] (c9GBodyCode ++ c9GBodyCode) = false ∧
    hasSeq [0xFF, 0x15] (c9GBodyCode ++ c9GBodyCode) = false := by
  refine ⟨?_, rfl, by decide, by decide⟩
  intro fuel
  have h := (c9RecAux fuel).1
  have hm : c9RecProg.functions.find? (fun g => g.name = "main")
      = some ⟨"main", [], none,
          [Statement.expr (Expression.call "f" [])], false⟩ := rfl
  simp only [peGenerate, hm]
  rw [if_neg (by decide), h]
  rfl

/-! ## C5: module-qualified calls to non-exported functions -/

/-- A program whose `main` calls `m.h()` where module `m`'s function `h`
is not exported. -/
def c5Prog : Program :=
  ⟨"p", [],
   [⟨"main", [], none,
     [Statement.expr (Expression.moduleCall "m" "h" [])], false⟩],
   [("m", ⟨"m", [⟨"h", [], none, [], false⟩]⟩)]⟩

/-- C5, counterexample.  A module-qualified call to a non-exported
function is fatal only in the PE backend.  The NVM backend compiles
`c5Prog` to a complete bytecode artifact: the call site keeps its four
zero placeholder bytes and the failure surfaces only as a warning string.
The ELF backend emits the `call m_h` instruction unconditionally.  Only
the PE backend panics. -/
theorem c5_counterexample :
    (∃ stf, nvmGenerate c5Prog = .ok stf ∧
      stf.warnings = ["Warning: Unresolved label: func_m_h"] ∧
      stf.bytecode = [78, 86, 77, 48, opCALL32, 0, 0, 0, 0, opPOP,
        opPUSH32, 0, 0, 0, 0, opSYSCALL, sysEXIT, opRET]) ∧
    "    call    m_h\n" ∈ (elfGenerate c5Prog).2 ∧
    peGenerate "pe" c5Prog 9 =
      .error (PEErr.panicked
        "Function 'h' is not exported from module 'm'") :=
  ⟨⟨_, rfl, rfl, rfl⟩, by decide, rfl⟩

/-- C5, amended.  Conjunct 1: in the PE backend a module-qualified call
to a function present in the module map but not exported panics (the
`stdio` builtins are special-cased, hence the `module ≠ "stdio"`
hypothesis).  Conjunct 2: the NVM generator compiles the same call to a
`CALL32` with a label reference and succeeds.  Conjunct 3: NVM label
patching turns an unresolved reference into a warning, leaving state and
bytecode otherwise untouched.  Conjunct 4: the ELF generator emits the
`call` line with no exportedness check at all. -/
theorem c5_amended :
    (∀ (prog : Program) (fuel : Nat) (module function : String)
        (args : List Expression) (st : PESt) (moduleDef : PModule)
        (func : PFunction),
      module ≠ "stdio" →
      prog.modules.lookup module = some moduleDef →
      moduleDef.functions.find? (fun f => f.name = function) = some func →
      func.isExported = false →
      peModuleCall prog (fuel + 1) module function args st =
        .error (PEErr.panicked ("Function '" ++ function
          ++ "' is not exported from module '" ++ module ++ "'"))) ∧
    (∀ (prog : Program) (module function : String) (st : NVMSt),
      module ≠ "stdio" → module ≠ "novaria" →
      nvmGenExpr prog (Expression.moduleCall module function []) st =
        .ok (nvmEmitLabelRef ("func_" ++ module ++ "_" ++ function)
          (nvmEmitByte opCALL32 st))) ∧
    (∀ (st : NVMSt) (pos : Nat) (label : String),
      st.labelPatches = [(pos, label)] →
      st.labels.lookup label = none →
      nvmPatchLabels st = { st with warnings := st.warnings ++
        ["Warning: Unresolved label: " ++ label] }) ∧
    (∀ (m f : String) (st : ElfSt),
      elfGenExpr (Expression.moduleCall m f []) st =
        (st, ["    call    " ++ m ++ "_" ++ f ++ "\n"])) := by
  refine ⟨?_, ?_, ?_, ?_⟩
  · intro prog fuel module function args st moduleDef func hmod hlook hfind hexp
    simp only [peModuleCall, hlook, hfind]
    rw [if_neg (fun hc => hmod hc.1), if_neg (fun hc => hmod hc.1),
        if_neg (fun hc => hmod hc.1), if_neg (fun hc => hmod hc.1),
        if_neg (fun hc => hmod hc.1), if_neg (fun hc => hmod hc.1),
        if_neg (fun hc => hmod hc.1), if_neg (fun hc => hmod hc.1),
        if_pos (by simp [hexp])]
  · intro prog module function st hm1 hm2
    have h : nvmGenExpr prog (Expression.moduleCall module function []) st
        = (if module = "stdio" ∧ function = "Print"
              ∧ ¬ (([] : List Expression).isEmpty) then
             .ok (nvmEmitLabelRef ("func_" ++ module ++ "_" ++ function)
               (nvmEmitByte opCALL32 st))
           else if module = "stdio" ∧ function = "Println"
              ∧ ¬ (([] : List Expression).isEmpty) then
             .ok (nvmEmitLabelRef ("func_" ++ module ++ "_" ++ function)
               (nvmEmitByte opCALL32 st))
           else if module = "novaria" then
             (if function = "FileCreateStr" then
                .ok (nvmNovariaLower module function st)
              else
                .ok (nvmNovariaLower module function st))
           else
             .ok (nvmEmitLabelRef ("func_" ++ module ++ "_" ++ function)
               (nvmEmitByte opCALL32 st))) := rfl
    rw [h, if_neg (fun hc => hm1 hc.1), if_neg (fun hc => hm1 hc.1),
        if_neg hm2]
  · intro st pos label hpatch hlook
    simp only [nvmPatchLabels, hpatch, List.foldl_cons, List.foldl_nil, hlook]
  · intro m f st
    rfl

/-- Witness for `c5_amended`, instantiated on `c5Prog`'s call `m.h()`. -/
theorem c5_amended_witness :
    peModuleCall c5Prog 4 "m" "h" [] ⟨[], [], 0, "pe", true⟩ =
      .error (PEErr.panicked
        ("Function '" ++ "h" ++ "' is not exported from module '"
          ++ "m" ++ "'")) :=
  c5_amended.1 c5Prog 3 "m" "h" [] ⟨[], [], 0, "pe", true⟩
    ⟨"m", [⟨"h", [], none, [], false⟩]⟩ ⟨"h", [], none, [], false⟩
    (by decide) rfl rfl rfl

/-! ## C6: function frames and parameter spilling -/

/-- A program that imports `stdio` (so the ELF stdio shims are emitted)
with an empty `main`. -/
def c6StdioProg : Program :=
  ⟨"p", [⟨"stdio", none⟩], [⟨"main", [], none, [], false⟩],
   [("stdio", ⟨"stdio", []⟩)]⟩

/-- Modelled from the spec's words, for comparison: the variable map that
records the first parameters at frame offsets `off-8, off-16, …` in
parameter order (later parameters first, as the generator conses). -/
def c6SpecVars : List Parameter → Int → List (String × Int)
  | [], _ => []
  | p :: rest, off => c6SpecVars rest (off - 8) ++ [(p.name, off - 8)]

/-- Modelled from the spec's words, for comparison: the spill lines that
move argument register `i` to frame offset `off - 8*(i+1)`. -/
def c6SpecSpills : List Parameter → Nat → Int → List String
  | [], _, _ => []
  | p :: rest, i, off =>
      ("    movq    " ++ List.getD elfArgRegs i "" ++ ", "
        ++ toString (off - 8) ++ "(%rbp)\n") :: c6SpecSpills rest (i + 1) (off - 8)

/-- For at most six parameters the generator's parameter loop produces
exactly the spec-side map and spill lines. -/
theorem elfBindParams_eq : ∀ (params : List Parameter) (i : Nat) (off : Int)
    (vars : List (String × Int)), i + params.length ≤ 6 →
    elfBindParams params i off vars =
      (c6SpecVars params off ++ vars, off - 8 * params.length,
       c6SpecSpills params i off) := by
  intro params
  induction params with
  | nil =>
      intro i off vars h
      simp [elfBindParams, c6SpecVars, c6SpecSpills]
  | cons p rest ih =>
      intro i off vars h
      have hi : i < 6 := by simp [List.length_cons] at h; omega
      simp only [elfBindParams, if_pos hi]
      rw [ih (i + 1) (off - 8) ((p.name, off - 8) :: vars) (by
        simp [List.length_cons] at h; omega)]
      simp only [c6SpecVars, c6SpecSpills, Prod.mk.injEq]
      refine ⟨by simp, by simp [List.length_cons]; push_cast; ring, trivial⟩

/-- C6, counterexample.  Not every emitted native function establishes the
claimed frame: in the output for a program importing `stdio`, the
`stdio_Println` shim follows `pushq %rbp; movq %rsp, %rbp` directly with
`movq %rdi, %rsi` — there is no `subq $64, %rsp` — and the `stdio_ReadInt`
shim subtracts 16, not 64. -/
theorem c6_counterexample :
    (elfGenerate c6StdioProg).2.take 6 =
      ["    .text\n",
       "    .globl stdio_Println\n", "stdio_Println:\n",
       "    pushq   %rbp\n", "    movq    %rsp, %rbp\n",
       "    movq    %rdi, %rsi\n"] ∧
    (elfGenerate c6StdioProg).2.get? 5 ≠ some "    subq    $64, %rsp\n" ∧
    "    subq    $16, %rsp\n" ∈ (elfGenStdioFunctions ElfSt.initial).2 ∧
    "    subq    $64, %rsp\n" ∉ (elfGenStdioFunctions ElfSt.initial).2 := by
  refine ⟨by decide, by decide, by decide, by decide⟩

/-- C6, amended.  For user and module functions (up to six parameters) the
claim holds in the ELF backend: the symbol lines are followed by the
`pushq/movq/subq $64` prologue, the spill of parameter `i` into frame
offset `-8*(i+1)` from argument register `i`, and the body generated under
the variable map recording exactly those offsets.  In the PE backend the
sole emitted function is `main`, whose image also starts with
`push rbp; mov rbp, rsp; sub rsp, 0x40`.  The hand-written ELF stdio
shims, however, do not follow this layout (see the counterexample). -/
theorem c6_amended (func : PFunction) (st : ElfSt)
    (h6 : func.params.length ≤ 6) :
    ((elfGenUserFunction func st).2 =
      ["    .globl " ++ func.name ++ "\n", func.name ++ ":\n"]
        ++ (elfGenFunctionCommon func st).2) ∧
    (∀ moduleName, (elfGenModuleFunction moduleName func st).2 =
      ["    .globl " ++ moduleName ++ "_" ++ func.name ++ "\n",
       moduleName ++ "_" ++ func.name, ":\n"]
        ++ (elfGenFunctionCommon func st).2) ∧
    (elfGenFunctionCommon func st).2 =
      ["    pushq   %rbp\n", "    movq    %rsp, %rbp\n",
       "    subq    $64, %rsp\n"]
      ++ c6SpecSpills func.params 0 0
      ++ (elfGenStmts func.body
            { st with vars := c6SpecVars func.params 0,
                      stackOffset := 0 - 8 * func.params.length }).2
      ++ ["    movl    $0, %eax\n", "    leave\n", "    ret\n\n"] ∧
    (∀ (prog : Program) (fuel : Nat) (bytes : List Nat),
      peGenerate "pe" prog fuel = .ok bytes →
      bytes.take 8 = [0x55, 0x48, 0x89, 0xE5, 0x48, 0x83, 0xEC, 0x40]) := by
  have hcommon : (elfGenFunctionCommon func st).2 =
      ["    pushq   %rbp\n", "    movq    %rsp, %rbp\n",
       "    subq    $64, %rsp\n"]
      ++ c6SpecSpills func.params 0 0
      ++ (elfGenStmts func.body
            { st with vars := c6SpecVars func.params 0,
                      stackOffset := 0 - 8 * func.params.length }).2
      ++ ["    movl    $0, %eax\n", "    leave\n", "    ret\n\n"] := by
    simp only [elfGenFunctionCommon]
    rw [elfBindParams_eq func.params 0 0 [] (by simpa using h6)]
    simp only [List.append_nil]
  refine ⟨?_, ?_, hcommon, ?_⟩
  · rcases hc : elfGenFunctionCommon func st with ⟨st1, o1⟩
    simp [elfGenUserFunction, hc]
  · intro moduleName
    rcases hc : elfGenFunctionCommon func st with ⟨st1, o1⟩
    simp [elfGenModuleFunction, hc]
  · intro prog fuel bytes h
    simp only [peGenerate] at h
    split at h
    · simp at h
    · rw [if_neg (by decide)] at h
      obtain ⟨st2, h2, h⟩ := exceptBind_ok h
      simp only [Except.ok.injEq] at h
      subst h
      obtain ⟨ht, d, hc⟩ := (peGen_extends_all prog fuel).2.2.2.2.2 _ _ _ h2
      have ht' : st2.target = "pe" := ht
      rw [peEmitExit, if_neg (by rw [ht']; decide)]
      simp only [peEmitI32, peEmit, hc]
      simp [List.append_assoc]

/-- Witness for `c6_amended` at a three-parameter function. -/
theorem c6_amended_witness :
    (elfGenFunctionCommon
        ⟨"f", [⟨"a", "int"⟩, ⟨"b", "int"⟩, ⟨"c", "int"⟩], none, [], false⟩
        ElfSt.initial).2 =
      ["    pushq   %rbp\n", "    movq    %rsp, %rbp\n",
       "    subq    $64, %rsp\n"]
      ++ c6SpecSpills [⟨"a", "int"⟩, ⟨"b", "int"⟩, ⟨"c", "int"⟩] 0 0
      ++ (elfGenStmts []
            { ElfSt.initial with
              vars := c6SpecVars [⟨"a", "int"⟩, ⟨"b", "int"⟩, ⟨"c", "int"⟩] 0,
              stackOffset := 0 - 8 * (3 : Nat) }).2
      ++ ["    movl    $0, %eax\n", "    leave\n", "    ret\n\n"] ∧
    c6SpecSpills [⟨"a", "int"⟩, ⟨"b", "int"⟩, ⟨"c", "int"⟩] 0 0 =
      ["    movq    %rdi, -8(%rbp)\n", "    movq    %rsi, -16(%rbp)\n",
       "    movq    %rdx, -24(%rbp)\n"] ∧
    (c6SpecVars [⟨"a", "int"⟩, ⟨"b", "int"⟩, ⟨"c", "int"⟩] 0).lookup "b"
      = some (-16) :=
  ⟨(c6_amended
      ⟨"f", [⟨"a", "int"⟩, ⟨"b", "int"⟩, ⟨"c", "int"⟩], none, [], false⟩
      ElfSt.initial (by decide)).2.2.1,
   by decide, by decide⟩

/-! ## C7: PE branch displacement patching -/

/-- `patchI32_exact` with the position and code given up to equality
proofs, convenient for rewriting. -/
theorem patchI32_at (a z b : List Nat) (hz : z.length = 4) (pos : Nat)
    (v : Int) (code : List Nat) (hpos : pos = a.length)
    (hcode : code = a ++ (z ++ b)) :
    patchI32 pos v code = a ++ (i32le v ++ b) := by
  subst hpos
  subst hcode
  exact patchI32_exact a z b v hz

/-- C7.  PE branches carry a zero 32-bit displacement that is patched in
place to `target - (site + 4)`.  Conjunct 1 (`if` with no `else`): given
the condition run and the then-body run, the final code is the condition
code, `test rax, rax; je` with its displacement patched to
`d.length + 5` — the byte immediately after the then-body (`d`) and its
trailing five-byte unconditional jump — followed by `d`, `jmp` and a zero
displacement (patched to `endLabel - (site + 4) = 0`, the next byte).
Conjunct 2 (`for` with a condition): the conditional exit jump is likewise
patched to `d.length + 5`, the byte immediately after the trailing
five-byte backward jump, whose own displacement is emitted directly as
`loopStart - (site + 4)`. -/
theorem c7_branch_patching :
    (∀ (prog : Program) (fuel : Nat) (cond : Expression)
        (thenBody : List Statement) (st st' stc stt : PESt),
      peGenExpr prog fuel cond st = .ok stc →
      peGenStmts prog fuel thenBody
        (peEmitI32 0 (peEmit [0x48, 0x85, 0xC0, 0x0F, 0x84] stc)) = .ok stt →
      peGenStmt prog (fuel + 1) (Statement.ifS cond thenBody none) st
        = .ok st' →
      ∃ d, stt.code = stc.code ++ [0x48, 0x85, 0xC0, 0x0F, 0x84]
          ++ i32le 0 ++ d ∧
        st'.code = stc.code ++ [0x48, 0x85, 0xC0, 0x0F, 0x84]
          ++ i32le ((d.length : Int) + 5) ++ d ++ [0xE9] ++ i32le 0) ∧
    (∀ (prog : Program) (fuel : Nat) (init post : Option Statement)
        (cond : Expression) (body : List Statement) (st st' stc stt : PESt),
      peGenExpr prog fuel cond st = .ok stc →
      peGenStmts prog fuel body
        (peEmitI32 0 (peEmit [0x48, 0x85, 0xC0, 0x0F, 0x84] stc)) = .ok stt →
      peGenStmt prog (fuel + 1) (Statement.forS init (some cond) post body) st
        = .ok st' →
      ∃ d, stt.code = stc.code ++ [0x48, 0x85, 0xC0, 0x0F, 0x84]
          ++ i32le 0 ++ d ∧
        st'.code = stc.code ++ [0x48, 0x85, 0xC0, 0x0F, 0x84]
          ++ i32le ((d.length : Int) + 5) ++ d ++ [0xE9]
          ++ i32le ((st.code.length : Int) - (stt.code.length : Int)
              - 1 - 4)) := by
  constructor
  · intro prog fuel cond thenBody st st' stc stt hc ht h
    simp only [peGenStmt] at h
    obtain ⟨st1, h1, h⟩ := exceptBind_ok h
    rw [hc] at h1
    injection h1 with h1
    subst h1
    obtain ⟨st3, h3, h⟩ := exceptBind_ok h
    rw [ht] at h3
    injection h3 with h3
    subst h3
    obtain ⟨st7, h7, h⟩ := exceptBind_ok h
    simp only [Except.ok.injEq] at h7 h
    subst h7
    subst h
    obtain ⟨htgt, d, hd⟩ := (peGen_extends_all prog fuel).2.2.2.2.2 _ _ _ ht
    have hlen : stt.code.length = stc.code.length + 9 + d.length := by
      rw [hd]; simp [peEmitI32, peEmit, i32le_length]; omega
    refine ⟨d, by rw [hd]; simp [peEmitI32, peEmit, List.append_assoc], ?_⟩
    simp only [pePatchI32, peEmitI32, peEmit]
    have hV1 : (((stt.code ++ [0xE9] ++ i32le 0).length : Int)
        - ((stc.code ++ [0x48, 0x85, 0xC0, 0x0F, 0x84]).length : Int) - 4)
        = (d.length : Int) + 5 := by
      simp only [List.length_append, List.length_cons, List.length_nil,
        i32le_length, hlen]
      push_cast
      omega
    have hinner : patchI32
          (stc.code ++ [0x48, 0x85, 0xC0, 0x0F, 0x84]).length
          (((stt.code ++ [0xE9] ++ i32le 0).length : Int)
            - ((stc.code ++ [0x48, 0x85, 0xC0, 0x0F, 0x84]).length : Int) - 4)
          (stt.code ++ [0xE9] ++ i32le 0)
        = (stc.code ++ [0x48, 0x85, 0xC0, 0x0F, 0x84])
          ++ (i32le ((d.length : Int) + 5) ++ (d ++ ([0xE9] ++ i32le 0))) := by
      rw [hV1]
      exact patchI32_at _ _ _ (i32le_length 0) _ _ _ rfl
        (by rw [hd]; simp [peEmitI32, peEmit, List.append_assoc])
    rw [hinner]
    have hV2 : ((((stc.code ++ [0x48, 0x85, 0xC0, 0x0F, 0x84])
          ++ (i32le ((d.length : Int) + 5)
            ++ (d ++ ([0xE9] ++ i32le 0)))).length : Int)
        - ((stt.code ++ [0xE9]).length : Int) - 4) = 0 := by
      simp only [List.length_append, List.length_cons, List.length_nil,
        i32le_length, hlen]
      push_cast
      omega
    rw [hV2]
    have houter : patchI32 (stt.code ++ [0xE9]).length 0
          ((stc.code ++ [0x48, 0x85, 0xC0, 0x0F, 0x84])
            ++ (i32le ((d.length : Int) + 5) ++ (d ++ ([0xE9] ++ i32le 0))))
        = ((stc.code ++ [0x48, 0x85, 0xC0, 0x0F, 0x84]
            ++ i32le ((d.length : Int) + 5) ++ d ++ [0xE9])
          ++ (i32le 0 ++ [])) := by
      refine patchI32_at _ _ _ (i32le_length 0) _ _ _ ?_ (by simp)
      simp [List.length_append, i32le_length, hlen]
      omega
    rw [houter]
    simp
  · intro prog fuel init post cond body st st' stc stt hc ht h
    simp only [peGenStmt] at h
    obtain ⟨st1, h1, h⟩ := exceptBind_ok h
    rw [hc] at h1
    injection h1 with h1
    subst h1
    obtain ⟨st3, h3, h⟩ := exceptBind_ok h
    rw [ht] at h3
    injection h3 with h3
    subst h3
    simp only [Except.ok.injEq] at h
    subst h
    obtain ⟨htgt, d, hd⟩ := (peGen_extends_all prog fuel).2.2.2.2.2 _ _ _ ht
    have hlen : stt.code.length = stc.code.length + 9 + d.length := by
      rw [hd]; simp [peEmitI32, peEmit, i32le_length]; omega
    refine ⟨d, by rw [hd]; simp [peEmitI32, peEmit, List.append_assoc], ?_⟩
    simp only [pePatchI32, peEmitI32, peEmit]
    have hV : (((stt.code ++ [0xE9]
          ++ i32le ((st.code.length : Int)
            - ((stt.code ++ [0xE9]).length : Int) - 4)).length : Int)
        - ((stc.code ++ [0x48, 0x85, 0xC0, 0x0F, 0x84]).length : Int) - 4)
        = (d.length : Int) + 5 := by
      simp only [List.length_append, List.length_cons, List.length_nil,
        i32le_length, hlen]
      push_cast
      omega
    rw [hV]
    have hB : ((st.code.length : Int)
          - ((stt.code ++ [0xE9]).length : Int) - 4)
        = ((st.code.length : Int) - (stt.code.length : Int) - 1 - 4) := by
      simp only [List.length_append, List.length_cons, List.length_nil]
      push_cast
      omega
    rw [hB]
    have houter : patchI32
          (stc.code ++ [0x48, 0x85, 0xC0, 0x0F, 0x84]).length
          ((d.length : Int) + 5)
          (stt.code ++ [0xE9]
            ++ i32le ((st.code.length : Int) - (stt.code.length : Int) - 1 - 4))
        = (stc.code ++ [0x48, 0x85, 0xC0, 0x0F, 0x84])
          ++ (i32le ((d.length : Int) + 5)
            ++ (d ++ ([0xE9] ++ i32le ((st.code.length : Int)
                - (stt.code.length : Int) - 1 - 4)))) := by
      exact patchI32_at _ _ _ (i32le_length 0) _ _ _ rfl
        (by rw [hd]; simp [peEmitI32, peEmit, List.append_assoc])
    rw [houter]
    simp [List.append_assoc]

def c7St0 : PESt := ⟨[], [], 0, "pe", true⟩

/-- Witness for `c7_branch_patching` at `if 1 { 2; }` from an empty
state. -/
theorem c7_branch_patching_witness :
    ∃ st', peGenStmt (⟨"p", [], [], []⟩ : Program) 4
        (Statement.ifS (Expression.number 1)
          [Statement.expr (Expression.number 2)] none) c7St0 = .ok st' ∧
      ∃ d, (peEmitI64 2 (peEmit [0x48, 0xB8] (peEmitI32 0
          (peEmit [0x48, 0x85, 0xC0, 0x0F, 0x84]
            (peEmitI64 1 (peEmit [0x48, 0xB8] c7St0)))))).code
          = (peEmitI64 1 (peEmit [0x48, 0xB8] c7St0)).code
            ++ [0x48, 0x85, 0xC0, 0x0F, 0x84] ++ i32le 0 ++ d ∧
        st'.code = (peEmitI64 1 (peEmit [0x48, 0xB8] c7St0)).code
          ++ [0x48, 0x85, 0xC0, 0x0F, 0x84] ++ i32le ((d.length : Int) + 5)
          ++ d ++ [0xE9] ++ i32le 0 :=
  ⟨_, rfl, c7_branch_patching.1 ⟨"p", [], [], []⟩ 3 (Expression.number 1)
    [Statement.expr (Expression.number 2)] c7St0 _
    (peEmitI64 1 (peEmit [0x48, 0xB8] c7St0))
    (peEmitI64 2 (peEmit [0x48, 0xB8] (peEmitI32 0
      (peEmit [0x48, 0x85, 0xC0, 0x0F, 0x84]
        (peEmitI64 1 (peEmit [0x48, 0xB8] c7St0)))))) rfl rfl rfl⟩

/-! ## C1: function emission order -/

/-- A program with `main`, a user function `f`, and a module `m`
exporting `g`. -/
def c1NvmProg : Program :=
  ⟨"p", [], [⟨"main", [], none, [], false⟩, ⟨"f", [], none, [], false⟩],
   [("m", ⟨"m", [⟨"g", [], none, [], true⟩]⟩)]⟩

/-- A program whose user function `f` has a body (`7`) that `main` never
calls. -/
def c1PeProg : Program :=
  ⟨"p", [],
   [⟨"main", [], none, [], false⟩,
    ⟨"f", [], none, [Statement.expr (Expression.number 7)], false⟩],
   []⟩

/-- C1, counterexample.  The claimed order (modules, then users, then
shims, then `main` last) holds only for the ELF backend.  In the NVM
backend `main` is emitted first — its label sits at offset 4, immediately
after the magic, before user function `f` (offset 12) and module function
`m_g` (offset 13, after the users, not before).  In the PE backend no
function other than `main` is emitted at all: the image for `c1PeProg` is
just `main`'s prologue and exit sequence, and `f`'s body bytes
(`movabs rax, 7`) appear nowhere. -/
theorem c1_counterexample :
    (∃ stf, nvmGenerate c1NvmProg = .ok stf ∧
      stf.labels.lookup "func_main" = some 4 ∧
      stf.labels.lookup "func_f" = some 12 ∧
      stf.labels.lookup "func_m_g" = some 13) ∧
    peGenerate "pe" c1PeProg 9 =
      .ok [0x55, 0x48, 0x89, 0xE5, 0x48, 0x83, 0xEC, 0x40,
           0x48, 0x83, 0xEC, 0x20, 0xB9, 0, 0, 0, 0, 0xFF, 0x15,
           0, 0, 0, 0x10] ∧
    hasSeq [0x48, 0xB8, 7]
      [0x55, 0x48, 0x89, 0xE5, 0x48, 0x83, 0xEC, 0x40,
       0x48, 0x83, 0xEC, 0x20, 0xB9, 0, 0, 0, 0, 0xFF, 0x15,
       0, 0, 0, 0x10] = false :=
  ⟨⟨_, rfl, rfl, rfl, rfl⟩, rfl, by decide⟩

def c1ElfSt1 (program : Program) : ElfSt :=
  (elfGenModuleList program.modules ElfSt.initial).1

def c1ElfSt2 (program : Program) : ElfSt :=
  (elfGenUserList program.functions (c1ElfSt1 program)).1

def c1ElfSt3 (program : Program) : ElfSt :=
  if (program.modules.lookup "stdio").isSome
  then (elfGenStdioFunctions (c1ElfSt2 program)).1 else c1ElfSt2 program

def c1ElfSt4 (program : Program) : ElfSt :=
  match program.functions.find? (fun f => f.name = "main") with
  | some mainFunc => (elfGenStmts mainFunc.body (c1ElfSt3 program)).1
  | none => c1ElfSt3 program

/-- C1, amended.  Conjunct 1: the ELF backend emits, in order: the
exported module functions (stdio skipped), the user functions other than
`main`, the stdio shims when the stdio module is present, and finally
`main` under the global entry symbol, followed by the rodata pool.
Conjunct 2: the PE backend emits only `main` — the image is exactly the
prologue, `main`'s body code and the exit sequence.  Conjunct 3: the NVM
backend emits `main` first (label at offset 4, right after the magic),
then the other user functions, then the exported module functions. -/
theorem c1_amended :
    (∀ program : Program,
      (elfGenerate program).2
        = ["    .text\n"]
          ++ (elfGenModuleList program.modules ElfSt.initial).2
          ++ (elfGenUserList program.functions (c1ElfSt1 program)).2
          ++ (if (program.modules.lookup "stdio").isSome
              then (elfGenStdioFunctions (c1ElfSt2 program)).2 else [])
          ++ ["    .globl main\n", "main:\n", "    pushq   %rbp\n",
              "    movq    %rsp, %rbp\n", "    subq    $64, %rsp\n"]
          ++ (match program.functions.find? (fun f => f.name = "main") with
              | some mainFunc =>
                  (elfGenStmts mainFunc.body (c1ElfSt3 program)).2
              | none => [])
          ++ ["    movl    $0, %eax\n", "    leave\n", "    ret\n"]
          ++ elfRodata (c1ElfSt4 program).stringLiterals) ∧
    (∀ (prog : Program) (fuel : Nat) (mainFunc : PFunction) (st2 : PESt),
      prog.functions.find? (fun f => f.name = "main") = some mainFunc →
      peGenStmts prog fuel mainFunc.body
        (peEmit [0x55, 0x48, 0x89, 0xE5, 0x48, 0x83, 0xEC, 0x40]
          ⟨[], [], 0, "pe", true⟩) = .ok st2 →
      peGenerate "pe" prog fuel = .ok (peEmitExit 0 st2).code) ∧
    (∃ stf, nvmGenerate c1NvmProg = .ok stf ∧ stf.bytecode.length = 14 ∧
      stf.labels = [("func_m_g", 13), ("func_f", 12), ("func_main", 4)]) := by
  refine ⟨?_, ?_, ⟨_, rfl, rfl, rfl⟩⟩
  · intro program
    simp only [elfGenerate]
    rcases h1 : elfGenModuleList program.modules ElfSt.initial with ⟨s1, o1⟩
    have e1 : c1ElfSt1 program = s1 := by simp [c1ElfSt1, h1]
    rcases h2 : elfGenUserList program.functions s1 with ⟨s2, o2⟩
    have e2 : c1ElfSt2 program = s2 := by simp [c1ElfSt2, e1, h2]
    by_cases hst : (program.modules.lookup "stdio").isSome
    · rcases h3 : elfGenStdioFunctions s2 with ⟨s3, o3⟩
      have e3 : c1ElfSt3 program = s3 := by simp [c1ElfSt3, hst, e2, h3]
      cases hm : program.functions.find? (fun f => f.name = "main") with
      | none =>
          have e4 : c1ElfSt4 program = s3 := by simp [c1ElfSt4, hm, e3]
          simp [h1, h2, h3, hm, hst, e1, e2, e3, e4]
      | some mainFunc =>
          rcases h4 : elfGenStmts mainFunc.body s3 with ⟨s4, o4⟩
          have e4 : c1ElfSt4 program = s4 := by simp [c1ElfSt4, hm, e3, h4]
          simp [h1, h2, h3, h4, hm, hst, e1, e2, e3, e4]
    · have e3 : c1ElfSt3 program = s2 := by simp [c1ElfSt3, hst, e2]
      cases hm : program.functions.find? (fun f => f.name = "main") with
      | none =>
          have e4 : c1ElfSt4 program = s2 := by simp [c1ElfSt4, hm, e3]
          simp [h1, h2, hm, hst, e1, e2, e3, e4]
      | some mainFunc =>
          rcases h4 : elfGenStmts mainFunc.body s2 with ⟨s4, o4⟩
          have e4 : c1ElfSt4 program = s4 := by simp [c1ElfSt4, hm, e3, h4]
          simp [h1, h2, h4, hm, hst, e1, e2, e3, e4]
  · intro prog fuel mainFunc st2 hfind hst2
    simp only [peGenerate, hfind]
    rw [if_neg (by decide), hst2, exceptBind_okL]

/-- Witness for `c1_amended`: the PE image of `c1PeProg` is exactly
`main`'s code. -/
theorem c1_amended_witness :
    peGenerate "pe" c1PeProg 9 =
      .ok (peEmitExit 0
        (peEmit [0x55, 0x48, 0x89, 0xE5, 0x48, 0x83, 0xEC, 0x40]
          ⟨[], [], 0, "pe", true⟩)).code :=
  c1_amended.2.1 c1PeProg 9 ⟨"main", [], none, [], false⟩
    (peEmit [0x55, 0x48, 0x89, 0xE5, 0x48, 0x83, 0xEC, 0x40]
      ⟨[], [], 0, "pe", true⟩) rfl rfl

/-! ## C2: the PE import directory and the sentinel post-pass -/

theorem listGetDAppend0 (a y : List Nat) :
    (a ++ y).getD a.length 0 = y.getD 0 0 := by
  induction a with
  | nil => simp
  | cons x rest ih => simpa using ih

theorem listGetDAppend (a y : List Nat) (j : Nat) :
    (a ++ y).getD (a.length + j) 0 = y.getD j 0 := by
  induction a with
  | nil => simp
  | cons x rest ih => simpa [Nat.succ_add] using ih

theorem listTakeAppend (a y : List Nat) (j : Nat) :
    (a ++ y).take (a.length + j) = a ++ y.take j := by
  induction a with
  | nil => simp
  | cons x rest ih => simp [Nat.succ_add, ih]

theorem listDropAppend (a y : List Nat) (j : Nat) :
    (a ++ y).drop (a.length + j) = y.drop j := by
  induction a with
  | nil => simp
  | cons x rest ih => simp [Nat.succ_add, ih]

set_option maxRecDepth 10000 in
/-- C2, counterexample.  The base RVA used to build the import-data
tables is the fixed value 0x2000 (= 0x1000 + section alignment), not
0x1000 plus the aligned code size: the descriptor's ILT field is always
0x2000 + 54, which differs from the claimed base already at code size
0x1200.  And not every sentinel the code generator emits is resolved:
`emit_read_int` emits an `FF 15` call with sentinel 0x20100000, which the
post-pass (handling only 0x20000000, 0x20080000 and 0x10000000) leaves
untouched. -/
theorem c2_counterexample :
    peBuildImportData.take 4 = u32le (0x2000 + 54) ∧
    (0x1000 + peAlign 0x1200 0x1000 + 54 : Nat) ≠ 0x2000 + 54 ∧
    hasSeq ([0xFF, 0x15] ++ i32le 0x20100000)
      (peEmitReadInt ⟨[], [], 0, "pe", true⟩).code = true ∧
    patchImportAddresses [0xFF, 0x15, 0x00, 0x00, 0x10, 0x20] 0x1200
      = [0xFF, 0x15, 0x00, 0x00, 0x10, 0x20] :=
  ⟨by decide, by decide, by decide, by decide⟩

set_option maxRecDepth 10000 in
/-- C2, amended.  The import data (built against the fixed base RVA
0x2000, not the code-size-dependent one) holds exactly one descriptor: it
names KERNEL32.dll (name RVA 0x2000+40), its ILT (RVA 0x2000+54) and IAT
(RVA 0x2000+86) each hold the three hint/name RVAs for GetStdHandle,
WriteFile and ExitProcess followed by a null entry, and the next
descriptor slot is all zeros.  The post-pass scans the code for `FF 15`
windows and resolves exactly the three sentinels 0x20000000, 0x20080000
and 0x10000000 to IAT slots 0, 1 and 2: the displacement becomes
`iat_rva + 8*slot - (site + 6 + 0x1000)`, where `iat_rva` is computed
from the aligned code size as 0x1000 + align(code_size, 0x1000) + 86.
The final conjunct runs the whole pass on a concrete exit sequence. -/
theorem c2_amended :
    (peBuildImportData.length = 160 ∧
     peBuildImportData.take 4 = u32le (0x2000 + 54) ∧
     (peBuildImportData.drop 12).take 4 = u32le (0x2000 + 40) ∧
     (peBuildImportData.drop 16).take 4 = u32le (0x2000 + 86) ∧
     (peBuildImportData.drop 20).take 20 = List.replicate 20 0 ∧
     (peBuildImportData.drop 40).take 13 = strBytes "KERNEL32.dll" ++ [0] ∧
     (peBuildImportData.drop 54).take 8 = u64le (0x2000 + 118) ∧
     (peBuildImportData.drop 62).take 8 = u64le (0x2000 + 134) ∧
     (peBuildImportData.drop 70).take 8 = u64le (0x2000 + 146) ∧
     (peBuildImportData.drop 78).take 8 = u64le 0 ∧
     (peBuildImportData.drop 86).take 24 = (peBuildImportData.drop 54).take 24 ∧
     (peBuildImportData.drop 110).take 8 = u64le 0 ∧
     (peBuildImportData.drop 120).take 12 = strBytes "GetStdHandle" ∧
     (peBuildImportData.drop 136).take 9 = strBytes "WriteFile" ∧
     (peBuildImportData.drop 148).take 11 = strBytes "ExitProcess") ∧
    (∀ (iatRva : Nat) (a b : List Nat),
      pePatchStep iatRva a.length (a ++ ([0xFF, 0x15] ++ (u32le 0x20000000 ++ b)))
        = a ++ ([0xFF, 0x15] ++ (i32le ((iatRva : Int) -
            ((a.length : Int) + 6 + 0x1000)) ++ b))) ∧
    (∀ (iatRva : Nat) (a b : List Nat),
      pePatchStep iatRva a.length (a ++ ([0xFF, 0x15] ++ (u32le 0x20080000 ++ b)))
        = a ++ ([0xFF, 0x15] ++ (i32le ((iatRva : Int) + 8 -
            ((a.length : Int) + 6 + 0x1000)) ++ b))) ∧
    (∀ (iatRva : Nat) (a b : List Nat),
      pePatchStep iatRva a.length (a ++ ([0xFF, 0x15] ++ (u32le 0x10000000 ++ b)))
        = a ++ ([0xFF, 0x15] ++ (i32le ((iatRva : Int) + 16 -
            ((a.length : Int) + 6 + 0x1000)) ++ b))) ∧
    patchImportAddresses
      [0x48, 0x83, 0xEC, 0x20, 0xB9, 0, 0, 0, 0, 0xFF, 0x15, 0, 0, 0, 0x10] 15
      = [0x48, 0x83, 0xEC, 0x20, 0xB9, 0, 0, 0, 0, 0xFF, 0x15,
         0x57, 0x10, 0, 0] := by
  refine ⟨by decide, ?_, ?_, ?_, by decide⟩
  · intro iatRva a b
    rw [show a ++ ([0xFF, 0x15] ++ (u32le 0x20000000 ++ b))
        = a ++ (0xFF :: 0x15 :: 0x00 :: 0x00 :: 0x00 :: 0x20 :: b) from rfl]
    have hg0 : (a ++ (0xFF :: 0x15 :: 0x00 :: 0x00 :: 0x00 :: 0x20 :: b)).getD a.length 0 = 0xFF :=
      listGetDAppend0 a _
    have hg1 : (a ++ (0xFF :: 0x15 :: 0x00 :: 0x00 :: 0x00 :: 0x20 :: b)).getD (a.length + 1) 0 = 0x15 :=
      listGetDAppend a _ 1
    have hg2 : (a ++ (0xFF :: 0x15 :: 0x00 :: 0x00 :: 0x00 :: 0x20 :: b)).getD (a.length + 2) 0 = 0x00 :=
      listGetDAppend a _ 2
    have hg3 : (a ++ (0xFF :: 0x15 :: 0x00 :: 0x00 :: 0x00 :: 0x20 :: b)).getD (a.length + 3) 0 = 0x00 :=
      listGetDAppend a _ 3
    have hg4 : (a ++ (0xFF :: 0x15 :: 0x00 :: 0x00 :: 0x00 :: 0x20 :: b)).getD (a.length + 4) 0 = 0x00 :=
      listGetDAppend a _ 4
    have hg5 : (a ++ (0xFF :: 0x15 :: 0x00 :: 0x00 :: 0x00 :: 0x20 :: b)).getD (a.length + 5) 0 = 0x20 :=
      listGetDAppend a _ 5
    simp only [pePatchStep, hg0, hg1, hg2, hg3, hg4, hg5]
    norm_num
    simp only [spliceBytes]
    rw [listTakeAppend a _ 2, Nat.add_assoc, listDropAppend, i32le_length]
    rw [show (0xFF :: 0x15 :: 0x00 :: 0x00 :: 0x00 :: 0x20 :: b).take 2
        = [0xFF, 0x15] from rfl]
    rw [show (0xFF :: 0x15 :: 0x00 :: 0x00 :: 0x00 :: 0x20 :: b).drop (2 + 4)
        = b from rfl]
    simp [List.append_assoc]
  · intro iatRva a b
    rw [show a ++ ([0xFF, 0x15] ++ (u32le 0x20080000 ++ b))
        = a ++ (0xFF :: 0x15 :: 0x00 :: 0x00 :: 0x08 :: 0x20 :: b) from rfl]
    have hg0 : (a ++ (0xFF :: 0x15 :: 0x00 :: 0x00 :: 0x08 :: 0x20 :: b)).getD a.length 0 = 0xFF :=
      listGetDAppend0 a _
    have hg1 : (a ++ (0xFF :: 0x15 :: 0x00 :: 0x00 :: 0x08 :: 0x20 :: b)).getD (a.length + 1) 0 = 0x15 :=
      listGetDAppend a _ 1
    have hg2 : (a ++ (0xFF :: 0x15 :: 0x00 :: 0x00 :: 0x08 :: 0x20 :: b)).getD (a.length + 2) 0 = 0x00 :=
      listGetDAppend a _ 2
    have hg3 : (a ++ (0xFF :: 0x15 :: 0x00 :: 0x00 :: 0x08 :: 0x20 :: b)).getD (a.length + 3) 0 = 0x00 :=
      listGetDAppend a _ 3
    have hg4 : (a ++ (0xFF :: 0x15 :: 0x00 :: 0x00 :: 0x08 :: 0x20 :: b)).getD (a.length + 4) 0 = 0x08 :=
      listGetDAppend a _ 4
    have hg5 : (a ++ (0xFF :: 0x15 :: 0x00 :: 0x00 :: 0x08 :: 0x20 :: b)).getD (a.length + 5) 0 = 0x20 :=
      listGetDAppend a _ 5
    simp only [pePatchStep, hg0, hg1, hg2, hg3, hg4, hg5]
    norm_num
    simp only [spliceBytes]
    rw [listTakeAppend a _ 2, Nat.add_assoc, listDropAppend, i32le_length]
    rw [show (0xFF :: 0x15 :: 0x00 :: 0x00 :: 0x08 :: 0x20 :: b).take 2
        = [0xFF, 0x15] from rfl]
    rw [show (0xFF :: 0x15 :: 0x00 :: 0x00 :: 0x08 :: 0x20 :: b).drop (2 + 4)
        = b from rfl]
    simp [List.append_assoc]
  · intro iatRva a b
    rw [show a ++ ([0xFF, 0x15] ++ (u32le 0x10000000 ++ b))
        = a ++ (0xFF :: 0x15 :: 0x00 :: 0x00 :: 0x00 :: 0x10 :: b) from rfl]
    have hg0 : (a ++ (0xFF :: 0x15 :: 0x00 :: 0x00 :: 0x00 :: 0x10 :: b)).getD a.length 0 = 0xFF :=
      listGetDAppend0 a _
    have hg1 : (a ++ (0xFF :: 0x15 :: 0x00 :: 0x00 :: 0x00 :: 0x10 :: b)).getD (a.length + 1) 0 = 0x15 :=
      listGetDAppend a _ 1
    have hg2 : (a ++ (0xFF :: 0x15 :: 0x00 :: 0x00 :: 0x00 :: 0x10 :: b)).getD (a.length + 2) 0 = 0x00 :=
      listGetDAppend a _ 2
    have hg3 : (a ++ (0xFF :: 0x15 :: 0x00 :: 0x00 :: 0x00 :: 0x10 :: b)).getD (a.length + 3) 0 = 0x00 :=
      listGetDAppend a _ 3
    have hg4 : (a ++ (0xFF :: 0x15 :: 0x00 :: 0x00 :: 0x00 :: 0x10 :: b)).getD (a.length + 4) 0 = 0x00 :=
      listGetDAppend a _ 4
    have hg5 : (a ++ (0xFF :: 0x15 :: 0x00 :: 0x00 :: 0x00 :: 0x10 :: b)).getD (a.length + 5) 0 = 0x10 :=
      listGetDAppend a _ 5
    simp only [pePatchStep, hg0, hg1, hg2, hg3, hg4, hg5]
    norm_num
    simp only [spliceBytes]
    rw [listTakeAppend a _ 2, Nat.add_assoc, listDropAppend, i32le_length]
    rw [show (0xFF :: 0x15 :: 0x00 :: 0x00 :: 0x00 :: 0x10 :: b).take 2
        = [0xFF, 0x15] from rfl]
    rw [show (0xFF :: 0x15 :: 0x00 :: 0x00 :: 0x00 :: 0x10 :: b).drop (2 + 4)
        = b from rfl]
    simp [List.append_assoc]

/-! ## C8: the NVM `__print_int` helper

The NVM virtual machine itself is not part of `src/`; the following
machine is modelled from the spec's opcode table (§4.7): a byte-coded
32-bit stack machine with signed wrapping arithmetic, big-endian 32-bit
immediates, absolute jump targets, dense local slots and a PRINT
syscall.  A standalone run of the helper ends at `RET` (§4.7's "return
from call"), which here halts the machine leaving the operand stack. -/

/-- Modelled from the spec: signed 32-bit wrap-around. -/
def wrap32 (x : Int) : Int :=
  Int.emod (x + 2147483648) 4294967296 - 2147483648

/-- Modelled from the spec: a big-endian signed 32-bit immediate at `pc`. -/
def vmImm32 (code : List Nat) (pc : Nat) : Int :=
  let v : Nat := code.getD pc 0 * 16777216 + code.getD (pc + 1) 0 * 65536
    + code.getD (pc + 2) 0 * 256 + code.getD (pc + 3) 0
  if v < 2147483648 then (v : Int) else (v : Int) - 4294967296

/-- Modelled from the spec: machine state — program counter, operand
stack (head = top), local slots (latest write first) and PRINT output. -/
structure VMSt where
  pc : Nat
  stack : List Int
  slots : List (Nat × Int)
  out : List Int
deriving Repr, DecidableEq

/-- Result of one step: continue, halt (at `RET`), or fail. -/
inductive VMStep where
  | next (s : VMSt)
  | halted (s : VMSt)
  | fail
deriving Repr, DecidableEq

/-- Modelled from the spec: one instruction step of the §4.7 machine
(restricted to the opcodes the `__print_int` helper uses). -/
def vmStep (code : List Nat) (s : VMSt) : VMStep :=
  let op := code.getD s.pc 0
  if op = opPUSH32 then
    .next { s with pc := s.pc + 5,
                   stack := vmImm32 code (s.pc + 1) :: s.stack }
  else if op = opSWAP then
    match s.stack with
    | b :: a :: r => .next { s with pc := s.pc + 1, stack := a :: b :: r }
    | _ => .fail
  else if op = opADD then
    match s.stack with
    | b :: a :: r =>
        .next { s with pc := s.pc + 1, stack := wrap32 (a + b) :: r }
    | _ => .fail
  else if op = opSUB then
    match s.stack with
    | b :: a :: r =>
        .next { s with pc := s.pc + 1, stack := wrap32 (a - b) :: r }
    | _ => .fail
  else if op = opMUL then
    match s.stack with
    | b :: a :: r =>
        .next { s with pc := s.pc + 1, stack := wrap32 (a * b) :: r }
    | _ => .fail
  else if op = opDIV then
    match s.stack with
    | b :: a :: r =>
        if b = 0 then .fail
        else .next { s with pc := s.pc + 1, stack := Int.tdiv a b :: r }
    | _ => .fail
  else if op = opMOD then
    match s.stack with
    | b :: a :: r =>
        if b = 0 then .fail
        else .next { s with pc := s.pc + 1, stack := Int.tmod a b :: r }
    | _ => .fail
  else if op = opEQ then
    match s.stack with
    | b :: a :: r =>
        .next { s with pc := s.pc + 1,
                       stack := (if a = b then (1 : Int) else 0) :: r }
    | _ => .fail
  else if op = opGT then
    match s.stack with
    | b :: a :: r =>
        .next { s with pc := s.pc + 1,
                       stack := (if b < a then (1 : Int) else 0) :: r }
    | _ => .fail
  else if op = opLT then
    match s.stack with
    | b :: a :: r =>
        .next { s with pc := s.pc + 1,
                       stack := (if a < b then (1 : Int) else 0) :: r }
    | _ => .fail
  else if op = opJMP32 then
    .next { s with pc := (vmImm32 code (s.pc + 1)).toNat }
  else if op = opJZ32 then
    match s.stack with
    | t :: r =>
        .next { s with stack := r,
                       pc := if t = 0 then (vmImm32 code (s.pc + 1)).toNat
                             else s.pc + 5 }
    | [] => .fail
  else if op = opJNZ32 then
    match s.stack with
    | t :: r =>
        .next { s with stack := r,
                       pc := if t = 0 then s.pc + 5
                             else (vmImm32 code (s.pc + 1)).toNat }
    | [] => .fail
  else if op = opLOAD then
    .next { s with pc := s.pc + 2,
                   stack := ((s.slots.lookup (code.getD (s.pc + 1) 0)).getD 0)
                     :: s.stack }
  else if op = opSTORE then
    match s.stack with
    | t :: r =>
        .next { s with pc := s.pc + 2, stack := r,
                       slots := (code.getD (s.pc + 1) 0, t) :: s.slots }
    | [] => .fail
  else if op = opSYSCALL then
    if code.getD (s.pc + 1) 0 = sysPRINT then
      match s.stack with
      | t :: r =>
          .next { s with pc := s.pc + 2, stack := r, out := s.out ++ [t] }
      | [] => .fail
    else .fail
  else if op = opRET then .halted s
  else .fail

/-- Modelled from the spec: run up to `fuel` steps. -/
def vmRun (code : List Nat) (fuel : Nat) (s : VMSt) : VMStep :=
  match fuel with
  | 0 => .fail
  | f + 1 =>
      match vmStep code s with
      | .next s' => vmRun code f s'
      | r => r

/-- The label-patched bytecode of `NVMCodeGen::generate_print_int_vga_helper`
emitted from an empty state, as a literal (see `c8Code_eq`). -/
def c8Code : List Nat :=
  [65, 255, 65, 250, 64, 250, 2, 0, 0, 0, 0, 36, 49, 0, 0, 0, 35,
   2, 0, 0, 0, 45, 80, 15, 64, 250, 2, 0, 0, 0, 0, 6, 17, 65, 250,
   64, 250, 2, 0, 0, 0, 0, 33, 49, 0, 0, 0, 58, 2, 0, 0, 0, 48, 80,
   15, 64, 255, 52, 2, 0, 0, 0, 1, 65, 251, 64, 251, 2, 0, 0, 0, 10,
   18, 64, 250, 35, 50, 0, 0, 0, 96, 64, 251, 2, 0, 0, 0, 10, 18, 65,
   251, 48, 0, 0, 0, 65, 64, 251, 2, 0, 0, 0, 0, 35, 49, 0, 0, 0,
   144, 64, 250, 64, 251, 19, 2, 0, 0, 0, 48, 16, 80, 15, 64, 250,
   64, 251, 20, 65, 250, 64, 251, 2, 0, 0, 0, 10, 19, 65, 251, 48,
   0, 0, 0, 96, 64, 255, 52]

set_option maxRecDepth 10000 in
/-- `c8Code` is exactly what the generator emits for the helper. -/
theorem c8Code_eq :
    c8Code = (nvmPatchLabels (nvmGenPrintIntHelper NVMSt.initial)).bytecode := by
  decide

theorem wrap32_eq (x : Int) (h1 : -2147483648 ≤ x) (h2 : x < 2147483648) :
    wrap32 x = x := by
  have h : Int.emod (x + 2147483648) 4294967296 = x + 2147483648 :=
    Int.emod_eq_of_lt (by omega) (by omega)
  simp only [wrap32, h]
  omega

theorem tdiv_ofNat (a b : Nat) :
    Int.tdiv (a : Int) (b : Int) = ((a / b : Nat) : Int) := rfl

theorem tmod_ofNat (a b : Nat) :
    Int.tmod (a : Int) (b : Int) = ((a % b : Nat) : Int) := rfl

section C8Blocks

/-- One machine step folded into `vmRun`: if `vmStep` continues to `s'`,
a run of `f + 1` steps from `s` is a run of `f` steps from `s'`. -/
theorem vmRun_cons (code : List Nat) (f : Nat) (s s' : VMSt)
    (h : vmStep code s = .next s') :
    vmRun code (f + 1) s = vmRun code f s' := by
  show (match vmStep code s with
        | .next s'' => vmRun code f s''
        | r => r) = vmRun code f s'
  rw [h]

/-- A halting step folded into `vmRun`. -/
theorem vmRun_halt (code : List Nat) (f : Nat) (s s' : VMSt)
    (h : vmStep code s = .halted s') :
    vmRun code (f + 1) s = .halted s' := by
  show (match vmStep code s with
        | .next s'' => vmRun code f s''
        | r => r) = VMStep.halted s'
  rw [h]

/-- The 32-bit immediates and jump targets of `c8Code`, evaluated. -/
theorem c8_i7 : vmImm32 c8Code 7 = 0 := rfl
theorem c8_i18 : vmImm32 c8Code 18 = 45 := rfl
theorem c8_i27 : vmImm32 c8Code 27 = 0 := rfl
theorem c8_i38 : vmImm32 c8Code 38 = 0 := rfl
theorem c8_i49 : vmImm32 c8Code 49 = 48 := rfl
theorem c8_i59 : vmImm32 c8Code 59 = 1 := rfl
theorem c8_i68 : vmImm32 c8Code 68 = 10 := rfl
theorem c8_i84 : vmImm32 c8Code 84 = 10 := rfl
theorem c8_i99 : vmImm32 c8Code 99 = 0 := rfl
theorem c8_i115 : vmImm32 c8Code 115 = 48 := rfl
theorem c8_i132 : vmImm32 c8Code 132 = 10 := rfl

theorem c8_t13 : (vmImm32 c8Code 13).toNat = 35 := rfl
theorem c8_t44 : (vmImm32 c8Code 44).toNat = 58 := rfl
theorem c8_t77 : (vmImm32 c8Code 77).toNat = 96 := rfl
theorem c8_t92 : (vmImm32 c8Code 92).toNat = 65 := rfl
theorem c8_t105 : (vmImm32 c8Code 105).toNat = 144 := rfl
theorem c8_t140 : (vmImm32 c8Code 140).toNat = 96 := rfl

/-- Entry block 0–11: save the top of stack to slot 255, the value to
slot 250, and push the sign test. -/
theorem c8_b0 (f : Nat) (n v : Int) (rest : List Int) (S : List (Nat × Int))
    (out : List Int) :
    vmRun c8Code (f + 5) ⟨0, v :: n :: rest, S, out⟩
      = vmRun c8Code f ⟨12, (if n < 0 then (1 : Int) else 0) :: rest,
          (250, n) :: (255, v) :: S, out⟩ := by
  have e1 : vmStep c8Code ⟨0, v :: n :: rest, S, out⟩
      = .next ⟨2, n :: rest, (255, v) :: S, out⟩ := rfl
  have e2 : vmStep c8Code ⟨2, n :: rest, (255, v) :: S, out⟩
      = .next ⟨4, rest, (250, n) :: (255, v) :: S, out⟩ := rfl
  have e3 : vmStep c8Code ⟨4, rest, (250, n) :: (255, v) :: S, out⟩
      = .next ⟨6, n :: rest, (250, n) :: (255, v) :: S, out⟩ := rfl
  have e4 : vmStep c8Code ⟨6, n :: rest, (250, n) :: (255, v) :: S, out⟩
      = .next ⟨11, vmImm32 c8Code 7 :: n :: rest, (250, n) :: (255, v) :: S, out⟩ := rfl
  rw [c8_i7] at e4
  have e5 : vmStep c8Code ⟨11, (0 : Int) :: n :: rest, (250, n) :: (255, v) :: S, out⟩
      = .next ⟨12, (if n < 0 then (1 : Int) else 0) :: rest, (250, n) :: (255, v) :: S, out⟩ := rfl
  exact (vmRun_cons c8Code (f + 4) _ _ e1).trans
    ((vmRun_cons c8Code (f + 3) _ _ e2).trans
    ((vmRun_cons c8Code (f + 2) _ _ e3).trans
    ((vmRun_cons c8Code (f + 1) _ _ e4).trans
    ((vmRun_cons c8Code f _ _ e5)))))

theorem c8_jz12_one (f : Nat) (rest : List Int) (S : List (Nat × Int))
    (out : List Int) :
    vmRun c8Code (f + 1) ⟨12, (1 : Int) :: rest, S, out⟩
      = vmRun c8Code f ⟨17, rest, S, out⟩ := by
  have e1 : vmStep c8Code ⟨12, (1 : Int) :: rest, S, out⟩
      = .next ⟨17, rest, S, out⟩ := rfl
  exact (vmRun_cons c8Code f _ _ e1)

theorem c8_jz12_zero (f : Nat) (rest : List Int) (S : List (Nat × Int))
    (out : List Int) :
    vmRun c8Code (f + 1) ⟨12, (0 : Int) :: rest, S, out⟩
      = vmRun c8Code f ⟨35, rest, S, out⟩ := by
  have e1 : vmStep c8Code ⟨12, (0 : Int) :: rest, S, out⟩
      = .next ⟨if (0 : Int) = 0 then (vmImm32 c8Code 13).toNat else 12 + 5,
          rest, S, out⟩ := rfl
  rw [if_pos (rfl : (0 : Int) = 0)] at e1
  rw [c8_t13] at e1
  exact vmRun_cons c8Code f _ _ e1

/-- Negative block 17–34: print `'-'` and negate slot 250. -/
theorem c8_b17 (f : Nat) (n : Int) (rest : List Int) (S : List (Nat × Int))
    (out : List Int) :
    vmRun c8Code (f + 7) ⟨17, rest, (250, n) :: S, out⟩
      = vmRun c8Code f ⟨35, rest, (250, wrap32 (0 - n)) :: (250, n) :: S,
          out ++ [45]⟩ := by
  have e1 : vmStep c8Code ⟨17, rest, (250, n) :: S, out⟩
      = .next ⟨22, vmImm32 c8Code 18 :: rest, (250, n) :: S, out⟩ := rfl
  rw [c8_i18] at e1
  have e2 : vmStep c8Code ⟨22, (45 : Int) :: rest, (250, n) :: S, out⟩
      = .next ⟨24, rest, (250, n) :: S, out ++ [45]⟩ := rfl
  have e3 : vmStep c8Code ⟨24, rest, (250, n) :: S, out ++ [45]⟩
      = .next ⟨26, n :: rest, (250, n) :: S, out ++ [45]⟩ := rfl
  have e4 : vmStep c8Code ⟨26, n :: rest, (250, n) :: S, out ++ [45]⟩
      = .next ⟨31, vmImm32 c8Code 27 :: n :: rest, (250, n) :: S, out ++ [45]⟩ := rfl
  rw [c8_i27] at e4
  have e5 : vmStep c8Code ⟨31, (0 : Int) :: n :: rest, (250, n) :: S, out ++ [45]⟩
      = .next ⟨32, n :: (0 : Int) :: rest, (250, n) :: S, out ++ [45]⟩ := rfl
  have e6 : vmStep c8Code ⟨32, n :: (0 : Int) :: rest, (250, n) :: S, out ++ [45]⟩
      = .next ⟨33, wrap32 (0 - n) :: rest, (250, n) :: S, out ++ [45]⟩ := rfl
  have e7 : vmStep c8Code ⟨33, wrap32 (0 - n) :: rest, (250, n) :: S, out ++ [45]⟩
      = .next ⟨35, rest, (250, wrap32 (0 - n)) :: (250, n) :: S, out ++ [45]⟩ := rfl
  exact (vmRun_cons c8Code (f + 6) _ _ e1).trans
    ((vmRun_cons c8Code (f + 5) _ _ e2).trans
    ((vmRun_cons c8Code (f + 4) _ _ e3).trans
    ((vmRun_cons c8Code (f + 3) _ _ e4).trans
    ((vmRun_cons c8Code (f + 2) _ _ e5).trans
    ((vmRun_cons c8Code (f + 1) _ _ e6).trans
    ((vmRun_cons c8Code f _ _ e7)))))))

/-- Zero-test block 35–42. -/
theorem c8_b35 (f : Nat) (m : Int) (rest : List Int) (S : List (Nat × Int))
    (out : List Int) :
    vmRun c8Code (f + 3) ⟨35, rest, (250, m) :: S, out⟩
      = vmRun c8Code f ⟨43, (if m = 0 then (1 : Int) else 0) :: rest,
          (250, m) :: S, out⟩ := by
  have e1 : vmStep c8Code ⟨35, rest, (250, m) :: S, out⟩
      = .next ⟨37, m :: rest, (250, m) :: S, out⟩ := rfl
  have e2 : vmStep c8Code ⟨37, m :: rest, (250, m) :: S, out⟩
      = .next ⟨42, vmImm32 c8Code 38 :: m :: rest, (250, m) :: S, out⟩ := rfl
  rw [c8_i38] at e2
  have e3 : vmStep c8Code ⟨42, (0 : Int) :: m :: rest, (250, m) :: S, out⟩
      = .next ⟨43, (if m = 0 then (1 : Int) else 0) :: rest, (250, m) :: S, out⟩ := rfl
  exact (vmRun_cons c8Code (f + 2) _ _ e1).trans
    ((vmRun_cons c8Code (f + 1) _ _ e2).trans
    ((vmRun_cons c8Code f _ _ e3)))

theorem c8_jz43_one (f : Nat) (rest : List Int) (S : List (Nat × Int))
    (out : List Int) :
    vmRun c8Code (f + 1) ⟨43, (1 : Int) :: rest, S, out⟩
      = vmRun c8Code f ⟨48, rest, S, out⟩ := by
  have e1 : vmStep c8Code ⟨43, (1 : Int) :: rest, S, out⟩
      = .next ⟨48, rest, S, out⟩ := rfl
  exact (vmRun_cons c8Code f _ _ e1)

theorem c8_jz43_zero (f : Nat) (rest : List Int) (S : List (Nat × Int))
    (out : List Int) :
    vmRun c8Code (f + 1) ⟨43, (0 : Int) :: rest, S, out⟩
      = vmRun c8Code f ⟨58, rest, S, out⟩ := by
  have e1 : vmStep c8Code ⟨43, (0 : Int) :: rest, S, out⟩
      = .next ⟨if (0 : Int) = 0 then (vmImm32 c8Code 44).toNat else 43 + 5,
          rest, S, out⟩ := rfl
  rw [if_pos (rfl : (0 : Int) = 0)] at e1
  rw [c8_t44] at e1
  exact vmRun_cons c8Code f _ _ e1

/-- Zero block 48–57: print `'0'`, restore slot 255, return. -/
theorem c8_b48 (f : Nat) (rest : List Int) (S : List (Nat × Int))
    (out : List Int) :
    vmRun c8Code (f + 4) ⟨48, rest, S, out⟩
      = .halted ⟨57, ((S.lookup 255).getD 0) :: rest, S, out ++ [48]⟩ := by
  have e1 : vmStep c8Code ⟨48, rest, S, out⟩
      = .next ⟨53, vmImm32 c8Code 49 :: rest, S, out⟩ := rfl
  rw [c8_i49] at e1
  have e2 : vmStep c8Code ⟨53, (48 : Int) :: rest, S, out⟩
      = .next ⟨55, rest, S, out ++ [48]⟩ := rfl
  have e3 : vmStep c8Code ⟨55, rest, S, out ++ [48]⟩
      = .next ⟨57, ((S.lookup 255).getD 0) :: rest, S, out ++ [48]⟩ := rfl
  have e4 : vmStep c8Code ⟨57, ((S.lookup 255).getD 0) :: rest, S, out ++ [48]⟩
      = .halted ⟨57, ((S.lookup 255).getD 0) :: rest, S, out ++ [48]⟩ := rfl
  exact (vmRun_cons c8Code (f + 3) _ _ e1).trans
    ((vmRun_cons c8Code (f + 2) _ _ e2).trans
    ((vmRun_cons c8Code (f + 1) _ _ e3).trans
    ((vmRun_halt c8Code f _ _ e4))))

/-- Block 58–64: initialise the power (slot 251) to 1. -/
theorem c8_b58 (f : Nat) (rest : List Int) (S : List (Nat × Int))
    (out : List Int) :
    vmRun c8Code (f + 2) ⟨58, rest, S, out⟩
      = vmRun c8Code f ⟨65, rest, (251, (1 : Int)) :: S, out⟩ := by
  have e1 : vmStep c8Code ⟨58, rest, S, out⟩
      = .next ⟨63, vmImm32 c8Code 59 :: rest, S, out⟩ := rfl
  rw [c8_i59] at e1
  have e2 : vmStep c8Code ⟨63, (1 : Int) :: rest, S, out⟩
      = .next ⟨65, rest, (251, (1 : Int)) :: S, out⟩ := rfl
  exact (vmRun_cons c8Code (f + 1) _ _ e1).trans
    ((vmRun_cons c8Code f _ _ e2))

/-- `find_power` head 65–75: push whether `power * 10 > value`. -/
theorem c8_b65 (f : Nat) (rest : List Int) (S : List (Nat × Int))
    (out : List Int) :
    vmRun c8Code (f + 5) ⟨65, rest, S, out⟩
      = vmRun c8Code f ⟨76,
          (if ((S.lookup 250).getD 0) < wrap32 (((S.lookup 251).getD 0) * 10)
           then (1 : Int) else 0) :: rest, S, out⟩ := by
  have e1 : vmStep c8Code ⟨65, rest, S, out⟩
      = .next ⟨67, ((S.lookup 251).getD 0) :: rest, S, out⟩ := rfl
  have e2 : vmStep c8Code ⟨67, ((S.lookup 251).getD 0) :: rest, S, out⟩
      = .next ⟨72, vmImm32 c8Code 68 :: ((S.lookup 251).getD 0) :: rest, S, out⟩ := rfl
  rw [c8_i68] at e2
  have e3 : vmStep c8Code ⟨72, (10 : Int) :: ((S.lookup 251).getD 0) :: rest, S, out⟩
      = .next ⟨73, wrap32 (((S.lookup 251).getD 0) * 10) :: rest, S, out⟩ := rfl
  have e4 : vmStep c8Code ⟨73, wrap32 (((S.lookup 251).getD 0) * 10) :: rest, S, out⟩
      = .next ⟨75, ((S.lookup 250).getD 0) :: wrap32 (((S.lookup 251).getD 0) * 10) :: rest, S, out⟩ := rfl
  have e5 : vmStep c8Code ⟨75, ((S.lookup 250).getD 0) :: wrap32 (((S.lookup 251).getD 0) * 10) :: rest, S, out⟩
      = .next ⟨76, (if ((S.lookup 250).getD 0) < wrap32 (((S.lookup 251).getD 0) * 10) then (1 : Int) else 0) :: rest, S, out⟩ := rfl
  exact (vmRun_cons c8Code (f + 4) _ _ e1).trans
    ((vmRun_cons c8Code (f + 3) _ _ e2).trans
    ((vmRun_cons c8Code (f + 2) _ _ e3).trans
    ((vmRun_cons c8Code (f + 1) _ _ e4).trans
    ((vmRun_cons c8Code f _ _ e5)))))

theorem c8_jnz76_one (f : Nat) (rest : List Int) (S : List (Nat × Int))
    (out : List Int) :
    vmRun c8Code (f + 1) ⟨76, (1 : Int) :: rest, S, out⟩
      = vmRun c8Code f ⟨96, rest, S, out⟩ := by
  have e1 : vmStep c8Code ⟨76, (1 : Int) :: rest, S, out⟩
      = .next ⟨if (1 : Int) = 0 then 76 + 5 else (vmImm32 c8Code 77).toNat,
          rest, S, out⟩ := rfl
  rw [if_neg (by decide : ¬ ((1 : Int) = 0))] at e1
  rw [c8_t77] at e1
  exact vmRun_cons c8Code f _ _ e1

theorem c8_jnz76_zero (f : Nat) (rest : List Int) (S : List (Nat × Int))
    (out : List Int) :
    vmRun c8Code (f + 1) ⟨76, (0 : Int) :: rest, S, out⟩
      = vmRun c8Code f ⟨81, rest, S, out⟩ := by
  have e1 : vmStep c8Code ⟨76, (0 : Int) :: rest, S, out⟩
      = .next ⟨81, rest, S, out⟩ := rfl
  exact (vmRun_cons c8Code f _ _ e1)

/-- `find_power` body 81–95: multiply the power by ten and loop. -/
theorem c8_b81 (f : Nat) (rest : List Int) (S : List (Nat × Int))
    (out : List Int) :
    vmRun c8Code (f + 5) ⟨81, rest, S, out⟩
      = vmRun c8Code f ⟨65, rest,
          (251, wrap32 (((S.lookup 251).getD 0) * 10)) :: S, out⟩ := by
  have e1 : vmStep c8Code ⟨81, rest, S, out⟩
      = .next ⟨83, ((S.lookup 251).getD 0) :: rest, S, out⟩ := rfl
  have e2 : vmStep c8Code ⟨83, ((S.lookup 251).getD 0) :: rest, S, out⟩
      = .next ⟨88, vmImm32 c8Code 84 :: ((S.lookup 251).getD 0) :: rest, S, out⟩ := rfl
  rw [c8_i84] at e2
  have e3 : vmStep c8Code ⟨88, (10 : Int) :: ((S.lookup 251).getD 0) :: rest, S, out⟩
      = .next ⟨89, wrap32 (((S.lookup 251).getD 0) * 10) :: rest, S, out⟩ := rfl
  have e4 : vmStep c8Code ⟨89, wrap32 (((S.lookup 251).getD 0) * 10) :: rest, S, out⟩
      = .next ⟨91, rest, (251, wrap32 (((S.lookup 251).getD 0) * 10)) :: S, out⟩ := rfl
  have e5 : vmStep c8Code ⟨91, rest, (251, wrap32 (((S.lookup 251).getD 0) * 10)) :: S, out⟩
      = .next ⟨(vmImm32 c8Code 92).toNat, rest, (251, wrap32 (((S.lookup 251).getD 0) * 10)) :: S, out⟩ := rfl
  rw [c8_t92] at e5
  exact (vmRun_cons c8Code (f + 4) _ _ e1).trans
    ((vmRun_cons c8Code (f + 3) _ _ e2).trans
    ((vmRun_cons c8Code (f + 2) _ _ e3).trans
    ((vmRun_cons c8Code (f + 1) _ _ e4).trans
    ((vmRun_cons c8Code f _ _ e5)))))

/-- `print_digit_loop` head 96–103: push whether `power > 0`. -/
theorem c8_b96 (f : Nat) (rest : List Int) (S : List (Nat × Int))
    (out : List Int) :
    vmRun c8Code (f + 3) ⟨96, rest, S, out⟩
      = vmRun c8Code f ⟨104,
          (if (0 : Int) < ((S.lookup 251).getD 0) then (1 : Int) else 0)
            :: rest, S, out⟩ := by
  have e1 : vmStep c8Code ⟨96, rest, S, out⟩
      = .next ⟨98, ((S.lookup 251).getD 0) :: rest, S, out⟩ := rfl
  have e2 : vmStep c8Code ⟨98, ((S.lookup 251).getD 0) :: rest, S, out⟩
      = .next ⟨103, vmImm32 c8Code 99 :: ((S.lookup 251).getD 0) :: rest, S, out⟩ := rfl
  rw [c8_i99] at e2
  have e3 : vmStep c8Code ⟨103, (0 : Int) :: ((S.lookup 251).getD 0) :: rest, S, out⟩
      = .next ⟨104, (if (0 : Int) < ((S.lookup 251).getD 0) then (1 : Int) else 0) :: rest, S, out⟩ := rfl
  exact (vmRun_cons c8Code (f + 2) _ _ e1).trans
    ((vmRun_cons c8Code (f + 1) _ _ e2).trans
    ((vmRun_cons c8Code f _ _ e3)))

theorem c8_jz104_one (f : Nat) (rest : List Int) (S : List (Nat × Int))
    (out : List Int) :
    vmRun c8Code (f + 1) ⟨104, (1 : Int) :: rest, S, out⟩
      = vmRun c8Code f ⟨109, rest, S, out⟩ := by
  have e1 : vmStep c8Code ⟨104, (1 : Int) :: rest, S, out⟩
      = .next ⟨109, rest, S, out⟩ := rfl
  exact (vmRun_cons c8Code f _ _ e1)

theorem c8_jz104_zero (f : Nat) (rest : List Int) (S : List (Nat × Int))
    (out : List Int) :
    vmRun c8Code (f + 1) ⟨104, (0 : Int) :: rest, S, out⟩
      = vmRun c8Code f ⟨144, rest, S, out⟩ := by
  have e1 : vmStep c8Code ⟨104, (0 : Int) :: rest, S, out⟩
      = .next ⟨if (0 : Int) = 0 then (vmImm32 c8Code 105).toNat else 104 + 5,
          rest, S, out⟩ := rfl
  rw [if_pos (rfl : (0 : Int) = 0)] at e1
  rw [c8_t105] at e1
  exact vmRun_cons c8Code f _ _ e1

theorem c8_b109 (f : Nat) (rest : List Int) (S : List (Nat × Int))
    (out : List Int) :
    vmRun c8Code (f + 2) ⟨109, rest, S, out⟩
      = vmRun c8Code f ⟨113, ((S.lookup 251).getD 0)
          :: ((S.lookup 250).getD 0) :: rest, S, out⟩ := by
  have e1 : vmStep c8Code ⟨109, rest, S, out⟩
      = .next ⟨111, ((S.lookup 250).getD 0) :: rest, S, out⟩ := rfl
  have e2 : vmStep c8Code ⟨111, ((S.lookup 250).getD 0) :: rest, S, out⟩
      = .next ⟨113, ((S.lookup 251).getD 0) :: ((S.lookup 250).getD 0) :: rest, S, out⟩ := rfl
  exact (vmRun_cons c8Code (f + 1) _ _ e1).trans
    ((vmRun_cons c8Code f _ _ e2))

theorem c8_div113 (f : Nat) (a b : Int) (hb : b ≠ 0) (rest : List Int)
    (S : List (Nat × Int)) (out : List Int) :
    vmRun c8Code (f + 1) ⟨113, b :: a :: rest, S, out⟩
      = vmRun c8Code f ⟨114, Int.tdiv a b :: rest, S, out⟩ := by
  show (match vmStep c8Code ⟨113, b :: a :: rest, S, out⟩ with
        | .next s' => vmRun c8Code f s'
        | r => r) = vmRun c8Code f ⟨114, Int.tdiv a b :: rest, S, out⟩
  rw [show vmStep c8Code ⟨113, b :: a :: rest, S, out⟩
      = if b = 0 then .fail
        else .next ⟨114, Int.tdiv a b :: rest, S, out⟩ from rfl]
  rw [if_neg hb]

/-- Digit-print block 114–121: print the digit plus `'0'`. -/
theorem c8_b114 (f : Nat) (d : Int) (rest : List Int) (S : List (Nat × Int))
    (out : List Int) :
    vmRun c8Code (f + 3) ⟨114, d :: rest, S, out⟩
      = vmRun c8Code f ⟨122, rest, S, out ++ [wrap32 (d + 48)]⟩ := by
  have e1 : vmStep c8Code ⟨114, d :: rest, S, out⟩
      = .next ⟨119, vmImm32 c8Code 115 :: d :: rest, S, out⟩ := rfl
  rw [c8_i115] at e1
  have e2 : vmStep c8Code ⟨119, (48 : Int) :: d :: rest, S, out⟩
      = .next ⟨120, wrap32 (d + 48) :: rest, S, out⟩ := rfl
  have e3 : vmStep c8Code ⟨120, wrap32 (d + 48) :: rest, S, out⟩
      = .next ⟨122, rest, S, out ++ [wrap32 (d + 48)]⟩ := rfl
  exact (vmRun_cons c8Code (f + 2) _ _ e1).trans
    ((vmRun_cons c8Code (f + 1) _ _ e2).trans
    ((vmRun_cons c8Code f _ _ e3)))

theorem c8_b122 (f : Nat) (rest : List Int) (S : List (Nat × Int))
    (out : List Int) :
    vmRun c8Code (f + 2) ⟨122, rest, S, out⟩
      = vmRun c8Code f ⟨126, ((S.lookup 251).getD 0)
          :: ((S.lookup 250).getD 0) :: rest, S, out⟩ := by
  have e1 : vmStep c8Code ⟨122, rest, S, out⟩
      = .next ⟨124, ((S.lookup 250).getD 0) :: rest, S, out⟩ := rfl
  have e2 : vmStep c8Code ⟨124, ((S.lookup 250).getD 0) :: rest, S, out⟩
      = .next ⟨126, ((S.lookup 251).getD 0) :: ((S.lookup 250).getD 0) :: rest, S, out⟩ := rfl
  exact (vmRun_cons c8Code (f + 1) _ _ e1).trans
    ((vmRun_cons c8Code f _ _ e2))

theorem c8_mod126 (f : Nat) (a b : Int) (hb : b ≠ 0) (rest : List Int)
    (S : List (Nat × Int)) (out : List Int) :
    vmRun c8Code (f + 1) ⟨126, b :: a :: rest, S, out⟩
      = vmRun c8Code f ⟨127, Int.tmod a b :: rest, S, out⟩ := by
  show (match vmStep c8Code ⟨126, b :: a :: rest, S, out⟩ with
        | .next s' => vmRun c8Code f s'
        | r => r) = vmRun c8Code f ⟨127, Int.tmod a b :: rest, S, out⟩
  rw [show vmStep c8Code ⟨126, b :: a :: rest, S, out⟩
      = if b = 0 then .fail
        else .next ⟨127, Int.tmod a b :: rest, S, out⟩ from rfl]
  rw [if_neg hb]

theorem c8_b127 (f : Nat) (t : Int) (rest : List Int) (S : List (Nat × Int))
    (out : List Int) :
    vmRun c8Code (f + 1) ⟨127, t :: rest, S, out⟩
      = vmRun c8Code f ⟨129, rest, (250, t) :: S, out⟩ := by
  have e1 : vmStep c8Code ⟨127, t :: rest, S, out⟩
      = .next ⟨129, rest, (250, t) :: S, out⟩ := rfl
  exact (vmRun_cons c8Code f _ _ e1)

/-- Block 129–143: divide the power by ten and loop. -/
theorem c8_b129 (f : Nat) (rest : List Int) (S : List (Nat × Int))
    (out : List Int) :
    vmRun c8Code (f + 5) ⟨129, rest, S, out⟩
      = vmRun c8Code f ⟨96, rest,
          (251, Int.tdiv ((S.lookup 251).getD 0) 10) :: S, out⟩ := by
  have e1 : vmStep c8Code ⟨129, rest, S, out⟩
      = .next ⟨131, ((S.lookup 251).getD 0) :: rest, S, out⟩ := rfl
  have e2 : vmStep c8Code ⟨131, ((S.lookup 251).getD 0) :: rest, S, out⟩
      = .next ⟨136, vmImm32 c8Code 132 :: ((S.lookup 251).getD 0) :: rest, S, out⟩ := rfl
  rw [c8_i132] at e2
  have e3 : vmStep c8Code ⟨136, (10 : Int) :: ((S.lookup 251).getD 0) :: rest, S, out⟩
      = .next ⟨137, Int.tdiv ((S.lookup 251).getD 0) 10 :: rest, S, out⟩ := rfl
  have e4 : vmStep c8Code ⟨137, Int.tdiv ((S.lookup 251).getD 0) 10 :: rest, S, out⟩
      = .next ⟨139, rest, (251, Int.tdiv ((S.lookup 251).getD 0) 10) :: S, out⟩ := rfl
  have e5 : vmStep c8Code ⟨139, rest, (251, Int.tdiv ((S.lookup 251).getD 0) 10) :: S, out⟩
      = .next ⟨(vmImm32 c8Code 140).toNat, rest, (251, Int.tdiv ((S.lookup 251).getD 0) 10) :: S, out⟩ := rfl
  rw [c8_t140] at e5
  exact (vmRun_cons c8Code (f + 4) _ _ e1).trans
    ((vmRun_cons c8Code (f + 3) _ _ e2).trans
    ((vmRun_cons c8Code (f + 2) _ _ e3).trans
    ((vmRun_cons c8Code (f + 1) _ _ e4).trans
    ((vmRun_cons c8Code f _ _ e5)))))

/-- Exit block 144–146: restore slot 255 and return. -/
theorem c8_b144 (f : Nat) (rest : List Int) (S : List (Nat × Int))
    (out : List Int) :
    vmRun c8Code (f + 2) ⟨144, rest, S, out⟩
      = .halted ⟨146, ((S.lookup 255).getD 0) :: rest, S, out⟩ := by
  have e1 : vmStep c8Code ⟨144, rest, S, out⟩
      = .next ⟨146, ((S.lookup 255).getD 0) :: rest, S, out⟩ := rfl
  have e2 : vmStep c8Code ⟨146, ((S.lookup 255).getD 0) :: rest, S, out⟩
      = .halted ⟨146, ((S.lookup 255).getD 0) :: rest, S, out⟩ := rfl
  exact (vmRun_cons c8Code (f + 1) _ _ e1).trans
    ((vmRun_halt c8Code f _ _ e2))

end C8Blocks

theorem c8_wrap_pow (j : Nat) (hj : j ≤ 8) :
    wrap32 ((10 : Int) ^ j * 10) = 10 ^ (j + 1) := by
  rw [← pow_succ]
  have h1 : (10 : Int) ^ (j + 1) ≤ 10 ^ 9 :=
    pow_le_pow_right (by norm_num) (by omega)
  have h2 : (0 : Int) < 10 ^ (j + 1) := by positivity
  rw [wrap32_eq] <;> omega

theorem c8_wrap_pow10 : wrap32 ((10 : Int) ^ 9 * 10) = 1410065408 := by decide

theorem c8_pow_le_nine {j : Nat} {m : Int} (hj : (10 : Int) ^ j ≤ m)
    (hm : m < 1410065408) : j ≤ 9 := by
  by_contra h
  have h10 : (10 : Int) ^ 10 ≤ 10 ^ j :=
    pow_le_pow_right (by norm_num) (by omega)
  have : (10 : Int) ^ 10 = 10000000000 := by norm_num
  omega

/-- Exiting the `find_power` loop: when `value < 10 * power`, the head
test succeeds and control reaches the digit loop with the state intact. -/
theorem c8_fp_exit (j : Nat) (m : Int) (S : List (Nat × Int))
    (rest out : List Int)
    (h250 : (S.lookup 250).getD 0 = m)
    (h251 : (S.lookup 251).getD 0 = 10 ^ j)
    (hj : (10 : Int) ^ j ≤ m)
    (hm1 : m < 10 ^ (j + 1))
    (hm : m < 1410065408) :
    ∀ f, vmRun c8Code (f + 6) ⟨65, rest, S, out⟩
      = vmRun c8Code f ⟨96, rest, S, out⟩ := by
  intro f
  have h1 := c8_b65 (f + 1) rest S out
  rw [h250, h251] at h1
  have hcond : m < wrap32 ((10 : Int) ^ j * 10) := by
    have hj9 : j ≤ 9 := c8_pow_le_nine hj hm
    by_cases hc : j ≤ 8
    · rw [c8_wrap_pow j hc]
      exact hm1
    · have : j = 9 := by omega
      subst this
      rw [c8_wrap_pow10]
      exact hm
  rw [if_pos hcond] at h1
  exact h1.trans (c8_jnz76_one f rest S out)

/-- The `find_power` loop computes the greatest power of ten not
exceeding the (positive, below 1410065408) value in slot 250. -/
theorem c8_fp : ∀ (k j : Nat) (m : Int) (S : List (Nat × Int))
    (rest out : List Int),
    (S.lookup 250).getD 0 = m →
    (S.lookup 251).getD 0 = 10 ^ j →
    (10 : Int) ^ j ≤ m → m < 10 ^ (j + k + 1) → m < 1410065408 →
    ∃ (K : Nat) (S' : List (Nat × Int)),
      (∀ f, vmRun c8Code (f + K) ⟨65, rest, S, out⟩
        = vmRun c8Code f ⟨96, rest, S', out⟩) ∧
      S'.lookup 250 = S.lookup 250 ∧
      S'.lookup 255 = S.lookup 255 ∧
      ∃ j', (S'.lookup 251).getD 0 = 10 ^ j' ∧
        (10 : Int) ^ j' ≤ m ∧ m < 10 ^ (j' + 1) := by
  intro k
  induction k with
  | zero =>
      intro j m S rest out h250 h251 hj hk hm
      exact ⟨6, S, c8_fp_exit j m S rest out h250 h251 hj (by simpa using hk) hm,
        rfl, rfl, j, h251, hj, by simpa using hk⟩
  | succ k ih =>
      intro j m S rest out h250 h251 hj hk hm
      by_cases hm1 : m < 10 ^ (j + 1)
      · exact ⟨6, S, c8_fp_exit j m S rest out h250 h251 hj hm1 hm,
          rfl, rfl, j, h251, hj, hm1⟩
      · push_neg at hm1
        have hj1 : j + 1 ≤ 9 := c8_pow_le_nine hm1 hm
        have hw : wrap32 ((10 : Int) ^ j * 10) = 10 ^ (j + 1) :=
          c8_wrap_pow j (by omega)
        have hk' : m < 10 ^ ((j + 1) + k + 1) := by
          have : (j + 1) + k + 1 = j + (k + 1) + 1 := by omega
          rw [this]
          exact hk
        obtain ⟨Kih, S', hrun, hp250, hp255, j', hj', hlo, hhi⟩ :=
          ih (j + 1) m ((251, (10 : Int) ^ (j + 1)) :: S) rest out
            (by simpa using h250) (by simp) hm1 hk' hm
        refine ⟨Kih + 11, S', ?_, ?_, ?_, j', hj', hlo, hhi⟩
        · intro f
          have h1 := c8_b65 (f + Kih + 6) rest S out
          rw [h250, h251, hw] at h1
          rw [if_neg (by omega)] at h1
          have h2 := c8_jnz76_zero (f + Kih + 5) rest S out
          have h3 := c8_b81 (f + Kih) rest S out
          rw [h251, hw] at h3
          exact h1.trans (h2.trans (h3.trans (hrun f)))
        · simpa using hp250
        · simpa using hp255

/-- Big-endian fixed-width decimal digits: `natDigitsBE (e+1) M` is the
`e+1` digits of `M < 10^(e+1)`, most significant first. -/
def natDigitsBE : Nat → Nat → List Nat
  | 0, _ => []
  | e + 1, M => (M / 10 ^ e) :: natDigitsBE e (M % 10 ^ e)

theorem c8_lookup250_skip (x : Int) (S : List (Nat × Int)) :
    ((251, x) :: S).lookup 250 = S.lookup 250 := rfl

theorem c8_lookup251_skip (x : Int) (S : List (Nat × Int)) :
    ((250, x) :: S).lookup 251 = S.lookup 251 := rfl

theorem c8_lookup255_skip250 (x : Int) (S : List (Nat × Int)) :
    ((250, x) :: S).lookup 255 = S.lookup 255 := rfl

theorem c8_lookup255_skip251 (x : Int) (S : List (Nat × Int)) :
    ((251, x) :: S).lookup 255 = S.lookup 255 := rfl

/-- The digit loop prints the `e+1` big-endian digits of the value in
slot 250 (each plus 48) and reaches the exit block, preserving
slot 255. -/
theorem c8_pl : ∀ (e : Nat) (M : Nat) (S : List (Nat × Int))
    (rest out : List Int),
    (S.lookup 250).getD 0 = (M : Int) →
    (S.lookup 251).getD 0 = (10 : Int) ^ e →
    M < 10 ^ (e + 1) →
    ∃ (K : Nat) (S' : List (Nat × Int)),
      (∀ f, vmRun c8Code (f + K) ⟨96, rest, S, out⟩
        = vmRun c8Code f ⟨144, rest, S',
            out ++ (natDigitsBE (e + 1) M).map (fun d => (d : Int) + 48)⟩) ∧
      S'.lookup 255 = S.lookup 255 := by
  intro e
  induction e with
  | zero =>
      intro M S rest out h250 h251 hM
      norm_num at hM
      refine ⟨23, (251, (0 : Int)) ::
        (250, Int.tmod (M : Int) ((10 : Int) ^ 0)) :: S, ?_, ?_⟩
      · intro f
        have h1 := c8_b96 (f + 20) rest S out
        rw [h251, if_pos (by positivity)] at h1
        have h2 := c8_jz104_one (f + 19) rest S out
        have h3 := c8_b109 (f + 17) rest S out
        rw [h250, h251] at h3
        have h4 := c8_div113 (f + 16) (M : Int) ((10 : Int) ^ 0)
          (by positivity) rest S out
        have hd : Int.tdiv (M : Int) ((10 : Int) ^ 0) = (M : Int) := by
          rw [show ((10 : Int) ^ 0) = ((1 : Nat) : Int) from by norm_num,
              tdiv_ofNat, Nat.div_one]
        rw [hd] at h4
        have h5 := c8_b114 (f + 13) (M : Int) rest S out
        rw [show wrap32 ((M : Int) + 48) = (M : Int) + 48 from
          wrap32_eq _ (by omega) (by omega)] at h5
        have h6 := c8_b122 (f + 11) rest S (out ++ [(M : Int) + 48])
        rw [h250, h251] at h6
        have h7 := c8_mod126 (f + 10) (M : Int) ((10 : Int) ^ 0)
          (by positivity) rest S (out ++ [(M : Int) + 48])
        have h8 := c8_b127 (f + 9) (Int.tmod (M : Int) ((10 : Int) ^ 0))
          rest S (out ++ [(M : Int) + 48])
        have h9 := c8_b129 (f + 4) rest
          ((250, Int.tmod (M : Int) ((10 : Int) ^ 0)) :: S)
          (out ++ [(M : Int) + 48])
        rw [c8_lookup251_skip, h251,
            show Int.tdiv ((10 : Int) ^ 0) 10 = 0 from by decide] at h9
        have h10 := c8_b96 (f + 1) rest ((251, (0 : Int)) ::
          (250, Int.tmod (M : Int) ((10 : Int) ^ 0)) :: S)
          (out ++ [(M : Int) + 48])
        rw [show ((((251, (0 : Int)) ::
            (250, Int.tmod (M : Int) ((10 : Int) ^ 0)) :: S).lookup 251).getD 0)
          = (0 : Int) from rfl] at h10
        rw [if_neg (lt_irrefl 0)] at h10
        have h11 := c8_jz104_zero f rest ((251, (0 : Int)) ::
          (250, Int.tmod (M : Int) ((10 : Int) ^ 0)) :: S)
          (out ++ [(M : Int) + 48])
        have hout : out ++ [(M : Int) + 48]
            = out ++ (natDigitsBE (0 + 1) M).map (fun d => (d : Int) + 48) := by
          simp [natDigitsBE]
        rw [hout.symm]
        have c2 := h1.trans h2
        have c3 := c2.trans h3
        have c4 := c3.trans h4
        have c5 := c4.trans h5
        have c6 := c5.trans h6
        have c7 := c6.trans h7
        have c8 := c7.trans h8
        have c9 := c8.trans h9
        have c10 := c9.trans h10
        exact c10.trans h11
      · rfl
  | succ e ih =>
      intro M S rest out h250 h251 hM
      have hp : (0 : Int) < (10 : Int) ^ (e + 1) := by positivity
      have hdig : M / 10 ^ (e + 1) < 10 := by
        apply Nat.div_lt_of_lt_mul
        rw [← pow_succ]
        exact hM
      have hcast : ((10 : Int) ^ (e + 1)) = ((10 ^ (e + 1) : Nat) : Int) := by
        push_cast; ring
      have hd : Int.tdiv (M : Int) ((10 : Int) ^ (e + 1))
          = ((M / 10 ^ (e + 1) : Nat) : Int) := by
        rw [hcast, tdiv_ofNat]
      have hm' : Int.tmod (M : Int) ((10 : Int) ^ (e + 1))
          = ((M % 10 ^ (e + 1) : Nat) : Int) := by
        rw [hcast, tmod_ofNat]
      have hq : Int.tdiv ((10 : Int) ^ (e + 1)) 10 = (10 : Int) ^ e := by
        rw [pow_succ]
        exact Int.mul_tdiv_cancel _ (by norm_num)
      obtain ⟨Kih, S', hrun, hp255⟩ := ih (M % 10 ^ (e + 1))
        ((251, (10 : Int) ^ e) :: (250, ((M % 10 ^ (e + 1) : Nat) : Int)) :: S)
        rest (out ++ [((M / 10 ^ (e + 1) : Nat) : Int) + 48])
        (by rw [c8_lookup250_skip]; rfl) (by rfl)
        (Nat.mod_lt _ (by positivity))
      refine ⟨Kih + 19, S', ?_, ?_⟩
      · intro f
        have h1 := c8_b96 (f + Kih + 16) rest S out
        rw [h251, if_pos hp] at h1
        have h2 := c8_jz104_one (f + Kih + 15) rest S out
        have h3 := c8_b109 (f + Kih + 13) rest S out
        rw [h250, h251] at h3
        have h4 := c8_div113 (f + Kih + 12) (M : Int) ((10 : Int) ^ (e + 1))
          (ne_of_gt hp) rest S out
        rw [hd] at h4
        have h5 := c8_b114 (f + Kih + 9) (((M / 10 ^ (e + 1) : Nat) : Int))
          rest S out
        have hq10 : ((M / 10 ^ (e + 1) : Nat) : Int) < 10 := by
          exact_mod_cast hdig
        have hq0 : (0 : Int) ≤ ((M / 10 ^ (e + 1) : Nat) : Int) :=
          Int.natCast_nonneg _
        rw [show wrap32 (((M / 10 ^ (e + 1) : Nat) : Int) + 48)
            = ((M / 10 ^ (e + 1) : Nat) : Int) + 48 from
          wrap32_eq _ (by omega) (by omega)] at h5
        have h6 := c8_b122 (f + Kih + 7) rest S
          (out ++ [((M / 10 ^ (e + 1) : Nat) : Int) + 48])
        rw [h250, h251] at h6
        have h7 := c8_mod126 (f + Kih + 6) (M : Int) ((10 : Int) ^ (e + 1))
          (ne_of_gt hp) rest S
          (out ++ [((M / 10 ^ (e + 1) : Nat) : Int) + 48])
        rw [hm'] at h7
        have h8 := c8_b127 (f + Kih + 5) (((M % 10 ^ (e + 1) : Nat) : Int))
          rest S (out ++ [((M / 10 ^ (e + 1) : Nat) : Int) + 48])
        have h9 := c8_b129 (f + Kih) rest
          ((250, ((M % 10 ^ (e + 1) : Nat) : Int)) :: S)
          (out ++ [((M / 10 ^ (e + 1) : Nat) : Int) + 48])
        rw [c8_lookup251_skip, h251, hq] at h9
        have hfin := h1.trans (h2.trans (h3.trans (h4.trans (h5.trans
          (h6.trans (h7.trans (h8.trans (h9.trans (hrun f)))))))))
        rw [show (out ++ [((M / 10 ^ (e + 1) : Nat) : Int) + 48])
              ++ (natDigitsBE (e + 1) (M % 10 ^ (e + 1))).map
                  (fun d => (d : Int) + 48)
            = out ++ (natDigitsBE (e + 1 + 1) M).map
                (fun d => (d : Int) + 48) from by
          simp [natDigitsBE]] at hfin
        exact hfin
      · rw [hp255]
        rfl

/-- A number `m` is below `b^n` exactly when it has at most `n` digits in base `b`. -/
theorem c8_lt_pow_iff_len_le (b m n : Nat) (hb : 1 < b) :
    m < b ^ n ↔ (Nat.digits b m).length ≤ n := by
  rcases Nat.eq_zero_or_pos m with h0 | hpos
  · subst h0
    simp only [Nat.digits_zero, List.length_nil]
    constructor
    · intro _
      exact Nat.zero_le n
    · intro _
      exact pow_pos (by omega) n
  · rw [Nat.lt_pow_iff_log_lt hb (by omega), Nat.digits_len b m hb (by omega)]
    omega

/-- Decimal digits of `q * 10^(e+1) + r` for a leading digit `q`: the
digits of `r`, zero-padded to `e+1` places, then `q`. -/
theorem c8_digits_add : ∀ (e q r : Nat), 0 < q → q < 10 → r < 10 ^ (e + 1) →
    Nat.digits 10 (q * 10 ^ (e + 1) + r)
      = Nat.digits 10 r
        ++ List.replicate (e + 1 - (Nat.digits 10 r).length) 0 ++ [q] := by
  intro e
  induction e with
  | zero =>
      intro q r hq hq9 hr
      norm_num at hr
      have hN : 0 < q * 10 ^ 1 + r := by positivity
      rw [Nat.digits_def' (by norm_num : (1 : Nat) < 10) hN]
      have hmod : (q * 10 ^ 1 + r) % 10 = r := by
        have : q * 10 ^ 1 + r = 10 * q + r := by ring
        rw [this]
        omega
      have hdivv : (q * 10 ^ 1 + r) / 10 = q := by
        have : q * 10 ^ 1 + r = 10 * q + r := by ring
        rw [this]
        omega
      rw [hmod, hdivv]
      have hdq : Nat.digits 10 q = [q] := by
        rw [Nat.digits_def' (by norm_num : (1 : Nat) < 10) hq]
        have h1 : q % 10 = q := by omega
        have h2 : q / 10 = 0 := by omega
        rw [h1, h2]
        simp
      rw [hdq]
      rcases Nat.eq_zero_or_pos r with hr0 | hrpos
      · subst hr0
        simp
      · have hdr : Nat.digits 10 r = [r] := by
          rw [Nat.digits_def' (by norm_num : (1 : Nat) < 10) hrpos]
          have h1 : r % 10 = r := by omega
          have h2 : r / 10 = 0 := by omega
          rw [h1, h2]
          simp
        rw [hdr]
        simp
  | succ e ih =>
      intro q r hq hq9 hr
      have hN : 0 < q * 10 ^ (e + 2) + r := by positivity
      rw [Nat.digits_def' (by norm_num : (1 : Nat) < 10) hN]
      have hsplit : q * 10 ^ (e + 2) + r = 10 * (q * 10 ^ (e + 1)) + r := by
        ring
      have hmod : (q * 10 ^ (e + 2) + r) % 10 = r % 10 := by
        rw [hsplit]
        omega
      have hdivv : (q * 10 ^ (e + 2) + r) / 10 = q * 10 ^ (e + 1) + r / 10 := by
        rw [hsplit]
        omega
      rw [hmod, hdivv]
      have hr' : r / 10 < 10 ^ (e + 1) := by
        apply Nat.div_lt_of_lt_mul
        rw [← pow_succ']
        exact hr
      rw [ih q (r / 10) hq hq9 hr']
      rcases Nat.eq_zero_or_pos r with hr0 | hrpos
      · subst hr0
        simp [List.replicate_succ]
      · have hlen' : (Nat.digits 10 r).length
            = (Nat.digits 10 (r / 10)).length + 1 := by
          rw [Nat.digits_def' (by norm_num : (1 : Nat) < 10) hrpos]
          simp
        have hlenle : (Nat.digits 10 (r / 10)).length ≤ e + 1 :=
          (c8_lt_pow_iff_len_le 10 _ _ (by norm_num)).mp hr'
        rw [Nat.digits_def' (by norm_num : (1 : Nat) < 10) hrpos]
        simp only [List.length_cons]
        rw [show e + 1 + 1 - ((Nat.digits 10 (r / 10)).length + 1)
            = e + 1 - (Nat.digits 10 (r / 10)).length from by omega]
        simp

/-- The fixed-width big-endian digit list, reversed, is `Nat.digits`
plus zero padding. -/
theorem c8_natDigitsBE_rev : ∀ (e M : Nat), M < 10 ^ (e + 1) →
    (natDigitsBE (e + 1) M).reverse
      = Nat.digits 10 M
        ++ List.replicate (e + 1 - (Nat.digits 10 M).length) 0 := by
  intro e
  induction e with
  | zero =>
      intro M hM
      norm_num at hM
      rcases Nat.eq_zero_or_pos M with h0 | hpos
      · subst h0
        simp [natDigitsBE]
      · have hd : Nat.digits 10 M = [M] := by
          rw [Nat.digits_def' (by norm_num : (1 : Nat) < 10) hpos]
          have h1 : M % 10 = M := by omega
          have h2 : M / 10 = 0 := by omega
          rw [h1, h2]
          simp
        simp [natDigitsBE, hd]
  | succ e ih =>
      intro M hM
      have hr : M % 10 ^ (e + 1) < 10 ^ (e + 1) := Nat.mod_lt _ (by positivity)
      have hq : M / 10 ^ (e + 1) < 10 := by
        apply Nat.div_lt_of_lt_mul
        rw [← pow_succ]
        exact hM
      show ((M / 10 ^ (e + 1)) :: natDigitsBE (e + 1) (M % 10 ^ (e + 1))).reverse
        = _
      rw [List.reverse_cons, ih _ hr]
      rcases Nat.eq_zero_or_pos (M / 10 ^ (e + 1)) with h0 | hqpos
      · have hMlt : M < 10 ^ (e + 1) := by
          rcases Nat.lt_or_ge M (10 ^ (e + 1)) with h | h
          · exact h
          · exact absurd (Nat.one_le_div_iff (by positivity) |>.mpr h) (by omega)
        have hmm : M % 10 ^ (e + 1) = M := Nat.mod_eq_of_lt hMlt
        have hlen : (Nat.digits 10 M).length ≤ e + 1 :=
          (c8_lt_pow_iff_len_le 10 _ _ (by norm_num)).mp hMlt
        rw [hmm, h0]
        rw [List.append_assoc]
        congr 1
        rw [show e + 1 + 1 - (Nat.digits 10 M).length
            = e + 1 - (Nat.digits 10 M).length + 1 from by omega,
          List.replicate_succ']
      · have hMeq : M / 10 ^ (e + 1) * 10 ^ (e + 1) + M % 10 ^ (e + 1)
            = M := by
          rw [Nat.mul_comm]
          exact Nat.div_add_mod M (10 ^ (e + 1))
        have hdM : Nat.digits 10 M
            = Nat.digits 10 (M % 10 ^ (e + 1))
              ++ List.replicate
                  (e + 1 - (Nat.digits 10 (M % 10 ^ (e + 1))).length) 0
              ++ [M / 10 ^ (e + 1)] := by
          conv_lhs => rw [← hMeq]
          exact c8_digits_add e _ _ hqpos hq hr
        have hlenr : (Nat.digits 10 (M % 10 ^ (e + 1))).length ≤ e + 1 :=
          (c8_lt_pow_iff_len_le 10 _ _ (by norm_num)).mp hr
        rw [hdM]
        have hlenM : (Nat.digits 10 (M % 10 ^ (e + 1))
            ++ List.replicate
                (e + 1 - (Nat.digits 10 (M % 10 ^ (e + 1))).length) 0
            ++ [M / 10 ^ (e + 1)]).length = e + 2 := by
          simp
          omega
        rw [hlenM]
        simp

/-- With no leading zero the fixed-width digits are exactly the reversed
`Nat.digits`. -/
theorem c8_natDigitsBE_eq (e M : Nat) (hlo : 10 ^ e ≤ M)
    (hhi : M < 10 ^ (e + 1)) :
    natDigitsBE (e + 1) M = (Nat.digits 10 M).reverse := by
  have hlen1 : (Nat.digits 10 M).length ≤ e + 1 :=
    (c8_lt_pow_iff_len_le 10 _ _ (by norm_num)).mp hhi
  have hlen2 : ¬ (Nat.digits 10 M).length ≤ e := by
    intro hc
    exact absurd ((c8_lt_pow_iff_len_le 10 _ _ (by norm_num)).mpr hc)
      (not_lt.mpr hlo)
  have hlen : (Nat.digits 10 M).length = e + 1 := by omega
  have h := c8_natDigitsBE_rev e M hhi
  rw [hlen] at h
  simp only [Nat.sub_self, List.replicate_zero, List.append_nil] at h
  rw [← h, List.reverse_reverse]

/-- The decimal PRINT stream the helper is meant to emit for `n`: an
optional `'-'` (45), then the digits of `|n|` most significant first,
each plus 48 (`'0'`); a single 48 for zero. -/
def c8Output (n : Int) : List Int :=
  (if n < 0 then [45] else []) ++
  (if n = 0 then [48]
   else (Nat.digits 10 n.natAbs).reverse.map (fun d => (d : Int) + 48))

/-- From the zero-test block onward, a positive in-range value in slot
250 prints its digits and halts with the saved slot 255 on the stack. -/
theorem c8_tail (m : Int) (T : List (Nat × Int)) (rest out : List Int)
    (hm0 : 0 < m) (hm : m < 1410065408) :
    ∃ (K : Nat) (S' : List (Nat × Int)),
      ∀ f, vmRun c8Code (f + K) ⟨35, rest, (250, m) :: T, out⟩
        = .halted ⟨146, ((T.lookup 255).getD 0) :: rest, S',
            out ++ (Nat.digits 10 m.toNat).reverse.map
              (fun d => (d : Int) + 48)⟩ := by
  have hmM : ((m.toNat : Nat) : Int) = m := Int.toNat_of_nonneg hm0.le
  have h250a : ((((251, (1 : Int)) :: (250, m) :: T).lookup 250).getD 0)
      = m := rfl
  have h251a : ((((251, (1 : Int)) :: (250, m) :: T).lookup 251).getD 0)
      = (10 : Int) ^ 0 := by norm_num
  obtain ⟨K1, S2, hrun1, hp250, hp255, j', h251', hlo, hhi⟩ :=
    c8_fp 9 0 m ((251, (1 : Int)) :: (250, m) :: T) rest out h250a h251a
      (by simpa using hm0)
      (by have h : (10 : Int) ^ (0 + 9 + 1) = 10000000000 := by norm_num
          omega)
      hm
  have h250b : ((S2.lookup 250).getD 0) = ((m.toNat : Nat) : Int) := by
    rw [hp250]
    exact hmM.symm
  have hhiN : m.toNat < 10 ^ (j' + 1) := by
    have h := hhi
    rw [← hmM] at h
    exact_mod_cast h
  have hloN : 10 ^ j' ≤ m.toNat := by
    have h := hlo
    rw [← hmM] at h
    exact_mod_cast h
  obtain ⟨K2, S3, hrun2, hp255b⟩ := c8_pl j' m.toNat S2 rest out h250b h251' hhiN
  have h255c : ((S3.lookup 255).getD 0) = ((T.lookup 255).getD 0) := by
    rw [hp255b, hp255, c8_lookup255_skip251, c8_lookup255_skip250]
  refine ⟨K1 + K2 + 8, S3, ?_⟩
  intro f
  rw [show f + (K1 + K2 + 8) = ((((f + 2) + K2) + K1) + 3) + 3 from by omega]
  have h1 := c8_b35 ((((f + 2) + K2) + K1) + 3) m rest T out
  rw [if_neg (by omega : ¬ m = 0)] at h1
  have h2 := c8_jz43_zero ((((f + 2) + K2) + K1) + 2) rest ((250, m) :: T) out
  have h3 := c8_b58 (((f + 2) + K2) + K1) rest ((250, m) :: T) out
  have h4 := hrun1 ((f + 2) + K2)
  have h5 := hrun2 (f + 2)
  have h6 := c8_b144 f rest S3
    (out ++ (natDigitsBE (j' + 1) m.toNat).map (fun d => (d : Int) + 48))
  rw [h255c] at h6
  have hdig : (natDigitsBE (j' + 1) m.toNat).map (fun d => (d : Int) + 48)
      = (Nat.digits 10 m.toNat).reverse.map (fun d => (d : Int) + 48) := by
    rw [c8_natDigitsBE_eq j' m.toNat hloN hhiN]
  rw [hdig] at h5 h6
  exact h1.trans (h2.trans (h3.trans (h4.trans (h5.trans h6))))

/-- C8, amended.  Running `__print_int` on the §4.7 machine with `n` on
the operand stack and `v` above it, for `-1410065408 < n < 1410065408`
(not the claimed full `n > -2^31` range), halts having PRINTed exactly
the decimal string of `n` — a `'-'` then the digits when negative, `'0'`
when zero, the digits most significant first otherwise — with `v`
(restored from slot 255) back on top of the stack. -/
theorem c8_print_int_amended (n v : Int) (rest : List Int)
    (S : List (Nat × Int))
    (h1 : -1410065408 < n) (h2 : n < 1410065408) :
    ∃ (K : Nat) (s' : VMSt),
      vmRun c8Code K ⟨0, v :: n :: rest, S, []⟩ = .halted s' ∧
      s'.stack = v :: rest ∧ s'.out = c8Output n := by
  rcases lt_trichotomy n 0 with hneg | hzero | hpos
  · have hm0 : (0 : Int) < -n := by omega
    have hmlt : -n < 1410065408 := by omega
    obtain ⟨Kt, S', htail⟩ :=
      c8_tail (-n) ((250, n) :: (255, v) :: S) rest [45] hm0 hmlt
    refine ⟨Kt + 13, ⟨146, v :: rest, S',
      [45] ++ (Nat.digits 10 (-n).toNat).reverse.map
        (fun d => (d : Int) + 48)⟩, ?_, rfl, ?_⟩
    · have hb0 := c8_b0 (Kt + 8) n v rest S []
      rw [if_pos hneg] at hb0
      have hj := c8_jz12_one (Kt + 7) rest ((250, n) :: (255, v) :: S) []
      have hb17 := c8_b17 Kt n rest ((255, v) :: S) []
      rw [show wrap32 (0 - n) = -n from by
        rw [wrap32_eq (0 - n) (by omega) (by omega)]
        omega] at hb17
      have ht := htail 0
      rw [show (0 : Nat) + Kt = Kt from by omega] at ht
      exact hb0.trans (hj.trans (hb17.trans ht))
    · have habs : (-n).toNat = n.natAbs := by omega
      simp [c8Output, hneg, habs, ne_of_lt hneg]
  · subst hzero
    refine ⟨14, ⟨57, v :: rest, (250, (0 : Int)) :: (255, v) :: S, [48]⟩,
      ?_, rfl, by simp [c8Output]⟩
    have hb0 := c8_b0 9 0 v rest S []
    rw [if_neg (lt_irrefl 0)] at hb0
    have hj := c8_jz12_zero 8 rest ((250, (0 : Int)) :: (255, v) :: S) []
    have h35 := c8_b35 5 0 rest ((255, v) :: S) []
    rw [if_pos rfl] at h35
    have h43 := c8_jz43_one 4 rest ((250, (0 : Int)) :: (255, v) :: S) []
    have h48 := c8_b48 0 rest ((250, (0 : Int)) :: (255, v) :: S) []
    exact hb0.trans (hj.trans (h35.trans (h43.trans h48)))
  · obtain ⟨Kt, S', htail⟩ := c8_tail n ((255, v) :: S) rest [] hpos h2
    refine ⟨Kt + 6, ⟨146, v :: rest, S',
      (Nat.digits 10 n.toNat).reverse.map (fun d => (d : Int) + 48)⟩,
      ?_, rfl, ?_⟩
    · have hb0 := c8_b0 (Kt + 1) n v rest S []
      rw [if_neg (by omega)] at hb0
      have hj := c8_jz12_zero Kt rest ((250, n) :: (255, v) :: S) []
      have ht := htail 0
      rw [show (0 : Nat) + Kt = Kt from by omega] at ht
      exact hb0.trans (hj.trans ht)
    · have habs : n.toNat = n.natAbs := by omega
      simp [c8Output, habs, not_lt.mpr hpos.le, ne_of_gt hpos]

/-- C8, counterexample.  The claim's range `n > -2^31` is too wide: at
`n = 1500000000` (which is below `2^31`) the signed-32-bit wrap in the
`find_power` loop drives the power negative, so the digit loop exits at
once — the helper halts (in 189 steps) having printed nothing at all
instead of the ten digits of `n`. -/
theorem c8_counterexample :
    (∃ s', vmRun c8Code 200 ⟨0, [99, 1500000000], [], []⟩ = .halted s' ∧
      s'.out = [] ∧ s'.stack = [99]) ∧
    c8Output 1500000000 ≠ [] ∧
    (1500000000 : Int) < 2 ^ 31 :=
  ⟨⟨_, rfl, rfl, rfl⟩,
   by
    rw [show c8Output 1500000000 = [49, 53, 48, 48, 48, 48, 48, 48, 48, 48]
      from by norm_num [c8Output]]
    simp,
   by norm_num⟩

/-- Witness for `c8_print_int_amended` at the claim's sample values. -/
theorem c8_print_int_amended_witness :
    (∃ K s', vmRun c8Code K ⟨0, [7, -1000000000], [], []⟩ = .halted s' ∧
      s'.stack = [7] ∧ s'.out = c8Output (-1000000000)) ∧
    (∃ K s', vmRun c8Code K ⟨0, [7, 0], [], []⟩ = .halted s' ∧
      s'.stack = [7] ∧ s'.out = c8Output 0) ∧
    (∃ K s', vmRun c8Code K ⟨0, [7, 1000000000], [], []⟩ = .halted s' ∧
      s'.stack = [7] ∧ s'.out = c8Output 1000000000) ∧
    c8Output (-1000000000) = [45, 49, 48, 48, 48, 48, 48, 48, 48, 48, 48] ∧
    c8Output (-1) = [45, 49] ∧ c8Output 0 = [48] ∧ c8Output 1 = [49] ∧
    c8Output 10 = [49, 48] ∧
    c8Output 1000000000 = [49, 48, 48, 48, 48, 48, 48, 48, 48, 48] :=
  ⟨c8_print_int_amended (-1000000000) 7 [] [] (by norm_num) (by norm_num),
   c8_print_int_amended 0 7 [] [] (by norm_num) (by norm_num),
   c8_print_int_amended 1000000000 7 [] [] (by norm_num) (by norm_num),
   by norm_num [c8Output],
   by norm_num [c8Output],
   by norm_num [c8Output],
   by norm_num [c8Output],
   by norm_num [c8Output],
   by norm_num [c8Output]⟩

/-- Witness for `c4_amended` at the concrete PE run of `7 / 2`. -/
theorem c4_amended_witness :
    ∃ c, (⟨c4DivCode, [], 0, "pe", true⟩ : PESt).code
      = c ++ [0x59] ++ peBinaryOpBytes BinaryOp.div :=
  c4_amended.2.2.2.2.2 ⟨"p", [], [], []⟩ 1
    BinaryOp.div (Expression.number 7) (Expression.number 2)
    ⟨[], [], 0, "pe", true⟩ ⟨c4DivCode, [], 0, "pe", true⟩ rfl

end Perano
